import Mathlib

/-!
# Library system: the borrowing transaction core

A shallow embedding of `library-system` (Go, GORM over MySQL): the borrow and
admin services, the auth service, the book search and the middleware of the
admin routes.

* `models` become structures; a table is the list of its rows, in the order in
  which they were inserted, which is the order of their keys.
* The repositories (`repositories/*.go`) are one-line GORM calls.  GORM and the
  database are outside the repository, so each call is modelled by its SQL
  meaning on a keyed table: `First` looks a row up by key, `Save` overwrites the
  row carrying that key, `Create` inserts under a fresh store-assigned key,
  `Delete` removes the row with that key, `Where(..).Find/Count` filter.
  Primary keys are assigned by the store from 1 upward, so GORM's reading of a
  zero key as an absent key never concerns a stored row.
* Everything the environment decides during one service call is collected in
  `Env`: whether the k-th store access fails with a non-domain error, and what
  the k-th reading of `time.Now()` returns.  A constraint violation reported by
  the database (the unique indexes on book titles and user names) is one of the
  failures a fault stands for.
* String comparison in a query (`=`, and the plain characters of a `LIKE`
  pattern) is made by the collation of the column, which the repository does not
  set: it is taken as given (`Collation`, carried by `Env`).  The general theorems
  hold whatever it is; the examples run under `Collation.caseInsensitive`, which
  compares the letters A to Z as the default collations of MySQL do.
* `db.Transaction` commits the writes of its body when the body returns `nil`
  and discards them when it returns an error.  A service call runs on the store
  alone (`BorrowBook`, `ReturnBook`, `DeleteBook`); for transactions that run at
  the same time the reads of a body are separated from its writes
  (`BorrowBookAt`, `ReturnBookAt`, `DeleteBookAt`).
* Go `int` is the 64-bit two's-complement integer: values are `Int`s and the
  arithmetic the services perform (`Stock--`, `Stock++`) wraps modulo `2^64`.
* The libraries the code calls are taken as given: bcrypt as a pair of functions
  (`Bcrypt`), the session store by what its `Get` returns (`SessionGet`), gin by
  what a middleware does to the chain (`Outcome`).
-/

namespace LibrarySystem

/-! ## Machine integers -/

/-- Largest Go `int` (64-bit). -/
def maxInt : Int := 9223372036854775807

/-- Smallest Go `int` (64-bit). -/
def minInt : Int := -9223372036854775808

/-- Two's-complement wrap-around of a mathematical integer into the range of a
64-bit Go `int`: the result of Go's `+`, `-`, `++`, `--` on `int`. -/
def wrapInt (x : Int) : Int :=
  (x + 9223372036854775808) % 18446744073709551616 - 9223372036854775808

/-! ## Time -/

/-- Wall-clock reading of `time.Time`: civil date and nanoseconds since midnight. -/
structure Time where
  year : Int
  month : Nat
  day : Nat
  nsec : Nat
deriving DecidableEq, Repr

/-- Gregorian leap year. -/
def isLeap (y : Int) : Bool :=
  y % 4 == 0 && (y % 100 != 0 || y % 400 == 0)

/-- Number of days of month `m` (1 to 12) in year `y`. -/
def daysIn (y : Int) (m : Nat) : Nat :=
  if m = 2 then (if isLeap y then 29 else 28)
  else if m = 4 ∨ m = 6 ∨ m = 9 ∨ m = 11 then 30
  else 31

/-- The call `t.AddDate(0, 1, 0)`: the month is advanced by one and the result
is normalised the way `time.Date` does, a day past the end of the target month
running over into the month after it. -/
def Time.AddDate_0_1_0 (t : Time) : Time :=
  let y := if t.month = 12 then t.year + 1 else t.year
  let m := if t.month = 12 then 1 else t.month + 1
  if t.day ≤ daysIn y m then { year := y, month := m, day := t.day, nsec := t.nsec }
  else { year := y, month := m + 1, day := t.day - daysIn y m, nsec := t.nsec }

/-! ## models -/

/-- Row of `models.Book`. -/
structure Book where
  ID : Int
  Title : String
  Author : String
  Stock : Int
deriving DecidableEq, Repr

/-- Row of `models.BorrowRecord`; `ReturnedAt` is the nullable `*time.Time`. -/
structure BorrowRecord where
  ID : Int
  UserID : Int
  BookID : Int
  BorrowedAt : Time
  DueDate : Time
  ReturnedAt : Option Time
deriving DecidableEq, Repr

/-- The tables the borrowing core reads and writes. -/
structure Store where
  books : List Book
  records : List BorrowRecord
deriving DecidableEq, Repr

/-! ## services/errors.go -/

/-- The domain errors of `services/errors.go`, and `wrapped msg` for
`fmt.Errorf(msg + ": %w", err)` around a non-domain store error. -/
inductive Error where
  | ErrUserNotFound
  | ErrUserExists
  | ErrInvalidPassword
  | ErrBookNotFound
  | ErrBookExists
  | ErrStockNotEnough
  | ErrBorrowLimit
  | ErrRecordNotFound
  | ErrAlreadyReturned
  | ErrPermissionDenied
  | ErrInvalidInput
  | wrapped (msg : String)
deriving DecidableEq, Repr

/-- What a GORM call reports: `gorm.ErrRecordNotFound`, or any other error. -/
inductive DBError where
  | ErrRecordNotFound
  | failure
deriving DecidableEq, Repr

/-- The collation of the string columns of the database, taken as given:
`strEq column value` is the outcome of the comparison `column = ?`, and
`chrEq c p` says that the character `c` of a column equals the plain character
`p` of a `LIKE` pattern. -/
structure Collation where
  strEq : String → String → Bool
  chrEq : Char → Char → Bool

/-- What the environment decides during one service call: `fault k` says that
the store access at position `k` of the call fails with a non-domain error,
`now k` is the value of the k-th reading of `time.Now()`, and `coll` is the
collation under which the database compares strings. -/
structure Env where
  fault : Nat → Bool
  now : Nat → Time
  coll : Collation

/-- An environment in which no store access fails. -/
def NoFault (env : Env) : Prop := ∀ k, env.fault k = false

/-! ## repositories/book_repo.go -/

namespace bookRepositoryImpl

/-- Pure lookup behind `db.First(&book, id)`. -/
def find (books : List Book) (id : Int) : Option Book :=
  books.find? (fun b => b.ID == id)

/-- Key given to the next inserted row (auto-increment): positive and above every
key in the table. -/
def nextID (books : List Book) : Int :=
  (books.map (fun b => b.ID)).foldl max 0 + 1

/-- `GetByID`: `db.First(&book, id)`. -/
def GetByID (fault : Bool) (books : List Book) (id : Int) : Except DBError Book :=
  if fault then .error .failure
  else match find books id with
    | some b => .ok b
    | none => .error .ErrRecordNotFound

/-- `GetByTitle`: `db.First(&book, "title =?", title)`, the comparison made under
the collation. -/
def GetByTitle (fault : Bool) (coll : Collation) (books : List Book) (title : String) :
    Except DBError Book :=
  if fault then .error .failure
  else match books.find? (fun b => coll.strEq b.Title title) with
    | some b => .ok b
    | none => .error .ErrRecordNotFound

/-- `Create`: `db.Create(book)`, the store assigning the key. -/
def Create (fault : Bool) (books : List Book) (book : Book) : Except DBError (List Book) :=
  if fault then .error .failure
  else .ok (books ++ [{ book with ID := nextID books }])

/-- `Update`: `db.Save(book)` for a stored row, all columns overwritten. -/
def Update (fault : Bool) (books : List Book) (book : Book) : Except DBError (List Book) :=
  if fault then .error .failure
  else .ok (books.map (fun b => if b.ID = book.ID then book else b))

/-- `Delete`: `db.Delete(book)`, by primary key. -/
def Delete (fault : Bool) (books : List Book) (book : Book) : Except DBError (List Book) :=
  if fault then .error .failure
  else .ok (books.filter (fun b => b.ID != book.ID))

end bookRepositoryImpl

/-! ## repositories/borrow_record_repo.go -/

namespace borrowRecordRepoImpl

/-- Pure lookup behind `db.First(&record, id)`. -/
def find (records : List BorrowRecord) (id : Int) : Option BorrowRecord :=
  records.find? (fun r => r.ID == id)

/-- Key given to the next inserted row (auto-increment): positive and above every
key in the table. -/
def nextID (records : List BorrowRecord) : Int :=
  (records.map (fun r => r.ID)).foldl max 0 + 1

/-- `Create`: `db.Create(record)`, the store assigning the key. -/
def Create (fault : Bool) (records : List BorrowRecord) (record : BorrowRecord) :
    Except DBError (List BorrowRecord) :=
  if fault then .error .failure
  else .ok (records ++ [{ record with ID := nextID records }])

/-- `Update`: `db.Save(record)` for a stored row, all columns overwritten. -/
def Update (fault : Bool) (records : List BorrowRecord) (record : BorrowRecord) :
    Except DBError (List BorrowRecord) :=
  if fault then .error .failure
  else .ok (records.map (fun r => if r.ID = record.ID then record else r))

/-- `GetByID`: `db.First(&record, id)`. -/
def GetByID (fault : Bool) (records : List BorrowRecord) (id : Int) :
    Except DBError BorrowRecord :=
  if fault then .error .failure
  else match find records id with
    | some r => .ok r
    | none => .error .ErrRecordNotFound

/-- `GetByUserID`: `db.Where("user_id = ?", userid).Find(&records)`. -/
def GetByUserID (fault : Bool) (records : List BorrowRecord) (userid : Int) :
    Except DBError (List BorrowRecord) :=
  if fault then .error .failure
  else .ok (records.filter (fun r => r.UserID == userid))

/-- `GetByBookID`: `db.Where("book_id = ?", bookid).Find(&records)`. -/
def GetByBookID (fault : Bool) (records : List BorrowRecord) (bookid : Int) :
    Except DBError (List BorrowRecord) :=
  if fault then .error .failure
  else .ok (records.filter (fun r => r.BookID == bookid))

/-- Number of rows matching `user_id = ? AND returned_at IS NULL`. -/
def activeCount (records : List BorrowRecord) (userID : Int) : Nat :=
  records.countP (fun r => r.UserID == userID && r.ReturnedAt.isNone)

/-- `CountActiveBorrowsByUserID`:
`db.Model(..).Where("user_id = ? AND returned_at IS NULL", userID).Count(&count)`. -/
def CountActiveBorrowsByUserID (fault : Bool) (records : List BorrowRecord) (userID : Int) :
    Except DBError Int :=
  if fault then .error .failure
  else .ok (activeCount records userID : Nat)

/-- `GetAll`: `db.Find(&records)`. -/
def GetAll (fault : Bool) (records : List BorrowRecord) : Except DBError (List BorrowRecord) :=
  if fault then .error .failure
  else .ok records

end borrowRecordRepoImpl

/-! ## gorm transactions -/

/-- `db.Transaction(fc)`: `fc` runs on the transaction handle and returns its
error together with the tables as its writes left them; the writes are committed
when the error is `nil` and rolled back otherwise. -/
def Transaction (s : Store) (fc : Store → Option Error × Store) : Option Error × Store :=
  match fc s with
  | (none, tx) => (none, tx)
  | (some err, _) => (some err, s)

/-! ## services/borrow_service.go -/

namespace BorrowService

/-- Body of the transaction of `BorrowBook`.  Store accesses, in order:
0 `GetByID`, 1 `CountActiveBorrowsByUserID`, 2 `Update`, 3 `Create`.
Clock readings: 0 for `BorrowedAt`, 1 for `DueDate`. -/
def borrowTx (env : Env) (userID bookID : Int) (tx : Store) : Option Error × Store :=
  match bookRepositoryImpl.GetByID (env.fault 0) tx.books bookID with
  | .error .ErrRecordNotFound => (some .ErrBookNotFound, tx)
  | .error .failure => (some (.wrapped "failed to get book by ID"), tx)
  | .ok book =>
    if book.Stock ≤ 0 then (some .ErrStockNotEnough, tx)
    else match borrowRecordRepoImpl.CountActiveBorrowsByUserID (env.fault 1) tx.records userID with
      | .error _ => (some (.wrapped "failed to count active borrows by user ID"), tx)
      | .ok Count =>
        if Count ≥ 5 then (some .ErrBorrowLimit, tx)
        else match bookRepositoryImpl.Update (env.fault 2) tx.books
              { book with Stock := wrapInt (book.Stock - 1) } with
          | .error _ => (some (.wrapped "failed to update book stock"), tx)
          | .ok books1 =>
            match borrowRecordRepoImpl.Create (env.fault 3) tx.records
                { ID := 0, UserID := userID, BookID := bookID,
                  BorrowedAt := env.now 0, DueDate := (env.now 1).AddDate_0_1_0,
                  ReturnedAt := none } with
            | .error _ =>
              (some (.wrapped "failed to create borrow record"), { tx with books := books1 })
            | .ok records1 => (none, { books := books1, records := records1 })

/-- `BorrowService.BorrowBook(userID, bookID)`: the returned error (`none` for
`nil`) and the store after the call. -/
def BorrowBook (env : Env) (s : Store) (userID bookID : Int) : Option Error × Store :=
  if userID ≤ 0 ∨ bookID ≤ 0 then (some .ErrInvalidInput, s)
  else Transaction s (borrowTx env userID bookID)

/-- Body of the transaction of `ReturnBook`.  Store accesses, in order:
0 `GetByID` (record), 1 `GetByID` (book), 2 `Update` (book), 3 `Update` (record).
Clock reading 0 is `currentTime`. -/
def returnTx (env : Env) (recordID currentUserID : Int) (tx : Store) : Option Error × Store :=
  match borrowRecordRepoImpl.GetByID (env.fault 0) tx.records recordID with
  | .error .ErrRecordNotFound => (some .ErrRecordNotFound, tx)
  | .error .failure => (some (.wrapped "failed to get borrow record by ID"), tx)
  | .ok record =>
    if record.UserID ≠ currentUserID then (some .ErrPermissionDenied, tx)
    else if record.ReturnedAt ≠ none then (some .ErrAlreadyReturned, tx)
    else match bookRepositoryImpl.GetByID (env.fault 1) tx.books record.BookID with
      | .error .ErrRecordNotFound => (some .ErrBookNotFound, tx)
      | .error .failure => (some (.wrapped "failed to get book by ID"), tx)
      | .ok book =>
        match bookRepositoryImpl.Update (env.fault 2) tx.books
            { book with Stock := wrapInt (book.Stock + 1) } with
        | .error _ => (some (.wrapped "failed to update book stock"), tx)
        | .ok books1 =>
          match borrowRecordRepoImpl.Update (env.fault 3) tx.records
              { record with ReturnedAt := some (env.now 0) } with
          | .error _ =>
            (some (.wrapped "failed to update borrow record"), { tx with books := books1 })
          | .ok records1 => (none, { books := books1, records := records1 })

/-- `BorrowService.ReturnBook(recordID, currentUserID)`. -/
def ReturnBook (env : Env) (s : Store) (recordID currentUserID : Int) : Option Error × Store :=
  if recordID ≤ 0 ∨ currentUserID ≤ 0 then (some .ErrInvalidInput, s)
  else Transaction s (returnTx env recordID currentUserID)

/-- `BorrowService.GetUserBorrowRecords(userID)`: the returned list (`none` for
a `nil` slice) and the returned error. -/
def GetUserBorrowRecords (env : Env) (s : Store) (userID : Int) :
    Option (List BorrowRecord) × Option Error :=
  if userID ≤ 0 then (none, some .ErrInvalidInput)
  else match borrowRecordRepoImpl.GetByUserID (env.fault 0) s.records userID with
    | .error .ErrRecordNotFound => (some [], some .ErrRecordNotFound)
    | .error .failure => (none, some (.wrapped "failed to get borrow records by user ID"))
    | .ok records => (some records, none)

end BorrowService

/-! ## services/admin_service.go -/

namespace AdminService

/-- `AdminService.AddBook(title, author, stock)`.  Store accesses: 0 `GetByTitle`,
1 `Create`. -/
def AddBook (env : Env) (s : Store) (title author : String) (stock : Int) :
    Option Error × Store :=
  if title = "" ∨ author = "" ∨ stock < 0 then (some .ErrInvalidInput, s)
  else match bookRepositoryImpl.GetByTitle (env.fault 0) env.coll s.books title with
    | .error .failure => (some (.wrapped "failed to check book existence"), s)
    | .ok _ => (some .ErrBookExists, s)
    | .error .ErrRecordNotFound =>
      match bookRepositoryImpl.Create (env.fault 1) s.books
          { ID := 0, Title := title, Author := author, Stock := stock } with
      | .error _ => (some (.wrapped "failed to create book"), s)
      | .ok books1 => (none, { s with books := books1 })

/-- `AdminService.UpdateBook(title, author, ID, stock)`.  Store accesses:
0 `GetByID`, 1 `Update`. -/
def UpdateBook (env : Env) (s : Store) (title author : String) (ID stock : Int) :
    Option Error × Store :=
  if title = "" ∨ author = "" ∨ ID < 0 ∨ stock < 0 then (some .ErrInvalidInput, s)
  else match bookRepositoryImpl.GetByID (env.fault 0) s.books ID with
    | .error .ErrRecordNotFound => (some .ErrBookNotFound, s)
    | .error .failure => (some (.wrapped "failed to get book by ID"), s)
    | .ok book =>
      match bookRepositoryImpl.Update (env.fault 1) s.books
          { book with Title := title, Author := author, Stock := stock } with
      | .error _ => (some (.wrapped "failed to update book"), s)
      | .ok books1 => (none, { s with books := books1 })

/-- The loop `for _, record := range borrowRecords` of `DeleteBook`, from its
`i`-th iteration on, over the rows still to visit and the current table: every
iteration reads the clock (reading `i`), and a row fetched open is closed with
that reading and saved (store access `2 + i`).  Returns the first error, if any,
and the table as the writes so far left it. -/
def closeLoop (env : Env) : List BorrowRecord → Nat → List BorrowRecord →
    Option Error × List BorrowRecord
  | [], _, table => (none, table)
  | record :: rest, i, table =>
    if record.ReturnedAt = none then
      match borrowRecordRepoImpl.Update (env.fault (2 + i)) table
          { record with ReturnedAt := some (env.now i) } with
      | .error _ => (some (.wrapped "failed to update borrow record"), table)
      | .ok table1 => closeLoop env rest (i + 1) table1
    else closeLoop env rest (i + 1) table

/-- Body of the transaction of `DeleteBook`.  Store accesses: 0 `GetByID`,
1 `GetByBookID`, `2 + i` the `Update` of the `i`-th fetched row,
`2 + n` the final `Delete`, `n` being the number of fetched rows. -/
def deleteTx (env : Env) (ID : Int) (tx : Store) : Option Error × Store :=
  match bookRepositoryImpl.GetByID (env.fault 0) tx.books ID with
  | .error .ErrRecordNotFound => (some .ErrBookNotFound, tx)
  | .error .failure => (some (.wrapped "failed to get book by ID"), tx)
  | .ok book =>
    match borrowRecordRepoImpl.GetByBookID (env.fault 1) tx.records ID with
    | .error _ => (some (.wrapped "failed to get borrow records by book ID"), tx)
    | .ok borrowRecords =>
      match closeLoop env borrowRecords 0 tx.records with
      | (some err, records1) => (some err, { tx with records := records1 })
      | (none, records1) =>
        match bookRepositoryImpl.Delete (env.fault (2 + borrowRecords.length)) tx.books book with
        | .error _ => (some (.wrapped "failed to delete book"), { tx with records := records1 })
        | .ok books1 => (none, { books := books1, records := records1 })

/-- `AdminService.DeleteBook(ID)`. -/
def DeleteBook (env : Env) (s : Store) (ID : Int) : Option Error × Store :=
  if ID < 0 then (some .ErrInvalidInput, s)
  else Transaction s (deleteTx env ID)

/-- `AdminService.GetAllBorrowRecords()`. -/
def GetAllBorrowRecords (env : Env) (s : Store) : Option (List BorrowRecord) × Option Error :=
  match borrowRecordRepoImpl.GetAll (env.fault 0) s.records with
  | .error _ => (none, some (.wrapped "failed to get all borrow records"))
  | .ok records => (some records, none)

end AdminService

/-! ## Sequences of service calls -/

/-- One call of a state-changing service operation, with its arguments and the
environment it runs in. -/
inductive Call where
  | AddBook (env : Env) (title author : String) (stock : Int)
  | UpdateBook (env : Env) (title author : String) (ID stock : Int)
  | DeleteBook (env : Env) (ID : Int)
  | BorrowBook (env : Env) (userID bookID : Int)
  | ReturnBook (env : Env) (recordID currentUserID : Int)

/-- Result of one call: the returned error and the store afterwards. -/
def Call.exec (s : Store) : Call → Option Error × Store
  | .AddBook env title author stock => AdminService.AddBook env s title author stock
  | .UpdateBook env title author ID stock => AdminService.UpdateBook env s title author ID stock
  | .DeleteBook env ID => AdminService.DeleteBook env s ID
  | .BorrowBook env userID bookID => BorrowService.BorrowBook env s userID bookID
  | .ReturnBook env recordID currentUserID => BorrowService.ReturnBook env s recordID currentUserID

/-- Store after a finite sequence of calls made one after the other. -/
def run (s : Store) (calls : List Call) : Store :=
  calls.foldl (fun st c => (c.exec st).2) s

/-! ## Properties of stores and of call sequences -/

/-- A mathematical integer that is a value of Go's 64-bit `int`. -/
def isInt (x : Int) : Bool := decide (minInt ≤ x) && decide (x ≤ maxInt)

/-- Every integer argument of the call is a value of Go's `int`. -/
def Call.WellTyped : Call → Bool
  | .AddBook _ _ _ stock => isInt stock
  | .UpdateBook _ _ _ ID stock => isInt ID && isInt stock
  | .DeleteBook _ ID => isInt ID
  | .BorrowBook _ userID bookID => isInt userID && isInt bookID
  | .ReturnBook _ recordID currentUserID => isInt recordID && isInt currentUserID

/-- The call is a `ReturnBook` that succeeds on a record whose book has the
largest `int` as its stock, so that `book.Stock++` wraps around. -/
def Call.overflows (s : Store) : Call → Bool
  | .ReturnBook env recordID currentUserID =>
    match borrowRecordRepoImpl.find s.records recordID with
    | none => false
    | some record =>
      match bookRepositoryImpl.find s.books record.BookID with
      | none => false
      | some book =>
        decide (maxInt ≤ book.Stock) &&
          (BorrowService.ReturnBook env s recordID currentUserID).1.isNone
  | _ => false

/-- No call of the sequence, made in the state the calls before it produce,
is a successful `ReturnBook` whose increment wraps around. -/
def OverflowFree : Store → List Call → Bool
  | _, [] => true
  | s, c :: cs => !(c.overflows s) && OverflowFree (c.exec s).2 cs

/-- Every book's stock is non-negative. -/
def StockNonneg (s : Store) : Prop := ∀ b ∈ s.books, 0 ≤ b.Stock

/-- Every book's stock is a non-negative value of Go's `int`. -/
def StockInRange (s : Store) : Prop := ∀ b ∈ s.books, 0 ≤ b.Stock ∧ b.Stock ≤ maxInt

/-- Every open record references a book that exists. -/
def Referential (s : Store) : Prop :=
  ∀ r ∈ s.records, r.ReturnedAt = none → ∃ b ∈ s.books, b.ID = r.BookID

/-- The records table after one pass that closes every open record of book
`ID`: the rows of that book are numbered from `i` in table order, and an open one
receives the clock reading of its number. -/
def closeAll (env : Env) (ID : Int) : Nat → List BorrowRecord → List BorrowRecord
  | _, [] => []
  | i, r :: rs =>
    if r.BookID = ID then
      (if r.ReturnedAt = none then { r with ReturnedAt := some (env.now i) } else r)
        :: closeAll env ID (i + 1) rs
    else r :: closeAll env ID i rs

/-! ## Sample environments and stores -/

/-- The code of a character with the letters A to Z folded onto a to z. -/
def foldCase (c : Char) : Nat :=
  if 65 ≤ c.toNat ∧ c.toNat ≤ 90 then c.toNat + 32 else c.toNat

/-- A collation that compares without regard to the case of the letters A to Z,
as the collations MySQL gives a column by default do. -/
def Collation.caseInsensitive : Collation :=
  { strEq := fun column value => column.data.map foldCase == value.data.map foldCase
    chrEq := fun c p => foldCase c == foldCase p }

/-- An environment without faults whose clock always shows `t`, on a database
with the case-insensitive collation. -/
def Env.calm (t : Time) : Env :=
  { fault := fun _ => false, now := fun _ => t, coll := Collation.caseInsensitive }

/-- Sample clock reading: 15 January 2024, 10:30. -/
def t0 : Time := { year := 2024, month := 1, day := 15, nsec := 37800000000000 }

/-- The empty store. -/
def Store.empty : Store := { books := [], records := [] }

/-- An environment whose clock always shows `t` and in which exactly the store
access at position `k` fails. -/
def Env.failAt (k : Nat) (t : Time) : Env :=
  { fault := fun j => j == k, now := fun _ => t, coll := Collation.caseInsensitive }

/-- An open record borrowed at `t0`. -/
def openRecord (id userID bookID : Int) : BorrowRecord :=
  { ID := id, UserID := userID, BookID := bookID, BorrowedAt := t0,
    DueDate := t0.AddDate_0_1_0, ReturnedAt := none }

/-- The catalogue of the specification's scenario: one book with one copy. -/
def oneCopy : Store :=
  { books := [{ ID := 1, Title := "X", Author := "Y", Stock := 1 }], records := [] }

/-- The only copy of book 1 is out with user 7. -/
def lentOut : Store :=
  { books := [{ ID := 1, Title := "X", Author := "Y", Stock := 0 }],
    records := [openRecord 1 7 1] }

/-- User 7 holds five open records on book 1, which has three copies left; book 2
has none left. -/
def fiveOpen : Store :=
  { books := [{ ID := 1, Title := "X", Author := "Y", Stock := 3 },
              { ID := 2, Title := "Z", Author := "Y", Stock := 0 }],
    records := [openRecord 1 7 1, openRecord 2 7 1, openRecord 3 7 1, openRecord 4 7 1,
                openRecord 5 7 1] }

/-- Book 1 has the largest `int` as its stock while user 7 holds a copy of it. -/
def lentAtMax : Store :=
  { books := [{ ID := 1, Title := "X", Author := "Y", Stock := 9223372036854775807 }],
    records := [openRecord 1 7 1] }

/-- Book 1 is out with users 7 and 8 (records 1 and 3), was returned once
(record 2), and user 7 also holds book 2 (record 4). -/
def twoOnLoan : Store :=
  { books := [{ ID := 1, Title := "X", Author := "Y", Stock := 0 },
              { ID := 2, Title := "Z", Author := "Y", Stock := 4 }],
    records := [openRecord 1 7 1,
                { openRecord 2 9 1 with ReturnedAt := some t0 },
                openRecord 3 8 1,
                openRecord 4 7 2] }

/-- A clock reading later than `t0`: 20 January 2024, 09:00. -/
def t1 : Time := { year := 2024, month := 1, day := 20, nsec := 32400000000000 }

/-- Add a book with the largest stock, lend it, reset its stock to the largest
value, take the copy back. -/
def overflowCalls : List Call :=
  [ .AddBook (Env.calm t0) "X" "Y" 9223372036854775807,
    .BorrowBook (Env.calm t0) 1 1,
    .UpdateBook (Env.calm t0) "X" "Y" 1 9223372036854775807,
    .ReturnBook (Env.calm t0) 1 1 ]

/-! ## models/user.go and repositories/user_repo.go -/

/-- Row of `models.User`; `Password` holds the stored hash. -/
structure User where
  ID : Int
  Name : String
  Password : String
  Role : String
deriving DecidableEq, Repr

namespace userRepositoryImpl

/-- Pure lookup behind `db.First(&user, "name = ?", username)`, the comparison
made under the collation. -/
def find (coll : Collation) (users : List User) (username : String) : Option User :=
  users.find? (fun u => coll.strEq u.Name username)

/-- Key given to the next inserted row (auto-increment): positive and above every
key in the table. -/
def nextID (users : List User) : Int :=
  (users.map (fun u => u.ID)).foldl max 0 + 1

/-- `Create`: `db.Create(user)`, the store assigning the key. -/
def Create (fault : Bool) (users : List User) (user : User) : Except DBError (List User) :=
  if fault then .error .failure
  else .ok (users ++ [{ user with ID := nextID users }])

/-- `GetByUserID`: `db.First(&user, id)`. -/
def GetByUserID (fault : Bool) (users : List User) (id : Int) : Except DBError User :=
  if fault then .error .failure
  else match users.find? (fun u => u.ID == id) with
    | some u => .ok u
    | none => .error .ErrRecordNotFound

/-- `GetByUsername`: `db.First(&user, "name = ?", username)`. -/
def GetByUsername (fault : Bool) (coll : Collation) (users : List User) (username : String) :
    Except DBError User :=
  if fault then .error .failure
  else match find coll users username with
    | some u => .ok u
    | none => .error .ErrRecordNotFound

end userRepositoryImpl

/-! ## services/auth_service.go -/

/-- The two functions of `golang.org/x/crypto/bcrypt` the service calls, taken as
given.  `GenerateFromPassword salt password` is the hash produced when the
library draws `salt`, or `none` when it returns an error;
`CompareHashAndPassword hashedPassword password` says that the call returns
`nil`. -/
structure Bcrypt where
  GenerateFromPassword : Nat → String → Option String
  CompareHashAndPassword : String → String → Bool

namespace AuthService

/-- `AuthService.Login(username, password)`: the returned user (`none` for `nil`)
and the returned error.  Store access 0 is `GetByUsername`. -/
def Login (env : Env) (bcrypt : Bcrypt) (users : List User) (username password : String) :
    Option User × Option Error :=
  match userRepositoryImpl.GetByUsername (env.fault 0) env.coll users username with
  | .error .ErrRecordNotFound => (none, some .ErrUserNotFound)
  | .error .failure => (none, some (.wrapped "failed to get user by username"))
  | .ok user =>
    if bcrypt.CompareHashAndPassword user.Password password then (some user, none)
    else (none, some .ErrInvalidPassword)

/-- `AuthService.Register(username, password)`: the returned error and the users
table after the call.  Store accesses: 0 `GetByUsername`, 1 `Create`; `salt` is
what the hashing draws. -/
def Register (env : Env) (bcrypt : Bcrypt) (salt : Nat) (users : List User)
    (username password : String) : Option Error × List User :=
  match userRepositoryImpl.GetByUsername (env.fault 0) env.coll users username with
  | .error .failure => (some (.wrapped "failed to check username existence"), users)
  | .ok _ => (some .ErrUserExists, users)
  | .error .ErrRecordNotFound =>
    match bcrypt.GenerateFromPassword salt password with
    | none => (some (.wrapped "failed to hash password"), users)
    | some hashedPassword =>
      match userRepositoryImpl.Create (env.fault 1) users
          { ID := 0, Name := username, Password := hashedPassword, Role := "user" } with
      | .error _ => (some (.wrapped "failed to create user"), users)
      | .ok users1 => (none, users1)

end AuthService

/-! ## SQL `LIKE` and the search queries of repositories/book_repo.go -/

/-- The escape character of `LIKE`, the backslash. -/
def likeEscape : Char := Char.ofNat 92

/-- The match of a string against a `LIKE` pattern, character by character:
`%` stands for any run of characters, `_` for any one character, the escape
character makes the character after it literal (and stands for itself at the end
of the pattern), any other character stands for the characters equal to it under
the collation. -/
def likeMatch (coll : Collation) : List Char → List Char → Bool
  | [], s => s.isEmpty
  | c :: p, s =>
    if c = '%' then s.tails.any (fun t => likeMatch coll p t)
    else if c = '_' then
      (match s with
        | [] => false
        | _ :: t => likeMatch coll p t)
    else if c = likeEscape then
      (match p with
        | [] =>
          (match s with
            | [d] => coll.chrEq d likeEscape
            | _ => false)
        | x :: q =>
          match s with
          | [] => false
          | d :: t => coll.chrEq d x && likeMatch coll q t)
    else
      (match s with
        | [] => false
        | d :: t => coll.chrEq d c && likeMatch coll p t)

/-- The condition `column LIKE pattern` under the collation. -/
def sqlLike (coll : Collation) (column pattern : String) : Bool :=
  likeMatch coll pattern.data column.data

namespace bookRepositoryImpl

/-- `GetAll`: `db.Find(&books)`. -/
def GetAll (fault : Bool) (books : List Book) : Except DBError (List Book) :=
  if fault then .error .failure
  else .ok books

/-- `SearchByKeyword`:
`db.Where("title LIKE ? OR author LIKE ?", "%"+keyword+"%", "%"+keyword+"%").Find(&books)`. -/
def SearchByKeyword (fault : Bool) (coll : Collation) (books : List Book) (keyword : String) :
    Except DBError (List Book) :=
  if fault then .error .failure
  else .ok (books.filter (fun b =>
    sqlLike coll b.Title ("%" ++ keyword ++ "%") ||
      sqlLike coll b.Author ("%" ++ keyword ++ "%")))

/-- `SearchByTitleKeyword`: `db.Where("title LIKE ?", "%"+titlekeyword+"%").Find(&books)`. -/
def SearchByTitleKeyword (fault : Bool) (coll : Collation) (books : List Book)
    (titlekeyword : String) : Except DBError (List Book) :=
  if fault then .error .failure
  else .ok (books.filter (fun b => sqlLike coll b.Title ("%" ++ titlekeyword ++ "%")))

/-- `SearchByAuthor`: `db.Where("author = ?", author).Find(&books)`. -/
def SearchByAuthor (fault : Bool) (coll : Collation) (books : List Book) (author : String) :
    Except DBError (List Book) :=
  if fault then .error .failure
  else .ok (books.filter (fun b => coll.strEq b.Author author))

end bookRepositoryImpl

/-! ## services/book_service.go -/

namespace BookService

/-- `BookService.SearchBooksByKeyword(keyword)`: the returned list and error. -/
def SearchBooksByKeyword (env : Env) (s : Store) (keyword : String) :
    List Book × Option Error :=
  match bookRepositoryImpl.SearchByKeyword (env.fault 0) env.coll s.books keyword with
  | .error _ => ([], some (.wrapped "failed to search books by keyword"))
  | .ok books => (books, none)

/-- `BookService.SearchBooksByTitleKeyword(titlekeyword)`: the returned list and
error. -/
def SearchBooksByTitleKeyword (env : Env) (s : Store) (titlekeyword : String) :
    List Book × Option Error :=
  match bookRepositoryImpl.SearchByTitleKeyword (env.fault 0) env.coll s.books titlekeyword with
  | .error _ => ([], some (.wrapped "failed to search books by title keyword"))
  | .ok books => (books, none)

/-- `BookService.SearchBooksByAuthor(author)`: the returned list and error. -/
def SearchBooksByAuthor (env : Env) (s : Store) (author : String) :
    List Book × Option Error :=
  match bookRepositoryImpl.SearchByAuthor (env.fault 0) env.coll s.books author with
  | .error _ => ([], some (.wrapped "failed to search books by author"))
  | .ok books => (books, none)

end BookService

/-! ## middleware/auth.go and the admin routes of main.go -/

/-- A value stored under a key of `session.Values`, as far as the type
assertions of the middleware tell values apart. -/
inductive SessionValue where
  | bool (b : Bool)
  | int (n : Int)
  | string (s : String)
  | other
deriving DecidableEq, Repr

/-- The entries of `session.Values` the middleware reads; `none` is a missing
key. -/
structure Session where
  authenticated : Option SessionValue
  userID : Option SessionValue
  username : Option SessionValue
  role : Option SessionValue
deriving DecidableEq, Repr

/-- What `sessionStore.Get(c.Request, "library-session")` returns: a session,
and whether an error comes with it, as it does when the cookie of the request
cannot be decoded. -/
structure SessionGet where
  session : Session
  err : Bool
deriving DecidableEq, Repr

/-- How a gin middleware ends: `next` calls `c.Next()` with the user it leaves
in the context, `abort` is `c.AbortWithStatusJSON(status, ..)`, `panic` is a
failed type assertion. -/
inductive Outcome where
  | next (user : User)
  | abort (status : Nat)
  | panic
deriving DecidableEq, Repr

/-- `AuthMiddleware(sessionStore)` applied to a request whose session lookup
returns `get`. -/
def AuthMiddleware (get : SessionGet) : Outcome :=
  if get.err then .abort 500
  else match get.session.authenticated with
    | some (.bool true) =>
      (match get.session.userID with
        | some (.int userID) =>
          (match get.session.username with
            | some (.string username) =>
              (match get.session.role with
                | some (.string role) =>
                  .next { ID := userID, Name := username, Password := "", Role := role }
                | _ => .panic)
            | _ => .panic)
        | _ => .panic)
    | _ => .abort 401

/-- `AdminMiddleware()` applied to a context in which `c.Get("user")` gives
`userObj` (`none` when the key is not set). -/
def AdminMiddleware (userObj : Option User) : Outcome :=
  match userObj with
  | none => .abort 401
  | some user => if user.Role ≠ "admin" then .abort 403 else .next user

/-- The middleware of the group `/api/v1/admin`, as registered in `main`:
`AuthMiddleware`, then `AdminMiddleware` on the context it leaves. -/
def adminChain (get : SessionGet) : Outcome :=
  match AuthMiddleware get with
  | .next user => AdminMiddleware (some user)
  | .abort status => .abort status
  | .panic => .panic

/-- A request to an admin route: the status answered and the store afterwards.
`handler` is the admin handler of the route, run only when both middleware call
`c.Next()`; a panic is answered 500 by the recovery middleware of
`gin.Default()`. -/
def adminRoute (get : SessionGet) (handler : Store → Nat × Store) (s : Store) : Nat × Store :=
  match adminChain get with
  | .next _ => handler s
  | .abort status => (status, s)
  | .panic => (500, s)

/-- The fields of `AddBookRequest`. -/
structure AddBookRequest where
  Title : String
  Author : String
  Stock : Int
deriving DecidableEq, Repr

namespace AdminHandler

/-- `AdminHandler.AddBook`: `body` is the decoded JSON body (`none` when it does
not decode); every field is `binding:"required"`, which refuses a zero value. -/
def AddBook (env : Env) (body : Option AddBookRequest) (s : Store) : Nat × Store :=
  match body with
  | none => (400, s)
  | some req =>
    if req.Title = "" ∨ req.Author = "" ∨ req.Stock = 0 then (400, s)
    else match AdminService.AddBook env s req.Title req.Author req.Stock with
      | (none, s1) => (200, s1)
      | (some .ErrInvalidInput, s1) => (400, s1)
      | (some .ErrBookExists, s1) => (409, s1)
      | (some _, s1) => (500, s1)

end AdminHandler

/-! ## Further sample data -/

/-- A stand-in for bcrypt in examples: the hash is a marker followed by the
password reversed, whatever the salt; a password of more than 72 characters is
refused. -/
def toyBcrypt : Bcrypt :=
  { GenerateFromPassword := fun _ password =>
      if password.length > 72 then none
      else some ("$toy$" ++ String.mk password.data.reverse)
    CompareHashAndPassword := fun hashedPassword password =>
      hashedPassword == "$toy$" ++ String.mk password.data.reverse }

/-- The clock advances by 200 nanoseconds between the two readings of a call. -/
def Env.ticking : Env :=
  { fault := fun _ => false
    now := fun k => if k = 0 then { t0 with nsec := 37800000499900 }
                    else { t0 with nsec := 37800000500100 }
    coll := Collation.caseInsensitive }

/-- A catalogue for the search examples. -/
def shelf : Store :=
  { books := [{ ID := 1, Title := "abc", Author := "xyz", Stock := 1 },
              { ID := 2, Title := "a_c", Author := "pq", Stock := 2 },
              { ID := 3, Title := "100%", Author := "rs", Stock := 0 }],
    records := [] }

/-- The session `Login` writes for user 3, an ordinary user. -/
def userSession : Session :=
  { authenticated := some (.bool true), userID := some (.int 3),
    username := some (.string "alice"), role := some (.string "user") }

/-- The session `Login` writes for user 1, an administrator. -/
def adminSession : Session :=
  { authenticated := some (.bool true), userID := some (.int 1),
    username := some (.string "root"), role := some (.string "admin") }

/-- The session of a request without a session cookie. -/
def newSession : Session :=
  { authenticated := none, userID := none, username := none, role := none }

/-- The call is a `BorrowBook`. -/
def Call.isBorrow : Call → Bool
  | .BorrowBook _ _ _ => true
  | _ => false

/-- The users table after Register("alice", "pw1") with `toyBcrypt`. -/
def aliceOnly : List User :=
  [{ ID := 1, Name := "alice", Password := "$toy$1wp", Role := "user" }]

/-! ## Copies of a book -/

/-- Number of open records whose BookID is `b`. -/
def openOnBook (records : List BorrowRecord) (b : Int) : Nat :=
  records.countP (fun r => r.BookID == b && r.ReturnedAt.isNone)

/-- The call is a `BorrowBook` or a `ReturnBook`. -/
def Call.isBorrowOrReturn : Call → Bool
  | .BorrowBook _ _ _ => true
  | .ReturnBook _ _ _ => true
  | _ => false

/-- The call is a `ReturnBook` that succeeds on a record of book `b` while the
stock of that book is the largest `int`, so that `book.Stock++` wraps around. -/
def Call.overflowsOn (s : Store) (b : Int) : Call → Bool
  | .ReturnBook env recordID currentUserID =>
    match borrowRecordRepoImpl.find s.records recordID with
    | none => false
    | some record =>
      record.BookID == b && (Call.ReturnBook env recordID currentUserID).overflows s
  | _ => false

/-- No call of the sequence, made in the state the calls before it produce, is a
successful `ReturnBook` of a copy of book `b` whose increment wraps around. -/
def OverflowFreeOn : Store → Int → List Call → Bool
  | _, _, [] => true
  | s, b, c :: cs => !(c.overflowsOn s b) && OverflowFreeOn (c.exec s).2 b cs


/-! ## Transactions that run at the same time

The services call `db.Transaction` without options, and the repositories read
with a plain `First`, `Count` or `Find`, without a locking clause: what a
transaction reads is the state the database shows it, which another transaction
may change and commit before the first one writes.  `Save` then writes, by
primary key, the values the service computed from what it read, onto the rows as
they are by then; `Create` inserts under the next key of the table as it is by
then.  In each of the three transactions every read comes before the first
write. -/

namespace BorrowService

/-- Body of the transaction of `BorrowBook`, its reads (store accesses 0 and 1)
answered from the tables `snapshot` and its writes (2 and 3) applied to the
tables `tx`. -/
def borrowTxAt (env : Env) (userID bookID : Int) (snapshot tx : Store) : Option Error × Store :=
  match bookRepositoryImpl.GetByID (env.fault 0) snapshot.books bookID with
  | .error .ErrRecordNotFound => (some .ErrBookNotFound, tx)
  | .error .failure => (some (.wrapped "failed to get book by ID"), tx)
  | .ok book =>
    if book.Stock ≤ 0 then (some .ErrStockNotEnough, tx)
    else match borrowRecordRepoImpl.CountActiveBorrowsByUserID (env.fault 1)
          snapshot.records userID with
      | .error _ => (some (.wrapped "failed to count active borrows by user ID"), tx)
      | .ok Count =>
        if Count ≥ 5 then (some .ErrBorrowLimit, tx)
        else match bookRepositoryImpl.Update (env.fault 2) tx.books
              { book with Stock := wrapInt (book.Stock - 1) } with
          | .error _ => (some (.wrapped "failed to update book stock"), tx)
          | .ok books1 =>
            match borrowRecordRepoImpl.Create (env.fault 3) tx.records
                { ID := 0, UserID := userID, BookID := bookID,
                  BorrowedAt := env.now 0, DueDate := (env.now 1).AddDate_0_1_0,
                  ReturnedAt := none } with
            | .error _ =>
              (some (.wrapped "failed to create borrow record"), { tx with books := books1 })
            | .ok records1 => (none, { books := books1, records := records1 })

/-- `BorrowBook` with the reads of its transaction answered from `snapshot` and
its writes committed onto `s`; an error rolls the writes back. -/
def BorrowBookAt (env : Env) (userID bookID : Int) (snapshot s : Store) : Option Error × Store :=
  if userID ≤ 0 ∨ bookID ≤ 0 then (some .ErrInvalidInput, s)
  else match borrowTxAt env userID bookID snapshot s with
    | (none, tx) => (none, tx)
    | (some err, _) => (some err, s)

/-- Body of the transaction of `ReturnBook`, its reads (store accesses 0 and 1)
answered from the tables `snapshot` and its writes (2 and 3) applied to the
tables `tx`. -/
def returnTxAt (env : Env) (recordID currentUserID : Int) (snapshot tx : Store) :
    Option Error × Store :=
  match borrowRecordRepoImpl.GetByID (env.fault 0) snapshot.records recordID with
  | .error .ErrRecordNotFound => (some .ErrRecordNotFound, tx)
  | .error .failure => (some (.wrapped "failed to get borrow record by ID"), tx)
  | .ok record =>
    if record.UserID ≠ currentUserID then (some .ErrPermissionDenied, tx)
    else if record.ReturnedAt ≠ none then (some .ErrAlreadyReturned, tx)
    else match bookRepositoryImpl.GetByID (env.fault 1) snapshot.books record.BookID with
      | .error .ErrRecordNotFound => (some .ErrBookNotFound, tx)
      | .error .failure => (some (.wrapped "failed to get book by ID"), tx)
      | .ok book =>
        match bookRepositoryImpl.Update (env.fault 2) tx.books
            { book with Stock := wrapInt (book.Stock + 1) } with
        | .error _ => (some (.wrapped "failed to update book stock"), tx)
        | .ok books1 =>
          match borrowRecordRepoImpl.Update (env.fault 3) tx.records
              { record with ReturnedAt := some (env.now 0) } with
          | .error _ =>
            (some (.wrapped "failed to update borrow record"), { tx with books := books1 })
          | .ok records1 => (none, { books := books1, records := records1 })

/-- `ReturnBook` with the reads of its transaction answered from `snapshot` and
its writes committed onto `s`; an error rolls the writes back. -/
def ReturnBookAt (env : Env) (recordID currentUserID : Int) (snapshot s : Store) :
    Option Error × Store :=
  if recordID ≤ 0 ∨ currentUserID ≤ 0 then (some .ErrInvalidInput, s)
  else match returnTxAt env recordID currentUserID snapshot s with
    | (none, tx) => (none, tx)
    | (some err, _) => (some err, s)

end BorrowService

namespace AdminService

/-- Body of the transaction of `DeleteBook`, its reads (store accesses 0 and 1)
answered from the tables `snapshot` and its writes (the loop and the final
`Delete`) applied to the tables `tx`. -/
def deleteTxAt (env : Env) (ID : Int) (snapshot tx : Store) : Option Error × Store :=
  match bookRepositoryImpl.GetByID (env.fault 0) snapshot.books ID with
  | .error .ErrRecordNotFound => (some .ErrBookNotFound, tx)
  | .error .failure => (some (.wrapped "failed to get book by ID"), tx)
  | .ok book =>
    match borrowRecordRepoImpl.GetByBookID (env.fault 1) snapshot.records ID with
    | .error _ => (some (.wrapped "failed to get borrow records by book ID"), tx)
    | .ok borrowRecords =>
      match closeLoop env borrowRecords 0 tx.records with
      | (some err, records1) => (some err, { tx with records := records1 })
      | (none, records1) =>
        match bookRepositoryImpl.Delete (env.fault (2 + borrowRecords.length)) tx.books book with
        | .error _ => (some (.wrapped "failed to delete book"), { tx with records := records1 })
        | .ok books1 => (none, { books := books1, records := records1 })

/-- `DeleteBook` with the reads of its transaction answered from `snapshot` and
its writes committed onto `s`; an error rolls the writes back. -/
def DeleteBookAt (env : Env) (ID : Int) (snapshot s : Store) : Option Error × Store :=
  if ID < 0 then (some .ErrInvalidInput, s)
  else match deleteTxAt env ID snapshot s with
    | (none, tx) => (none, tx)
    | (some err, _) => (some err, s)

end AdminService

/-- Two transactions that both read the store `s` before either of them writes:
the first commits onto `s`, the second, having read `s` as well, onto what the
first left.  The result is the error of the first, the error of the second and
the store after both. -/
def bothReadThenWrite (first second : Store → Store → Option Error × Store) (s : Store) :
    Option Error × Option Error × Store :=
  ((first s s).1, (second s (first s s).2).1, (second s (first s s).2).2)

/-- A closed record: borrowed at `t0`, returned at `t`. -/
def closedRecord (id userID bookID : Int) (t : Time) : BorrowRecord :=
  { openRecord id userID bookID with ReturnedAt := some t }
/-! ## Basic facts -/

theorem wrapInt_of_isInt (x : Int) (h1 : minInt ≤ x) (h2 : x ≤ maxInt) : wrapInt x = x := by
  unfold wrapInt
  unfold minInt at h1
  unfold maxInt at h2
  omega

theorem book_find_some {books : List Book} {id : Int} {b : Book}
    (h : bookRepositoryImpl.find books id = some b) : b ∈ books ∧ b.ID = id := by
  unfold bookRepositoryImpl.find at h
  refine ⟨List.mem_of_find?_eq_some h, ?_⟩
  have := List.find?_some h
  simpa using this

theorem record_find_some {records : List BorrowRecord} {id : Int} {r : BorrowRecord}
    (h : borrowRecordRepoImpl.find records id = some r) : r ∈ records ∧ r.ID = id := by
  unfold borrowRecordRepoImpl.find at h
  refine ⟨List.mem_of_find?_eq_some h, ?_⟩
  have := List.find?_some h
  simpa using this

/-- Every outcome of `BorrowBook`: an error with the store untouched, or success
with the stock of the book decremented and one record appended. -/
theorem BorrowBook_cases (env : Env) (s : Store) (userID bookID : Int) :
    ((BorrowService.BorrowBook env s userID bookID).1 ≠ none ∧
      (BorrowService.BorrowBook env s userID bookID).2 = s) ∨
    ∃ book, bookRepositoryImpl.find s.books bookID = some book ∧ 0 < book.Stock ∧
      borrowRecordRepoImpl.activeCount s.records userID < 5 ∧ 0 < userID ∧ 0 < bookID ∧
      BorrowService.BorrowBook env s userID bookID =
        (none,
          { books := s.books.map (fun b => if b.ID = book.ID then
              { book with Stock := wrapInt (book.Stock - 1) } else b),
            records := s.records ++
              [{ ID := borrowRecordRepoImpl.nextID s.records, UserID := userID, BookID := bookID,
                 BorrowedAt := env.now 0, DueDate := (env.now 1).AddDate_0_1_0,
                 ReturnedAt := none }] }) := by
  unfold BorrowService.BorrowBook
  by_cases hin : userID ≤ 0 ∨ bookID ≤ 0
  · left; simp [hin]
  · rw [if_neg hin]
    push_neg at hin
    unfold Transaction BorrowService.borrowTx bookRepositoryImpl.GetByID
      borrowRecordRepoImpl.CountActiveBorrowsByUserID bookRepositoryImpl.Update
      borrowRecordRepoImpl.Create
    by_cases h0 : env.fault 0 = true
    · left; simp [h0]
    cases hb : bookRepositoryImpl.find s.books bookID with
    | none => left; simp [h0]
    | some book =>
      by_cases hst : book.Stock ≤ 0
      · left; simp [h0, hst]
      by_cases h1 : env.fault 1 = true
      · left; simp [h0, h1, hst]
      by_cases hc : (5 : Int) ≤ (borrowRecordRepoImpl.activeCount s.records userID : Nat)
      · left; simp [h0, h1, hst, hc]
      by_cases h2 : env.fault 2 = true
      · left; simp [h0, h1, h2, hst, hc]
      by_cases h3 : env.fault 3 = true
      · left; simp [h0, h1, h2, h3, hst, hc]
      right
      refine ⟨book, rfl, by omega, by omega, hin.1, hin.2, ?_⟩
      simp [h0, h1, h2, h3, hst, hc]


/-- Every outcome of `ReturnBook`: an error with the store untouched, or success
with the stock of the referenced book incremented and the record closed. -/
theorem ReturnBook_cases (env : Env) (s : Store) (recordID currentUserID : Int) :
    ((BorrowService.ReturnBook env s recordID currentUserID).1 ≠ none ∧
      (BorrowService.ReturnBook env s recordID currentUserID).2 = s) ∨
    ∃ record book, borrowRecordRepoImpl.find s.records recordID = some record ∧
      record.UserID = currentUserID ∧ record.ReturnedAt = none ∧
      bookRepositoryImpl.find s.books record.BookID = some book ∧
      0 < recordID ∧ 0 < currentUserID ∧
      BorrowService.ReturnBook env s recordID currentUserID =
        (none,
          { books := s.books.map (fun b => if b.ID = book.ID then
              { book with Stock := wrapInt (book.Stock + 1) } else b),
            records := s.records.map (fun r => if r.ID = record.ID then
              { record with ReturnedAt := some (env.now 0) } else r) }) := by
  unfold BorrowService.ReturnBook
  by_cases hin : recordID ≤ 0 ∨ currentUserID ≤ 0
  · left; simp [hin]
  · rw [if_neg hin]
    push_neg at hin
    unfold Transaction BorrowService.returnTx borrowRecordRepoImpl.GetByID
      bookRepositoryImpl.GetByID bookRepositoryImpl.Update borrowRecordRepoImpl.Update
    by_cases h0 : env.fault 0 = true
    · left; simp [h0]
    cases hr : borrowRecordRepoImpl.find s.records recordID with
    | none => left; simp [h0]
    | some record =>
      by_cases hu : record.UserID = currentUserID
      swap
      · left; simp [h0, hu]
      cases hret : record.ReturnedAt with
      | some t => left; simp [h0, hu, hret]
      | none =>
        by_cases h1 : env.fault 1 = true
        · left; simp [h0, h1, hu, hret]
        cases hb : bookRepositoryImpl.find s.books record.BookID with
        | none => left; simp [h0, h1, hu, hret, hb]
        | some book =>
          by_cases h2 : env.fault 2 = true
          · left; simp [h0, h1, h2, hu, hret, hb]
          by_cases h3 : env.fault 3 = true
          · left; simp [h0, h1, h2, h3, hu, hret, hb]
          right
          refine ⟨record, book, rfl, hu, hret, hb, hin.1, hin.2, ?_⟩
          simp [h0, h1, h2, h3, hu, hret, hb]

/-- Every outcome of `DeleteBook`: an error with the store untouched, or success
with the loop run to its end and the book removed. -/
theorem DeleteBook_cases (env : Env) (s : Store) (ID : Int) :
    ((AdminService.DeleteBook env s ID).1 ≠ none ∧ (AdminService.DeleteBook env s ID).2 = s) ∨
    ∃ book records1, bookRepositoryImpl.find s.books ID = some book ∧ 0 ≤ ID ∧
      AdminService.closeLoop env (s.records.filter (fun r => r.BookID == ID)) 0 s.records
        = (none, records1) ∧
      AdminService.DeleteBook env s ID =
        (none, { books := s.books.filter (fun b => b.ID != book.ID), records := records1 }) := by
  unfold AdminService.DeleteBook
  by_cases hin : ID < 0
  · left; simp [hin]
  · rw [if_neg hin]
    push_neg at hin
    unfold Transaction AdminService.deleteTx bookRepositoryImpl.GetByID
      borrowRecordRepoImpl.GetByBookID bookRepositoryImpl.Delete
    by_cases h0 : env.fault 0 = true
    · left; simp [h0]
    cases hb : bookRepositoryImpl.find s.books ID with
    | none => left; simp [h0]
    | some book =>
      by_cases h1 : env.fault 1 = true
      · left; simp [h0, h1]
      cases hcl : AdminService.closeLoop env (s.records.filter (fun r => r.BookID == ID)) 0
          s.records with
      | mk e records1 =>
        cases e with
        | some err => left; simp [h0, h1, hcl]
        | none =>
          by_cases h2 : env.fault (2 + (s.records.filter (fun r => r.BookID == ID)).length) = true
          · left; simp [h0, h1, h2, hcl]
          right
          refine ⟨book, records1, rfl, hin, rfl, ?_⟩
          simp [h0, h1, h2, hcl]

/-- Every outcome of `AddBook`: an error with the store untouched, or success
with one book appended. -/
theorem AddBook_cases (env : Env) (s : Store) (title author : String) (stock : Int) :
    ((AdminService.AddBook env s title author stock).1 ≠ none ∧
      (AdminService.AddBook env s title author stock).2 = s) ∨
    (0 ≤ stock ∧
      AdminService.AddBook env s title author stock =
        (none,
          { books := s.books ++
              [{ ID := bookRepositoryImpl.nextID s.books, Title := title, Author := author,
                 Stock := stock }],
            records := s.records })) := by
  unfold AdminService.AddBook
  by_cases hin : title = "" ∨ author = "" ∨ stock < 0
  · left; simp [hin]
  · rw [if_neg hin]
    push_neg at hin
    unfold bookRepositoryImpl.GetByTitle bookRepositoryImpl.Create
    by_cases h0 : env.fault 0 = true
    · left; simp [h0]
    cases hb : s.books.find? (fun b => env.coll.strEq b.Title title) with
    | some book => left; simp [h0, hb]
    | none =>
      by_cases h1 : env.fault 1 = true
      · left; simp [h0, h1, hb]
      right
      refine ⟨hin.2.2, ?_⟩
      simp [h0, h1, hb]

/-- Every outcome of `UpdateBook`: an error with the store untouched, or success
with the columns of the book overwritten. -/
theorem UpdateBook_cases (env : Env) (s : Store) (title author : String) (ID stock : Int) :
    ((AdminService.UpdateBook env s title author ID stock).1 ≠ none ∧
      (AdminService.UpdateBook env s title author ID stock).2 = s) ∨
    ∃ book, bookRepositoryImpl.find s.books ID = some book ∧ 0 ≤ stock ∧
      AdminService.UpdateBook env s title author ID stock =
        (none,
          { books := s.books.map (fun b => if b.ID = book.ID then
              { book with Title := title, Author := author, Stock := stock } else b),
            records := s.records }) := by
  unfold AdminService.UpdateBook
  by_cases hin : title = "" ∨ author = "" ∨ ID < 0 ∨ stock < 0
  · left; simp [hin]
  · rw [if_neg hin]
    push_neg at hin
    unfold bookRepositoryImpl.GetByID bookRepositoryImpl.Update
    by_cases h0 : env.fault 0 = true
    · left; simp [h0]
    cases hb : bookRepositoryImpl.find s.books ID with
    | none => left; simp [h0]
    | some book =>
      by_cases h1 : env.fault 1 = true
      · left; simp [h0, h1]
      right
      refine ⟨book, rfl, hin.2.2.2, ?_⟩
      simp [h0, h1]


theorem mem_map_replace_book {books : List Book} {k : Int} {v b : Book}
    (h : b ∈ books.map (fun x => if x.ID = k then v else x)) : b = v ∨ b ∈ books := by
  rcases List.mem_map.1 h with ⟨x, hx, rfl⟩
  by_cases hk : x.ID = k
  · left; simp [hk]
  · right; simpa [hk] using hx

/-- One call keeps every stock a non-negative `int`, unless it is a `ReturnBook`
whose increment wraps around. -/
theorem exec_stockInRange (s : Store) (c : Call) (hs : StockInRange s)
    (hc : c.WellTyped = true) (ho : c.overflows s = false) : StockInRange (c.exec s).2 := by
  cases c with
  | AddBook env title author stock =>
    rcases AddBook_cases env s title author stock with ⟨_, h⟩ | ⟨h0, h⟩
    · simpa [Call.exec, h] using hs
    · simp only [Call.exec, h]
      intro b hb
      rcases List.mem_append.1 hb with hb | hb
      · exact hs b hb
      · simp only [List.mem_singleton] at hb
        subst hb
        simp only [Call.WellTyped, isInt, Bool.and_eq_true, decide_eq_true_eq] at hc
        exact ⟨h0, hc.2⟩
  | UpdateBook env title author ID stock =>
    rcases UpdateBook_cases env s title author ID stock with ⟨_, h⟩ | ⟨book, _, h0, h⟩
    · simpa [Call.exec, h] using hs
    · simp only [Call.exec, h]
      intro b hb
      rcases mem_map_replace_book hb with hb | hb
      · subst hb
        simp only [Call.WellTyped, isInt, Bool.and_eq_true, decide_eq_true_eq] at hc
        exact ⟨h0, hc.2.2⟩
      · exact hs b hb
  | DeleteBook env ID =>
    rcases DeleteBook_cases env s ID with ⟨_, h⟩ | ⟨book, records1, _, _, _, h⟩
    · simpa [Call.exec, h] using hs
    · simp only [Call.exec, h]
      intro b hb
      exact hs b (List.mem_filter.1 hb).1
  | BorrowBook env userID bookID =>
    rcases BorrowBook_cases env s userID bookID with ⟨_, h⟩ | ⟨book, hf, hpos, _, _, _, h⟩
    · simpa [Call.exec, h] using hs
    · simp only [Call.exec, h]
      intro b hb
      rcases mem_map_replace_book hb with hb | hb
      · subst hb
        have hbk := hs book (book_find_some hf).1
        have hw : wrapInt (book.Stock - 1) = book.Stock - 1 :=
          wrapInt_of_isInt _ (by unfold minInt; omega) (by omega)
        simp only [hw]
        constructor <;> omega
      · exact hs b hb
  | ReturnBook env recordID currentUserID =>
    rcases ReturnBook_cases env s recordID currentUserID with
      ⟨_, h⟩ | ⟨record, book, hr, _, _, hf, _, _, h⟩
    · simpa [Call.exec, h] using hs
    · simp only [Call.exec, h]
      intro b hb
      rcases mem_map_replace_book hb with hb | hb
      · subst hb
        have hbk := hs book (book_find_some hf).1
        simp only [Call.overflows, hr, hf, h, Option.isNone_none, Bool.and_true,
          decide_eq_false_iff_not, not_le] at ho
        have hw : wrapInt (book.Stock + 1) = book.Stock + 1 :=
          wrapInt_of_isInt _ (by unfold minInt; omega) (by omega)
        simp only [hw]
        constructor <;> omega
      · exact hs b hb

theorem run_stockInRange (calls : List Call) : ∀ s : Store, StockInRange s →
    (∀ c ∈ calls, c.WellTyped = true) → OverflowFree s calls = true →
    StockInRange (run s calls) := by
  induction calls with
  | nil => intro s hs _ _; simpa [run] using hs
  | cons c cs ih =>
    intro s hs hargs hfree
    simp only [OverflowFree, Bool.and_eq_true, Bool.not_eq_true'] at hfree
    have hstep := exec_stockInRange s c hs (hargs c (List.mem_cons_self _ _)) hfree.1
    have := ih (c.exec s).2 hstep (fun c' hc' => hargs c' (List.mem_cons_of_mem _ hc')) hfree.2
    simpa [run] using this

/-- C1, as stated, fails: starting from the empty store, with `int` arguments
throughout, adding a book with stock 2^63 - 1, lending one copy, resetting the
stock to 2^63 - 1 and taking the copy back leaves the book with stock -2^63. -/
theorem C1_stock_negative_after_wraparound :
    StockNonneg Store.empty ∧ (∀ c ∈ overflowCalls, c.WellTyped = true) ∧
    (run Store.empty overflowCalls).books =
      [{ ID := 1, Title := "X", Author := "Y", Stock := -9223372036854775808 }] ∧
    ¬ StockNonneg (run Store.empty overflowCalls) := by
  refine ⟨?_, by decide, by decide, ?_⟩
  · intro b hb
    simp [Store.empty] at hb
  · intro h
    have hmem : ({ ID := 1, Title := "X", Author := "Y", Stock := -9223372036854775808 } : Book)
        ∈ (run Store.empty overflowCalls).books := by decide
    have := h _ hmem
    simp at this

/-- C1 (amended): starting from a store in which every stock is a non-negative
`int`, any finite sequence of AddBook, UpdateBook, DeleteBook, BorrowBook and
ReturnBook calls with `int` arguments, none of which is a ReturnBook on a book
whose stock is the largest `int`, leaves every stock non-negative. -/
theorem C1_stock_nonneg_invariant (s : Store) (calls : List Call)
    (hs : ∀ b ∈ s.books, 0 ≤ b.Stock ∧ b.Stock ≤ maxInt)
    (hargs : ∀ c ∈ calls, c.WellTyped = true)
    (hfree : OverflowFree s calls = true) :
    ∀ b ∈ (run s calls).books, 0 ≤ b.Stock :=
  fun b hb => (run_stockInRange calls s hs hargs hfree b hb).1

/-- C1 witness: the scenario of the specification (one copy, borrowed by user 7
and returned). -/
theorem C1_stock_nonneg_invariant_witness :
    (∀ b ∈ oneCopy.books, 0 ≤ b.Stock ∧ b.Stock ≤ maxInt) ∧
    OverflowFree oneCopy [.BorrowBook (Env.calm t0) 7 1, .ReturnBook (Env.calm t0) 1 7] = true ∧
    (∀ b ∈ (run oneCopy [.BorrowBook (Env.calm t0) 7 1, .ReturnBook (Env.calm t0) 1 7]).books,
      0 ≤ b.Stock) :=
  ⟨by decide, by decide,
    C1_stock_nonneg_invariant oneCopy
      [.BorrowBook (Env.calm t0) 7 1, .ReturnBook (Env.calm t0) 1 7]
      (by decide) (by decide) (by decide)⟩

theorem activeCount_map_le (f : BorrowRecord → BorrowRecord)
    (hf : ∀ x, f x = x ∨ (f x).ReturnedAt ≠ none) (records : List BorrowRecord) (u : Int) :
    borrowRecordRepoImpl.activeCount (records.map f) u
      ≤ borrowRecordRepoImpl.activeCount records u := by
  unfold borrowRecordRepoImpl.activeCount
  rw [List.countP_map]
  apply List.countP_mono_left
  intro x _ hx
  rcases hf x with h | h
  · simpa [h] using hx
  · exfalso
    simp only [Function.comp_apply, Bool.and_eq_true] at hx
    cases hret : (f x).ReturnedAt with
    | none => exact h hret
    | some t => simp [hret] at hx

/-- The loop of `DeleteBook` rewrites the table row by row: a row keeps its key,
and it is either left as it was or replaced by a closed record. -/
theorem closeLoop_map (env : Env) : ∀ (recs : List BorrowRecord) (i : Nat)
    (table : List BorrowRecord),
    ∃ f : BorrowRecord → BorrowRecord,
      (AdminService.closeLoop env recs i table).2 = table.map f ∧
      ∀ x, (f x).ID = x.ID ∧ (f x = x ∨ (f x).ReturnedAt ≠ none) := by
  intro recs
  induction recs with
  | nil => intro i table; exact ⟨id, by simp [AdminService.closeLoop], fun x => ⟨rfl, Or.inl rfl⟩⟩
  | cons r rest ih =>
    intro i table
    unfold AdminService.closeLoop
    by_cases hopen : r.ReturnedAt = none
    · rw [if_pos hopen]
      unfold borrowRecordRepoImpl.Update
      by_cases hfault : env.fault (2 + i) = true
      · exact ⟨id, by simp [hfault], fun x => ⟨rfl, Or.inl rfl⟩⟩
      · simp only [hfault, Bool.false_eq_true, if_false]
        obtain ⟨f, hf, hfp⟩ := ih (i + 1)
          (table.map (fun x => if x.ID = r.ID then { r with ReturnedAt := some (env.now i) } else x))
        refine ⟨fun x => f (if x.ID = r.ID then { r with ReturnedAt := some (env.now i) } else x),
          ?_, ?_⟩
        · rw [hf, List.map_map]; rfl
        · intro x
          by_cases hx : x.ID = r.ID
          · simp only [hx, if_true]
            refine ⟨(hfp _).1, Or.inr ?_⟩
            rcases (hfp { r with ReturnedAt := some (env.now i) }).2 with h | h
            · rw [h]; simp
            · exact h
          · simp only [hx, if_false]
            exact hfp x
    · rw [if_neg hopen]
      exact ih (i + 1) table

/-- One call never raises a user's number of open records above five. -/
theorem exec_borrowLimit (s : Store) (c : Call)
    (hs : ∀ u, borrowRecordRepoImpl.activeCount s.records u ≤ 5) :
    ∀ u, borrowRecordRepoImpl.activeCount (c.exec s).2.records u ≤ 5 := by
  intro u
  cases c with
  | AddBook env title author stock =>
    rcases AddBook_cases env s title author stock with ⟨_, h⟩ | ⟨_, h⟩ <;>
      simpa [Call.exec, h] using hs u
  | UpdateBook env title author ID stock =>
    rcases UpdateBook_cases env s title author ID stock with ⟨_, h⟩ | ⟨book, _, _, h⟩ <;>
      simpa [Call.exec, h] using hs u
  | DeleteBook env ID =>
    rcases DeleteBook_cases env s ID with ⟨_, h⟩ | ⟨book, records1, _, _, hloop, h⟩
    · simpa [Call.exec, h] using hs u
    · simp only [Call.exec, h]
      obtain ⟨f, hf, hfp⟩ := closeLoop_map env (s.records.filter (fun r => r.BookID == ID)) 0
        s.records
      rw [hloop] at hf
      simp only at hf
      rw [hf]
      exact le_trans (activeCount_map_le f (fun x => (hfp x).2) _ u) (hs u)
  | BorrowBook env userID bookID =>
    rcases BorrowBook_cases env s userID bookID with ⟨_, h⟩ | ⟨book, _, _, hcount, _, _, h⟩
    · simpa [Call.exec, h] using hs u
    · simp only [Call.exec, h]
      unfold borrowRecordRepoImpl.activeCount at hcount ⊢
      rw [List.countP_append]
      by_cases hu : userID = u
      · subst hu
        simp only [List.countP_cons, List.countP_nil, beq_self_eq_true, Option.isNone_none,
          Bool.and_self, if_true]
        omega
      · have := hs u
        unfold borrowRecordRepoImpl.activeCount at this
        have hne : (userID == u) = false := by simpa using hu
        simp only [List.countP_cons, List.countP_nil, hne, Bool.false_and,
          Bool.false_eq_true, if_false]
        omega
  | ReturnBook env recordID currentUserID =>
    rcases ReturnBook_cases env s recordID currentUserID with
      ⟨_, h⟩ | ⟨record, book, _, _, _, _, _, _, h⟩
    · simpa [Call.exec, h] using hs u
    · simp only [Call.exec, h]
      refine le_trans (activeCount_map_le _ (fun x => ?_) _ u) (hs u)
      by_cases hx : x.ID = record.ID
      · right; simp [hx]
      · left; simp [hx]

theorem run_borrowLimit (calls : List Call) : ∀ s : Store,
    (∀ u, borrowRecordRepoImpl.activeCount s.records u ≤ 5) →
    ∀ u, borrowRecordRepoImpl.activeCount (run s calls).records u ≤ 5 := by
  induction calls with
  | nil => intro s hs; simpa [run] using hs
  | cons c cs ih =>
    intro s hs
    have := ih (c.exec s).2 (exec_borrowLimit s c hs)
    simpa [run] using this


/-- What `BorrowBook` computes when no store access fails. -/
theorem BorrowBook_eval (env : Env) (hf : NoFault env) (s : Store) (userID bookID : Int) :
    BorrowService.BorrowBook env s userID bookID =
      if userID ≤ 0 ∨ bookID ≤ 0 then (some .ErrInvalidInput, s)
      else match bookRepositoryImpl.find s.books bookID with
        | none => (some .ErrBookNotFound, s)
        | some book =>
          if book.Stock ≤ 0 then (some .ErrStockNotEnough, s)
          else if 5 ≤ borrowRecordRepoImpl.activeCount s.records userID then
            (some .ErrBorrowLimit, s)
          else
            (none,
              { books := s.books.map (fun b => if b.ID = book.ID then
                  { book with Stock := wrapInt (book.Stock - 1) } else b),
                records := s.records ++
                  [{ ID := borrowRecordRepoImpl.nextID s.records, UserID := userID,
                     BookID := bookID, BorrowedAt := env.now 0,
                     DueDate := (env.now 1).AddDate_0_1_0, ReturnedAt := none }] }) := by
  unfold BorrowService.BorrowBook
  by_cases hin : userID ≤ 0 ∨ bookID ≤ 0
  · simp [hin]
  · rw [if_neg hin, if_neg hin]
    unfold Transaction BorrowService.borrowTx bookRepositoryImpl.GetByID
      borrowRecordRepoImpl.CountActiveBorrowsByUserID bookRepositoryImpl.Update
      borrowRecordRepoImpl.Create
    cases hb : bookRepositoryImpl.find s.books bookID with
    | none => simp [hf 0]
    | some book =>
      by_cases hst : book.Stock ≤ 0
      · simp [hf 0, hst]
      by_cases hc : 5 ≤ borrowRecordRepoImpl.activeCount s.records userID
      · have hc' : (5 : Int) ≤ (borrowRecordRepoImpl.activeCount s.records userID : Nat) := by
          exact_mod_cast hc
        simp [hf 0, hf 1, hst, hc, hc']
      · have hc' : ¬ (5 : Int) ≤ (borrowRecordRepoImpl.activeCount s.records userID : Nat) := by
          exact_mod_cast hc
        simp [hf 0, hf 1, hf 2, hf 3, hst, hc, hc']

/-- What `ReturnBook` computes when no store access fails. -/
theorem ReturnBook_eval (env : Env) (hf : NoFault env) (s : Store)
    (recordID currentUserID : Int) :
    BorrowService.ReturnBook env s recordID currentUserID =
      if recordID ≤ 0 ∨ currentUserID ≤ 0 then (some .ErrInvalidInput, s)
      else match borrowRecordRepoImpl.find s.records recordID with
        | none => (some .ErrRecordNotFound, s)
        | some record =>
          if record.UserID ≠ currentUserID then (some .ErrPermissionDenied, s)
          else if record.ReturnedAt ≠ none then (some .ErrAlreadyReturned, s)
          else match bookRepositoryImpl.find s.books record.BookID with
            | none => (some .ErrBookNotFound, s)
            | some book =>
              (none,
                { books := s.books.map (fun b => if b.ID = book.ID then
                    { book with Stock := wrapInt (book.Stock + 1) } else b),
                  records := s.records.map (fun r => if r.ID = record.ID then
                    { record with ReturnedAt := some (env.now 0) } else r) }) := by
  unfold BorrowService.ReturnBook
  by_cases hin : recordID ≤ 0 ∨ currentUserID ≤ 0
  · simp [hin]
  · rw [if_neg hin, if_neg hin]
    unfold Transaction BorrowService.returnTx borrowRecordRepoImpl.GetByID
      bookRepositoryImpl.GetByID bookRepositoryImpl.Update borrowRecordRepoImpl.Update
    cases hr : borrowRecordRepoImpl.find s.records recordID with
    | none => simp [hf 0]
    | some record =>
      by_cases hu : record.UserID = currentUserID
      swap
      · simp [hf 0, hu]
      cases hret : record.ReturnedAt with
      | some t => simp [hf 0, hu, hret]
      | none =>
        cases hb : bookRepositoryImpl.find s.books record.BookID with
        | none => simp [hf 0, hf 1, hu, hret, hb]
        | some book => simp [hf 0, hf 1, hf 2, hf 3, hu, hret, hb]

theorem noFault_calm (t : Time) : NoFault (Env.calm t) := fun _ => rfl


theorem le_foldl_max (l : List Int) : ∀ a : Int, a ≤ l.foldl max a ∧ ∀ x ∈ l, x ≤ l.foldl max a := by
  induction l with
  | nil => intro a; simp
  | cons y ys ih =>
    intro a
    obtain ⟨h1, h2⟩ := ih (max a y)
    simp only [List.foldl_cons, List.mem_cons]
    refine ⟨le_trans (le_max_left a y) h1, ?_⟩
    rintro x (rfl | hx)
    · exact le_trans (le_max_right a x) h1
    · exact h2 x hx

/-- The key the store assigns to a new record is above every key in use. -/
theorem record_nextID_fresh (records : List BorrowRecord) :
    ∀ r ∈ records, r.ID < borrowRecordRepoImpl.nextID records := by
  intro r hr
  unfold borrowRecordRepoImpl.nextID
  have := (le_foldl_max (records.map (fun r => r.ID)) 0).2 r.ID (List.mem_map_of_mem _ hr)
  omega

theorem book_find_map_replace {books : List Book} {k : Int} {b v : Book}
    (h : bookRepositoryImpl.find books k = some b) (hv : v.ID = k) :
    bookRepositoryImpl.find (books.map (fun x => if x.ID = k then v else x)) k = some v := by
  unfold bookRepositoryImpl.find at h ⊢
  induction books with
  | nil => simp at h
  | cons x xs ih =>
    by_cases hx : x.ID = k
    · simp [hx, hv]
    · have hne : (x.ID == k) = false := by simpa using hx
      simp only [List.find?_cons, hne] at h
      simp only [List.map_cons, hx, if_false, List.find?_cons, hne]
      exact ih h

theorem record_find_map_replace {records : List BorrowRecord} {k : Int} {r v : BorrowRecord}
    (h : borrowRecordRepoImpl.find records k = some r) (hv : v.ID = k) :
    borrowRecordRepoImpl.find (records.map (fun x => if x.ID = k then v else x)) k = some v := by
  unfold borrowRecordRepoImpl.find at h ⊢
  induction records with
  | nil => simp at h
  | cons x xs ih =>
    by_cases hx : x.ID = k
    · simp [hx, hv]
    · have hne : (x.ID == k) = false := by simpa using hx
      simp only [List.find?_cons, hne] at h
      simp only [List.map_cons, hx, if_false, List.find?_cons, hne]
      exact ih h

theorem fiveOpen_within_limit : ∀ u, borrowRecordRepoImpl.activeCount fiveOpen.records u ≤ 5 := by
  intro u
  unfold borrowRecordRepoImpl.activeCount
  exact le_trans (List.countP_le_length _) (by decide)

/-- C2: from a store in which every user has at most five open records, every
finite sequence of service calls (BorrowBook, ReturnBook, DeleteBook, and also
AddBook and UpdateBook) leads to a store in which every user has at most five
open records; and a user with exactly five open records who asks for an existing
book with stock left gets ErrBorrowLimit (identifiers positive, no store access
failing), the store staying as it was. -/
theorem C2_borrow_limit (s : Store) (calls : List Call)
    (hs : ∀ u, borrowRecordRepoImpl.activeCount s.records u ≤ 5) :
    (∀ u, borrowRecordRepoImpl.activeCount (run s calls).records u ≤ 5) ∧
    (∀ (env : Env) (userID bookID : Int) (book : Book), NoFault env →
      0 < userID → 0 < bookID →
      bookRepositoryImpl.find s.books bookID = some book → 0 < book.Stock →
      borrowRecordRepoImpl.activeCount s.records userID = 5 →
      BorrowService.BorrowBook env s userID bookID = (some .ErrBorrowLimit, s)) := by
  refine ⟨run_borrowLimit calls s hs, ?_⟩
  intro env userID bookID book hf hu hb hfind hstock hcount
  rw [BorrowBook_eval env hf]
  have hin : ¬ (userID ≤ 0 ∨ bookID ≤ 0) := by omega
  have hst : ¬ book.Stock ≤ 0 := by omega
  simp [hin, hfind, hst, hcount]

/-- C2 witness: user 7 holds five open records; a sixth borrow is refused, and
after a refused borrow, a return and a cascade delete the user is within the
limit. -/
theorem C2_borrow_limit_witness :
    (∀ u, borrowRecordRepoImpl.activeCount fiveOpen.records u ≤ 5) ∧
    borrowRecordRepoImpl.activeCount
      (run fiveOpen [.BorrowBook (Env.calm t0) 7 1, .ReturnBook (Env.calm t0) 2 7,
        .BorrowBook (Env.calm t0) 7 1, .DeleteBook (Env.calm t0) 1]).records 7 ≤ 5 ∧
    BorrowService.BorrowBook (Env.calm t0) fiveOpen 7 1 = (some .ErrBorrowLimit, fiveOpen) :=
  have h := C2_borrow_limit fiveOpen
    [.BorrowBook (Env.calm t0) 7 1, .ReturnBook (Env.calm t0) 2 7,
      .BorrowBook (Env.calm t0) 7 1, .DeleteBook (Env.calm t0) 1] fiveOpen_within_limit
  ⟨fiveOpen_within_limit, h.1 7,
    h.2 (Env.calm t0) 7 1 { ID := 1, Title := "X", Author := "Y", Stock := 3 }
      (noFault_calm t0) (by decide) (by decide) (by decide) (by decide) (by decide)⟩

/-- C3: when userID and bookID are positive, the book exists with a positive
stock (an `int`), the user has fewer than five open records and no store access
fails, BorrowBook succeeds; the rows with that key become the fetched book with
its stock lowered by one (ID, title and author as fetched) and every other book
row is as before; the records are the old records followed by exactly one new
record, open, for that user and book, under a key no old record has. -/
theorem C3_borrow_success (env : Env) (hf : NoFault env) (s : Store) (userID bookID : Int)
    (book : Book) (hu : 0 < userID) (hb : 0 < bookID)
    (hfind : bookRepositoryImpl.find s.books bookID = some book)
    (hstock : 0 < book.Stock) (hint : book.Stock ≤ maxInt)
    (hcount : borrowRecordRepoImpl.activeCount s.records userID < 5) :
    (BorrowService.BorrowBook env s userID bookID).1 = none ∧
    (BorrowService.BorrowBook env s userID bookID).2.books =
      s.books.map (fun b => if b.ID = bookID then
        { ID := book.ID, Title := book.Title, Author := book.Author, Stock := book.Stock - 1 }
        else b) ∧
    bookRepositoryImpl.find (BorrowService.BorrowBook env s userID bookID).2.books bookID =
      some { ID := bookID, Title := book.Title, Author := book.Author,
             Stock := book.Stock - 1 } ∧
    (BorrowService.BorrowBook env s userID bookID).2.records =
      s.records ++ [{ ID := borrowRecordRepoImpl.nextID s.records, UserID := userID,
                      BookID := bookID, BorrowedAt := env.now 0,
                      DueDate := (env.now 1).AddDate_0_1_0, ReturnedAt := none }] ∧
    (∀ r ∈ s.records, r.ID ≠ borrowRecordRepoImpl.nextID s.records) := by
  obtain rfl : book.ID = bookID := (book_find_some hfind).2
  have hw : wrapInt (book.Stock - 1) = book.Stock - 1 :=
    wrapInt_of_isInt _ (by unfold minInt; omega) (by omega)
  have hin : ¬ (userID ≤ 0 ∨ book.ID ≤ 0) := by omega
  have hst : ¬ book.Stock ≤ 0 := by omega
  have hc : ¬ 5 ≤ borrowRecordRepoImpl.activeCount s.records userID := by omega
  have heq := BorrowBook_eval env hf s userID book.ID
  simp only [hin, hfind, hst, hc, if_false, hw] at heq
  rw [heq]
  refine ⟨rfl, rfl, ?_, rfl, ?_⟩
  · exact book_find_map_replace hfind rfl
  · intro r hr
    exact ne_of_lt (record_nextID_fresh s.records r hr)

/-- C3 witness: the specification's scenario, user A borrows the only copy. -/
theorem C3_borrow_success_witness :
    (BorrowService.BorrowBook (Env.calm t0) oneCopy 7 1).1 = none ∧
    bookRepositoryImpl.find (BorrowService.BorrowBook (Env.calm t0) oneCopy 7 1).2.books 1 =
      some { ID := 1, Title := "X", Author := "Y", Stock := 0 } ∧
    (BorrowService.BorrowBook (Env.calm t0) oneCopy 7 1).2.records = [openRecord 1 7 1] :=
  have h := C3_borrow_success (Env.calm t0) (noFault_calm t0) oneCopy 7 1
    { ID := 1, Title := "X", Author := "Y", Stock := 1 }
    (by decide) (by decide) (by decide) (by decide) (by decide) (by decide)
  ⟨h.1, h.2.2.1, h.2.2.2.1⟩

/-- C4: with no store access failing, BorrowBook decides its errors in this
order: ErrInvalidInput exactly when userID or bookID is not positive; otherwise
ErrBookNotFound exactly when no book has that ID; otherwise ErrStockNotEnough
exactly when the stock of the book is at most 0, whatever the number of open
records of the user; otherwise ErrBorrowLimit exactly when the user has five or
more open records; otherwise no error. -/
theorem C4_borrow_failure_order (env : Env) (hf : NoFault env) (s : Store)
    (userID bookID : Int) :
    ((BorrowService.BorrowBook env s userID bookID).1 = some .ErrInvalidInput ↔
      (userID ≤ 0 ∨ bookID ≤ 0)) ∧
    (¬ (userID ≤ 0 ∨ bookID ≤ 0) →
      ((BorrowService.BorrowBook env s userID bookID).1 = some .ErrBookNotFound ↔
        bookRepositoryImpl.find s.books bookID = none)) ∧
    (∀ book, ¬ (userID ≤ 0 ∨ bookID ≤ 0) →
      bookRepositoryImpl.find s.books bookID = some book →
      ((BorrowService.BorrowBook env s userID bookID).1 = some .ErrStockNotEnough ↔
        book.Stock ≤ 0)) ∧
    (∀ book, ¬ (userID ≤ 0 ∨ bookID ≤ 0) →
      bookRepositoryImpl.find s.books bookID = some book → ¬ book.Stock ≤ 0 →
      ((BorrowService.BorrowBook env s userID bookID).1 = some .ErrBorrowLimit ↔
        5 ≤ borrowRecordRepoImpl.activeCount s.records userID)) ∧
    (∀ book, ¬ (userID ≤ 0 ∨ bookID ≤ 0) →
      bookRepositoryImpl.find s.books bookID = some book → ¬ book.Stock ≤ 0 →
      ¬ 5 ≤ borrowRecordRepoImpl.activeCount s.records userID →
      (BorrowService.BorrowBook env s userID bookID).1 = none) := by
  rw [BorrowBook_eval env hf]
  refine ⟨?_, ?_, ?_, ?_, ?_⟩
  · by_cases hin : userID ≤ 0 ∨ bookID ≤ 0
    · simp [hin]
    · simp only [hin, if_false, iff_false]
      cases hb : bookRepositoryImpl.find s.books bookID with
      | none => simp
      | some book =>
        by_cases hst : book.Stock ≤ 0
        · simp [hst]
        · by_cases hc : 5 ≤ borrowRecordRepoImpl.activeCount s.records userID <;> simp [hst, hc]
  · intro hin
    simp only [hin, if_false]
    cases hb : bookRepositoryImpl.find s.books bookID with
    | none => simp
    | some book =>
      by_cases hst : book.Stock ≤ 0
      · simp [hst]
      · by_cases hc : 5 ≤ borrowRecordRepoImpl.activeCount s.records userID <;> simp [hst, hc]
  · intro book hin hb
    simp only [hin, if_false, hb]
    by_cases hst : book.Stock ≤ 0
    · simp [hst]
    · by_cases hc : 5 ≤ borrowRecordRepoImpl.activeCount s.records userID <;> simp [hst, hc]
  · intro book hin hb hst
    simp only [hin, if_false, hb, hst]
    by_cases hc : 5 ≤ borrowRecordRepoImpl.activeCount s.records userID <;> simp [hc]
  · intro book hin hb hst hc
    simp [hin, hb, hst, hc]

/-- C4 witness: user 7 already holds five open records and asks for book 2,
which has no copy left: the answer is ErrStockNotEnough, not ErrBorrowLimit. -/
theorem C4_borrow_failure_order_witness :
    NoFault (Env.calm t0) ∧
    borrowRecordRepoImpl.activeCount fiveOpen.records 7 = 5 ∧
    (BorrowService.BorrowBook (Env.calm t0) fiveOpen 7 2).1 = some .ErrStockNotEnough :=
  ⟨noFault_calm t0, by decide,
    ((C4_borrow_failure_order (Env.calm t0) (noFault_calm t0) fiveOpen 7 2).2.2.1
      { ID := 2, Title := "Z", Author := "Y", Stock := 0 } (by decide) (by decide)).2
      (by decide)⟩

/-- C5: whenever BorrowBook, ReturnBook or DeleteBook returns an error, a domain
error or a failure of any store access (also one that comes after the stock
update was written inside the transaction), the store after the call is the
store before it. -/
theorem C5_atomicity (env : Env) (s : Store) :
    (∀ userID bookID, (BorrowService.BorrowBook env s userID bookID).1 ≠ none →
      (BorrowService.BorrowBook env s userID bookID).2 = s) ∧
    (∀ recordID currentUserID,
      (BorrowService.ReturnBook env s recordID currentUserID).1 ≠ none →
      (BorrowService.ReturnBook env s recordID currentUserID).2 = s) ∧
    (∀ ID, (AdminService.DeleteBook env s ID).1 ≠ none →
      (AdminService.DeleteBook env s ID).2 = s) := by
  refine ⟨?_, ?_, ?_⟩
  · intro userID bookID herr
    rcases BorrowBook_cases env s userID bookID with ⟨_, h⟩ | ⟨book, _, _, _, _, _, h⟩
    · exact h
    · rw [h] at herr; exact absurd rfl herr
  · intro recordID currentUserID herr
    rcases ReturnBook_cases env s recordID currentUserID with
      ⟨_, h⟩ | ⟨record, book, _, _, _, _, _, _, h⟩
    · exact h
    · rw [h] at herr; exact absurd rfl herr
  · intro ID herr
    rcases DeleteBook_cases env s ID with ⟨_, h⟩ | ⟨book, records1, _, _, _, h⟩
    · exact h
    · rw [h] at herr; exact absurd rfl herr

/-- C5 witness: the insertion of the record fails after the stock update was
written: inside the transaction the tables have changed, the call returns the
error, and the store after the call is the store before it. -/
theorem C5_atomicity_witness :
    (BorrowService.BorrowBook (Env.failAt 3 t0) oneCopy 7 1).1 =
      some (.wrapped "failed to create borrow record") ∧
    (BorrowService.borrowTx (Env.failAt 3 t0) 7 1 oneCopy).2.books =
      [{ ID := 1, Title := "X", Author := "Y", Stock := 0 }] ∧
    (BorrowService.BorrowBook (Env.failAt 3 t0) oneCopy 7 1).2 = oneCopy :=
  ⟨by decide, by decide, (C5_atomicity (Env.failAt 3 t0) oneCopy).1 7 1 (by decide)⟩

/-- C6, as stated, fails: user 7 returns a copy of a book whose stock is
2^63 - 1; the call succeeds and the stock becomes -2^63, not 2^63. -/
theorem C6_stock_wraps_at_maxInt :
    borrowRecordRepoImpl.find lentAtMax.records 1 = some (openRecord 1 7 1) ∧
    bookRepositoryImpl.find lentAtMax.books 1 =
      some { ID := 1, Title := "X", Author := "Y", Stock := 9223372036854775807 } ∧
    (BorrowService.ReturnBook (Env.calm t0) lentAtMax 1 7).1 = none ∧
    bookRepositoryImpl.find (BorrowService.ReturnBook (Env.calm t0) lentAtMax 1 7).2.books 1 =
      some { ID := 1, Title := "X", Author := "Y", Stock := -9223372036854775808 } ∧
    (-9223372036854775808 : Int) ≠ 9223372036854775807 + 1 := by
  decide

/-- C6 (amended): when recordID and currentUserID are positive, the record
exists, is owned by currentUserID and is open, its book exists with a stock s
that is an `int` below 2^63 - 1, and no store access fails, ReturnBook succeeds;
the rows of that book become the fetched book with stock s + 1 and every other
book row is as before; the rows with key recordID become the fetched record with
ReturnedAt set to the clock reading of the call (ID, UserID, BookID, BorrowedAt
and DueDate as fetched) and every other record row is as before. -/
theorem C6_return_success (env : Env) (hf : NoFault env) (s : Store)
    (recordID currentUserID : Int) (record : BorrowRecord) (book : Book)
    (hr : 0 < recordID) (hu : 0 < currentUserID)
    (hrec : borrowRecordRepoImpl.find s.records recordID = some record)
    (hown : record.UserID = currentUserID) (hopen : record.ReturnedAt = none)
    (hbook : bookRepositoryImpl.find s.books record.BookID = some book)
    (hlo : minInt ≤ book.Stock) (hhi : book.Stock < maxInt) :
    (BorrowService.ReturnBook env s recordID currentUserID).1 = none ∧
    (BorrowService.ReturnBook env s recordID currentUserID).2.books =
      s.books.map (fun b => if b.ID = record.BookID then
        { ID := book.ID, Title := book.Title, Author := book.Author, Stock := book.Stock + 1 }
        else b) ∧
    bookRepositoryImpl.find (BorrowService.ReturnBook env s recordID currentUserID).2.books
        record.BookID =
      some { ID := record.BookID, Title := book.Title, Author := book.Author,
             Stock := book.Stock + 1 } ∧
    (BorrowService.ReturnBook env s recordID currentUserID).2.records =
      s.records.map (fun r => if r.ID = recordID then
        { ID := record.ID, UserID := record.UserID, BookID := record.BookID,
          BorrowedAt := record.BorrowedAt, DueDate := record.DueDate,
          ReturnedAt := some (env.now 0) }
        else r) ∧
    borrowRecordRepoImpl.find (BorrowService.ReturnBook env s recordID currentUserID).2.records
        recordID =
      some { ID := recordID, UserID := record.UserID, BookID := record.BookID,
             BorrowedAt := record.BorrowedAt, DueDate := record.DueDate,
             ReturnedAt := some (env.now 0) } := by
  have hbid : book.ID = record.BookID := (book_find_some hbook).2
  obtain rfl : record.ID = recordID := (record_find_some hrec).2
  subst hown
  rw [← hbid] at hbook ⊢
  have hw : wrapInt (book.Stock + 1) = book.Stock + 1 :=
    wrapInt_of_isInt _ (by omega) (by omega)
  have hin : ¬ (record.ID ≤ 0 ∨ record.UserID ≤ 0) := by omega
  have heq := ReturnBook_eval env hf s record.ID record.UserID
  simp only [hin, hrec, hopen, ← hbid, hbook, if_false, hw, ne_eq, not_true_eq_false] at heq
  rw [heq]
  exact ⟨rfl, rfl, book_find_map_replace hbook rfl, rfl, record_find_map_replace hrec rfl⟩

/-- C6 witness: the specification's scenario, user A returns the only copy:
the stock goes from 0 to 1 and the record is closed. -/
theorem C6_return_success_witness :
    (BorrowService.ReturnBook (Env.calm t0) lentOut 1 7).1 = none ∧
    bookRepositoryImpl.find (BorrowService.ReturnBook (Env.calm t0) lentOut 1 7).2.books 1 =
      some { ID := 1, Title := "X", Author := "Y", Stock := 0 + 1 } ∧
    borrowRecordRepoImpl.find (BorrowService.ReturnBook (Env.calm t0) lentOut 1 7).2.records 1 =
      some { ID := 1, UserID := 7, BookID := 1, BorrowedAt := t0, DueDate := t0.AddDate_0_1_0,
             ReturnedAt := some t0 } :=
  have h := C6_return_success (Env.calm t0) (noFault_calm t0) lentOut 1 7 (openRecord 1 7 1)
    { ID := 1, Title := "X", Author := "Y", Stock := 0 }
    (by decide) (by decide) (by decide) (by decide) (by decide) (by decide) (by decide)
    (by decide)
  ⟨h.1, h.2.2.1, h.2.2.2.2⟩

/-- C7: with no store access failing, ReturnBook decides its errors in this
order: ErrInvalidInput exactly when recordID or currentUserID is not positive;
otherwise ErrRecordNotFound exactly when no record has that ID; otherwise
ErrPermissionDenied exactly when the record belongs to another user, returned or
not; otherwise ErrAlreadyReturned exactly when ReturnedAt is set; otherwise
ErrBookNotFound exactly when the referenced book does not exist; otherwise no
error. -/
theorem C7_return_failure_order (env : Env) (hf : NoFault env) (s : Store)
    (recordID currentUserID : Int) :
    ((BorrowService.ReturnBook env s recordID currentUserID).1 = some .ErrInvalidInput ↔
      (recordID ≤ 0 ∨ currentUserID ≤ 0)) ∧
    (¬ (recordID ≤ 0 ∨ currentUserID ≤ 0) →
      ((BorrowService.ReturnBook env s recordID currentUserID).1 = some .ErrRecordNotFound ↔
        borrowRecordRepoImpl.find s.records recordID = none)) ∧
    (∀ record, ¬ (recordID ≤ 0 ∨ currentUserID ≤ 0) →
      borrowRecordRepoImpl.find s.records recordID = some record →
      ((BorrowService.ReturnBook env s recordID currentUserID).1 = some .ErrPermissionDenied ↔
        record.UserID ≠ currentUserID)) ∧
    (∀ record, ¬ (recordID ≤ 0 ∨ currentUserID ≤ 0) →
      borrowRecordRepoImpl.find s.records recordID = some record →
      record.UserID = currentUserID →
      ((BorrowService.ReturnBook env s recordID currentUserID).1 = some .ErrAlreadyReturned ↔
        record.ReturnedAt ≠ none)) ∧
    (∀ record, ¬ (recordID ≤ 0 ∨ currentUserID ≤ 0) →
      borrowRecordRepoImpl.find s.records recordID = some record →
      record.UserID = currentUserID → record.ReturnedAt = none →
      ((BorrowService.ReturnBook env s recordID currentUserID).1 = some .ErrBookNotFound ↔
        bookRepositoryImpl.find s.books record.BookID = none)) ∧
    (∀ record book, ¬ (recordID ≤ 0 ∨ currentUserID ≤ 0) →
      borrowRecordRepoImpl.find s.records recordID = some record →
      record.UserID = currentUserID → record.ReturnedAt = none →
      bookRepositoryImpl.find s.books record.BookID = some book →
      (BorrowService.ReturnBook env s recordID currentUserID).1 = none) := by
  rw [ReturnBook_eval env hf]
  refine ⟨?_, ?_, ?_, ?_, ?_, ?_⟩
  · by_cases hin : recordID ≤ 0 ∨ currentUserID ≤ 0
    · simp [hin]
    · simp only [hin, if_false, iff_false]
      cases hrec : borrowRecordRepoImpl.find s.records recordID with
      | none => simp
      | some record =>
        by_cases hu : record.UserID = currentUserID
        swap
        · simp [hu]
        cases hret : record.ReturnedAt with
        | some t => simp [hu, hret]
        | none =>
          cases hb : bookRepositoryImpl.find s.books record.BookID <;> simp [hu, hret, hb]
  · intro hin
    simp only [hin, if_false]
    cases hrec : borrowRecordRepoImpl.find s.records recordID with
    | none => simp
    | some record =>
      by_cases hu : record.UserID = currentUserID
      swap
      · simp [hu]
      cases hret : record.ReturnedAt with
      | some t => simp [hu, hret]
      | none =>
        cases hb : bookRepositoryImpl.find s.books record.BookID <;> simp [hu, hret, hb]
  · intro record hin hrec
    simp only [hin, if_false, hrec]
    by_cases hu : record.UserID = currentUserID
    swap
    · simp [hu]
    cases hret : record.ReturnedAt with
    | some t => simp [hu, hret]
    | none =>
      cases hb : bookRepositoryImpl.find s.books record.BookID <;> simp [hu, hret, hb]
  · intro record hin hrec hu
    simp only [hin, if_false, hrec, hu]
    cases hret : record.ReturnedAt with
    | some t => simp [hret]
    | none =>
      cases hb : bookRepositoryImpl.find s.books record.BookID <;> simp [hret, hb]
  · intro record hin hrec hu hret
    simp only [hin, if_false, hrec, hu, hret]
    cases hb : bookRepositoryImpl.find s.books record.BookID <;> simp [hret, hb]
  · intro record book hin hrec hu hret hb
    simp [hin, hrec, hu, hret, hb]

/-- C7 witness: user 8 tries to return a record of user 7: ErrPermissionDenied. -/
theorem C7_return_failure_order_witness :
    NoFault (Env.calm t0) ∧
    (BorrowService.ReturnBook (Env.calm t0) fiveOpen 1 8).1 = some .ErrPermissionDenied :=
  ⟨noFault_calm t0,
    ((C7_return_failure_order (Env.calm t0) (noFault_calm t0) fiveOpen 1 8).2.2.1
      (openRecord 1 7 1) (by decide) (by decide)).2 (by decide)⟩

/-- ReturnBook on a record of the caller that is already closed: the record is
read, ErrAlreadyReturned is returned and the store is as before. -/
theorem ReturnBook_closed (env : Env) (s : Store) (recordID currentUserID : Int)
    (record : BorrowRecord) (t : Time) (h0 : env.fault 0 = false)
    (hr : 0 < recordID) (hu : 0 < currentUserID)
    (hrec : borrowRecordRepoImpl.find s.records recordID = some record)
    (hown : record.UserID = currentUserID) (hret : record.ReturnedAt = some t) :
    BorrowService.ReturnBook env s recordID currentUserID = (some .ErrAlreadyReturned, s) := by
  have hin : ¬ (recordID ≤ 0 ∨ currentUserID ≤ 0) := by omega
  unfold BorrowService.ReturnBook
  rw [if_neg hin]
  unfold Transaction BorrowService.returnTx borrowRecordRepoImpl.GetByID
  simp [h0, hrec, hown, hret]

/-- C8, as stated, fails: user 7 returns twice a copy of a book whose stock is
2^63 - 1; the first call succeeds, the second returns ErrAlreadyReturned, and
over the two calls the stock has gone to -2^63, not up by one. -/
theorem C8_stock_wraps_over_two_returns :
    (BorrowService.ReturnBook (Env.calm t0) lentAtMax 1 7).1 = none ∧
    (BorrowService.ReturnBook (Env.calm t0)
      (BorrowService.ReturnBook (Env.calm t0) lentAtMax 1 7).2 1 7).1 =
      some .ErrAlreadyReturned ∧
    (bookRepositoryImpl.find lentAtMax.books 1).map (fun b => b.Stock + 1) =
      some 9223372036854775808 ∧
    (bookRepositoryImpl.find (BorrowService.ReturnBook (Env.calm t0)
      (BorrowService.ReturnBook (Env.calm t0) lentAtMax 1 7).2 1 7).2.books 1).map
        (fun b => b.Stock) = some (-9223372036854775808) := by
  decide

/-- C8 (amended): when ReturnBook(recordID, userID) succeeds on a record whose
book has a stock s that is an `int` below 2^63 - 1, an immediately following
ReturnBook(recordID, userID) whose read of the record does not fail returns
ErrAlreadyReturned and leaves the store as the first call left it; after the two
calls the stock of the book is s + 1 and the ReturnedAt of the record is the
clock reading of the first call. -/
theorem C8_return_twice (env1 env2 : Env) (s : Store) (recordID userID : Int)
    (record : BorrowRecord) (book : Book)
    (hfirst : (BorrowService.ReturnBook env1 s recordID userID).1 = none)
    (hread : env2.fault 0 = false)
    (hrec : borrowRecordRepoImpl.find s.records recordID = some record)
    (hbook : bookRepositoryImpl.find s.books record.BookID = some book)
    (hlo : minInt ≤ book.Stock) (hhi : book.Stock < maxInt) :
    BorrowService.ReturnBook env2 (BorrowService.ReturnBook env1 s recordID userID).2
        recordID userID =
      (some .ErrAlreadyReturned, (BorrowService.ReturnBook env1 s recordID userID).2) ∧
    bookRepositoryImpl.find
        (BorrowService.ReturnBook env2 (BorrowService.ReturnBook env1 s recordID userID).2
          recordID userID).2.books record.BookID =
      some { ID := record.BookID, Title := book.Title, Author := book.Author,
             Stock := book.Stock + 1 } ∧
    borrowRecordRepoImpl.find
        (BorrowService.ReturnBook env2 (BorrowService.ReturnBook env1 s recordID userID).2
          recordID userID).2.records recordID =
      some { ID := recordID, UserID := record.UserID, BookID := record.BookID,
             BorrowedAt := record.BorrowedAt, DueDate := record.DueDate,
             ReturnedAt := some (env1.now 0) } := by
  rcases ReturnBook_cases env1 s recordID userID with
    ⟨herr, _⟩ | ⟨record1, book1, hrec1, hown, _, hbook1, hr, hu, h⟩
  · exact absurd hfirst herr
  · rw [hrec] at hrec1
    obtain rfl : record = record1 := Option.some.inj hrec1
    rw [hbook] at hbook1
    obtain rfl : book = book1 := Option.some.inj hbook1
    have hbid : book.ID = record.BookID := (book_find_some hbook).2
    obtain rfl : record.ID = recordID := (record_find_some hrec).2
    have hw : wrapInt (book.Stock + 1) = book.Stock + 1 :=
      wrapInt_of_isInt _ (by omega) (by omega)
    rw [hw, hbid] at h
    have hrec2 : borrowRecordRepoImpl.find
        (BorrowService.ReturnBook env1 s record.ID userID).2.records record.ID =
        some { ID := record.ID, UserID := record.UserID, BookID := record.BookID,
               BorrowedAt := record.BorrowedAt, DueDate := record.DueDate,
               ReturnedAt := some (env1.now 0) } := by
      rw [h]
      exact record_find_map_replace hrec rfl
    have hbook2 : bookRepositoryImpl.find
        (BorrowService.ReturnBook env1 s record.ID userID).2.books record.BookID =
        some { ID := record.BookID, Title := book.Title, Author := book.Author,
               Stock := book.Stock + 1 } := by
      rw [h]
      exact book_find_map_replace hbook rfl
    have hsecond := ReturnBook_closed env2 (BorrowService.ReturnBook env1 s record.ID userID).2
      record.ID userID _ (env1.now 0) hread hr hu hrec2 hown rfl
    rw [hsecond]
    exact ⟨rfl, hbook2, hrec2⟩

/-- C8 witness: the specification's scenario, the only copy is returned twice:
the second call fails and the stock is 1. -/
theorem C8_return_twice_witness :
    (BorrowService.ReturnBook (Env.calm t0) lentOut 1 7).1 = none ∧
    (BorrowService.ReturnBook (Env.calm t1)
      (BorrowService.ReturnBook (Env.calm t0) lentOut 1 7).2 1 7).1 =
      some .ErrAlreadyReturned ∧
    bookRepositoryImpl.find (BorrowService.ReturnBook (Env.calm t1)
      (BorrowService.ReturnBook (Env.calm t0) lentOut 1 7).2 1 7).2.books 1 =
      some { ID := 1, Title := "X", Author := "Y", Stock := 0 + 1 } ∧
    borrowRecordRepoImpl.find (BorrowService.ReturnBook (Env.calm t1)
      (BorrowService.ReturnBook (Env.calm t0) lentOut 1 7).2 1 7).2.records 1 =
      some { ID := 1, UserID := 7, BookID := 1, BorrowedAt := t0, DueDate := t0.AddDate_0_1_0,
             ReturnedAt := some t0 } :=
  have h := C8_return_twice (Env.calm t0) (Env.calm t1) lentOut 1 7 (openRecord 1 7 1)
    { ID := 1, Title := "X", Author := "Y", Stock := 0 }
    (by decide) (by decide) (by decide) (by decide) (by decide) (by decide)
  ⟨by decide, congrArg Prod.fst h.1, h.2.1, h.2.2⟩

/-- What `DeleteBook` computes when no store access fails. -/
theorem DeleteBook_eval (env : Env) (hf : NoFault env) (s : Store) (ID : Int) :
    AdminService.DeleteBook env s ID =
      if ID < 0 then (some .ErrInvalidInput, s)
      else match bookRepositoryImpl.find s.books ID with
        | none => (some .ErrBookNotFound, s)
        | some book =>
          match AdminService.closeLoop env (s.records.filter (fun r => r.BookID == ID)) 0
              s.records with
          | (some err, _) => (some err, s)
          | (none, records1) =>
            (none, { books := s.books.filter (fun b => b.ID != book.ID), records := records1 }) := by
  unfold AdminService.DeleteBook
  by_cases hin : ID < 0
  · simp [hin]
  · rw [if_neg hin, if_neg hin]
    unfold Transaction AdminService.deleteTx bookRepositoryImpl.GetByID
      borrowRecordRepoImpl.GetByBookID bookRepositoryImpl.Delete
    cases hb : bookRepositoryImpl.find s.books ID with
    | none => simp [hf 0]
    | some book =>
      cases hcl : AdminService.closeLoop env (s.records.filter (fun r => r.BookID == ID)) 0
          s.records with
      | mk e records1 =>
        cases e with
        | some err => simp [hf 0, hf 1, hcl]
        | none => simp [hf 0, hf 1, hf _, hcl]

theorem map_replace_of_nodup (pre rs : List BorrowRecord) (r v : BorrowRecord)
    (hnd : ((pre ++ r :: rs).map (fun x => x.ID)).Nodup) :
    (pre ++ r :: rs).map (fun x => if x.ID = r.ID then v else x) = pre ++ v :: rs := by
  rw [List.map_append, List.map_cons] at hnd
  have hmid := List.nodup_middle.1 hnd
  have hnot := (List.nodup_cons.1 hmid).1
  have hpre : ∀ x ∈ pre, x.ID ≠ r.ID := by
    intro x hx hxe
    exact hnot (List.mem_append_left _ (hxe ▸ List.mem_map_of_mem (fun x => x.ID) hx))
  have hrs : ∀ x ∈ rs, x.ID ≠ r.ID := by
    intro x hx hxe
    exact hnot (List.mem_append_right _ (hxe ▸ List.mem_map_of_mem (fun x => x.ID) hx))
  rw [List.map_append, List.map_cons]
  congr 1
  · conv_rhs => rw [← List.map_id pre]
    apply List.map_congr_left
    intro x hx
    simp [hpre x hx]
  · simp only [if_true]
    congr 1
    conv_rhs => rw [← List.map_id rs]
    apply List.map_congr_left
    intro x hx
    simp [hrs x hx]

/-- With unique record keys and no failing store access, the loop of `DeleteBook`
over the records of book `ID` leaves the table that one closing pass describes. -/
theorem closeLoop_eq_closeAll (env : Env) (hf : NoFault env) (ID : Int) :
    ∀ (rest pre : List BorrowRecord) (i : Nat),
      ((pre ++ rest).map (fun x => x.ID)).Nodup →
      AdminService.closeLoop env (rest.filter (fun r => r.BookID == ID)) i (pre ++ rest)
        = (none, pre ++ closeAll env ID i rest) := by
  intro rest
  induction rest with
  | nil => intro pre i _; simp [AdminService.closeLoop, closeAll]
  | cons r rs ih =>
    intro pre i hnd
    by_cases hb : r.BookID = ID
    · have hbe : (r.BookID == ID) = true := by simpa using hb
      rw [List.filter_cons]
      simp only [hbe, if_true]
      unfold AdminService.closeLoop closeAll
      rw [if_pos hb]
      by_cases hopen : r.ReturnedAt = none
      · rw [if_pos hopen, if_pos hopen]
        unfold borrowRecordRepoImpl.Update
        simp only [hf (2 + i), Bool.false_eq_true, if_false]
        rw [map_replace_of_nodup pre rs r _ hnd]
        have hnd' : (List.map (fun x : BorrowRecord => x.ID)
            ((pre ++ [{ r with ReturnedAt := some (env.now i) }]) ++ rs)).Nodup := by
          simpa using hnd
        have := ih (pre ++ [{ r with ReturnedAt := some (env.now i) }]) (i + 1) hnd'
        simpa using this
      · rw [if_neg hopen, if_neg hopen]
        have hnd' : (((pre ++ [r]) ++ rs).map (fun x => x.ID)).Nodup := by simpa using hnd
        have := ih (pre ++ [r]) (i + 1) hnd'
        simpa using this
    · have hbe : ¬ (r.BookID == ID) = true := by simpa using hb
      rw [List.filter_cons]
      simp only [hbe, if_false]
      unfold closeAll
      simp only [hb, if_false]
      have hnd' : (((pre ++ [r]) ++ rs).map (fun x => x.ID)).Nodup := by simpa using hnd
      have := ih (pre ++ [r]) i hnd'
      simpa using this

theorem closeAll_length (env : Env) (ID : Int) : ∀ (rs : List BorrowRecord) (i : Nat),
    (closeAll env ID i rs).length = rs.length := by
  intro rs
  induction rs with
  | nil => intro i; simp [closeAll]
  | cons r rs ih =>
    intro i
    unfold closeAll
    by_cases hb : r.BookID = ID <;> simp [hb, ih]

theorem closeAll_getElem? (env : Env) (ID : Int) : ∀ (rs : List BorrowRecord) (i j : Nat)
    (r : BorrowRecord), rs[j]? = some r →
    (closeAll env ID i rs)[j]? =
      some (if r.BookID = ID ∧ r.ReturnedAt = none then
        { r with
          ReturnedAt := some (env.now (i + (rs.take j).countP (fun x => x.BookID == ID))) }
        else r) := by
  intro rs
  induction rs with
  | nil => intro i j r h; simp at h
  | cons r0 rs ih =>
    intro i j r h
    cases j with
    | zero =>
      simp only [List.getElem?_cons_zero, Option.some.injEq] at h
      subst h
      unfold closeAll
      by_cases hb : r0.BookID = ID <;> by_cases ho : r0.ReturnedAt = none <;> simp [hb, ho]
    | succ j =>
      simp only [List.getElem?_cons_succ] at h
      unfold closeAll
      by_cases hb : r0.BookID = ID
      · have hbe : (r0.BookID == ID) = true := by simpa using hb
        have hcount : List.countP (fun x : BorrowRecord => x.BookID == ID) (r0 :: List.take j rs)
            = List.countP (fun x : BorrowRecord => x.BookID == ID) (List.take j rs) + 1 := by
          rw [List.countP_cons]; simp only [hbe, if_true]
        rw [if_pos hb]
        simp only [List.getElem?_cons_succ, List.take_succ_cons, hcount]
        rw [ih (i + 1) j r h]
        have : i + 1 + List.countP (fun x : BorrowRecord => x.BookID == ID) (List.take j rs)
            = i + (List.countP (fun x : BorrowRecord => x.BookID == ID) (List.take j rs) + 1) := by
          omega
        rw [this]
      · have hbe : (r0.BookID == ID) = false := by simpa using hb
        have hcount : List.countP (fun x : BorrowRecord => x.BookID == ID) (r0 :: List.take j rs)
            = List.countP (fun x : BorrowRecord => x.BookID == ID) (List.take j rs) := by
          rw [List.countP_cons]; simp [hbe]
        rw [if_neg hb]
        simp only [List.getElem?_cons_succ, List.take_succ_cons, hcount]
        exact ih i j r h

theorem closeAll_closed (env : Env) (ID : Int) : ∀ (rs : List BorrowRecord) (i : Nat),
    ∀ r ∈ closeAll env ID i rs, r.BookID = ID → r.ReturnedAt ≠ none := by
  intro rs
  induction rs with
  | nil => intro i r hr; simp [closeAll] at hr
  | cons r0 rs ih =>
    intro i r hr hb
    unfold closeAll at hr
    by_cases hb0 : r0.BookID = ID
    · rw [if_pos hb0] at hr
      rcases List.mem_cons.1 hr with h | h
      · by_cases ho : r0.ReturnedAt = none
        · rw [if_pos ho] at h; rw [h]; simp
        · rw [if_neg ho] at h; rw [h]; exact ho
      · exact ih (i + 1) r h hb
    · rw [if_neg hb0] at hr
      rcases List.mem_cons.1 hr with h | h
      · rw [h] at hb; exact absurd hb hb0
      · exact ih i r h hb

/-- C9: for an existing book with a key that passes validation, record keys
being unique and no store access failing, DeleteBook succeeds and afterwards
(a) no book has that ID, (d) the books are the other books, unchanged,
(b) every record of that book has ReturnedAt set, (c) the records table has the
same length and, position by position, a record of another book or an already
closed record is unchanged, while an open record of that book has only its
ReturnedAt changed, to the clock reading of its turn in the loop. -/
theorem C9_delete_cascade (env : Env) (hf : NoFault env) (s : Store) (ID : Int) (book : Book)
    (hid : 0 ≤ ID) (hfind : bookRepositoryImpl.find s.books ID = some book)
    (hkeys : (s.records.map (fun r => r.ID)).Nodup) :
    (AdminService.DeleteBook env s ID).1 = none ∧
    (∀ b ∈ (AdminService.DeleteBook env s ID).2.books, b.ID ≠ ID) ∧
    (AdminService.DeleteBook env s ID).2.books = s.books.filter (fun b => b.ID != ID) ∧
    (∀ r ∈ (AdminService.DeleteBook env s ID).2.records, r.BookID = ID → r.ReturnedAt ≠ none) ∧
    (AdminService.DeleteBook env s ID).2.records.length = s.records.length ∧
    (∀ (j : Nat) (r : BorrowRecord), s.records[j]? = some r →
      (AdminService.DeleteBook env s ID).2.records[j]? =
        some (if r.BookID = ID ∧ r.ReturnedAt = none then
          { ID := r.ID, UserID := r.UserID, BookID := r.BookID, BorrowedAt := r.BorrowedAt,
            DueDate := r.DueDate,
            ReturnedAt := some (env.now ((s.records.take j).countP (fun x => x.BookID == ID))) }
          else r)) := by
  have hbid : book.ID = ID := (book_find_some hfind).2
  have hloop := closeLoop_eq_closeAll env hf ID s.records [] 0 (by simpa using hkeys)
  simp only [List.nil_append] at hloop
  have heq := DeleteBook_eval env hf s ID
  have hin : ¬ ID < 0 := by omega
  simp only [hin, if_false, hfind, hloop, hbid] at heq
  rw [heq]
  refine ⟨rfl, ?_, rfl, ?_, ?_, ?_⟩
  · intro b hb
    have := (List.mem_filter.1 hb).2
    simpa using this
  · exact closeAll_closed env ID s.records 0
  · exact closeAll_length env ID s.records 0
  · intro j r hj
    have := closeAll_getElem? env ID s.records 0 j r hj
    simpa using this

/-- C9 witness: book 1 is deleted while two of its records are open. -/
theorem C9_delete_cascade_witness :
    NoFault (Env.calm t1) ∧
    AdminService.DeleteBook (Env.calm t1) twoOnLoan 1 =
      (none,
        { books := [{ ID := 2, Title := "Z", Author := "Y", Stock := 4 }],
          records := [{ openRecord 1 7 1 with ReturnedAt := some t1 },
                      { openRecord 2 9 1 with ReturnedAt := some t0 },
                      { openRecord 3 8 1 with ReturnedAt := some t1 },
                      openRecord 4 7 2] }) ∧
    (∀ r ∈ (AdminService.DeleteBook (Env.calm t1) twoOnLoan 1).2.records,
      r.BookID = 1 → r.ReturnedAt ≠ none) :=
  ⟨noFault_calm t1, by decide,
    (C9_delete_cascade (Env.calm t1) (noFault_calm t1) twoOnLoan 1
      { ID := 1, Title := "X", Author := "Y", Stock := 0 }
      (by decide) (by decide) (by decide)).2.2.2.1⟩

/-- When the loop of `DeleteBook` ends without error, every table row carrying
the key of a row that was fetched open is closed. -/
theorem closeLoop_closes (env : Env) : ∀ (recs : List BorrowRecord) (i : Nat)
    (table t' : List BorrowRecord), AdminService.closeLoop env recs i table = (none, t') →
    ∀ r ∈ recs, r.ReturnedAt = none → ∀ y ∈ t', y.ID = r.ID → y.ReturnedAt ≠ none := by
  intro recs
  induction recs with
  | nil => intro i table t' _ r hr; simp at hr
  | cons r0 rest ih =>
    intro i table t' hloop r hr hopen y hy hyid
    unfold AdminService.closeLoop at hloop
    by_cases ho : r0.ReturnedAt = none
    · rw [if_pos ho] at hloop
      unfold borrowRecordRepoImpl.Update at hloop
      by_cases hfault : env.fault (2 + i) = true
      · simp [hfault] at hloop
      · simp only [hfault, Bool.false_eq_true, if_false] at hloop
        rcases List.mem_cons.1 hr with h | h
        · subst h
          obtain ⟨f, hf, hfp⟩ := closeLoop_map env rest (i + 1)
            (table.map (fun x => if x.ID = r.ID then { r with ReturnedAt := some (env.now i) }
              else x))
          rw [hloop] at hf
          simp only at hf
          rw [hf] at hy
          obtain ⟨z, hz, rfl⟩ := List.mem_map.1 hy
          obtain ⟨w, _, rfl⟩ := List.mem_map.1 hz
          have hzid := (hfp (if w.ID = r.ID then { r with ReturnedAt := some (env.now i) }
            else w)).1
          by_cases hw : w.ID = r.ID
          · simp only [hw, if_true] at hzid ⊢
            rcases (hfp { r with ReturnedAt := some (env.now i) }).2 with h | h
            · rw [h]; simp
            · exact h
          · simp only [hw, if_false] at hzid hyid
            rw [(hfp w).1] at hyid
            exact absurd hyid hw
        · exact ih (i + 1) _ t' hloop r h hopen y hy hyid
    · rw [if_neg ho] at hloop
      rcases List.mem_cons.1 hr with h | h
      · subst h; exact absurd hopen ho
      · exact ih (i + 1) _ t' hloop r h hopen y hy hyid

theorem exists_book_map_replace (books : List Book) (k id : Int) (v : Book) (hv : v.ID = k)
    (h : ∃ b ∈ books, b.ID = id) :
    ∃ b ∈ books.map (fun x => if x.ID = k then v else x), b.ID = id := by
  obtain ⟨b, hb, hbid⟩ := h
  refine ⟨if b.ID = k then v else b, List.mem_map_of_mem _ hb, ?_⟩
  by_cases hk : b.ID = k
  · rw [if_pos hk, hv, ← hk]; exact hbid
  · rw [if_neg hk]; exact hbid

theorem open_of_map_replace {records : List BorrowRecord} {k : Int} {v y : BorrowRecord}
    (hv : v.ReturnedAt ≠ none) (hy : y ∈ records.map (fun x => if x.ID = k then v else x))
    (hopen : y.ReturnedAt = none) : y ∈ records := by
  obtain ⟨x, hx, rfl⟩ := List.mem_map.1 hy
  by_cases hk : x.ID = k
  · simp only [hk, if_true] at hopen; exact absurd hopen hv
  · simpa [hk] using hx

/-- One call keeps every open record attached to an existing book. -/
theorem exec_referential (s : Store) (c : Call) (hs : Referential s) :
    Referential (c.exec s).2 := by
  cases c with
  | AddBook env title author stock =>
    rcases AddBook_cases env s title author stock with ⟨_, h⟩ | ⟨_, h⟩
    · simpa [Call.exec, h] using hs
    · simp only [Call.exec, h]
      intro r hr hopen
      obtain ⟨b, hb, hbid⟩ := hs r hr hopen
      exact ⟨b, List.mem_append_left _ hb, hbid⟩
  | UpdateBook env title author ID stock =>
    rcases UpdateBook_cases env s title author ID stock with ⟨_, h⟩ | ⟨book, _, _, h⟩
    · simpa [Call.exec, h] using hs
    · simp only [Call.exec, h]
      intro r hr hopen
      dsimp only at hr ⊢
      exact exists_book_map_replace _ book.ID _ _ rfl (hs r hr hopen)
  | DeleteBook env ID =>
    rcases DeleteBook_cases env s ID with ⟨_, h⟩ | ⟨book, records1, hfind, _, hloop, h⟩
    · simpa [Call.exec, h] using hs
    · simp only [Call.exec, h]
      have hbid : book.ID = ID := (book_find_some hfind).2
      obtain ⟨f, hf, hfp⟩ := closeLoop_map env (s.records.filter (fun r => r.BookID == ID)) 0
        s.records
      rw [hloop] at hf
      simp only at hf
      intro y hy hopen
      have hy' := hy
      rw [hf] at hy'
      obtain ⟨x, hx, hfx⟩ := List.mem_map.1 hy'
      have hxy : x = y := by
        rcases (hfp x).2 with h1 | h1
        · rw [← hfx, h1]
        · rw [hfx] at h1; exact absurd hopen h1
      subst hxy
      obtain ⟨b, hb, hbk⟩ := hs x hx hopen
      refine ⟨b, List.mem_filter.2 ⟨hb, ?_⟩, hbk⟩
      have hne : x.BookID ≠ ID := by
        intro hxb
        have hmem : x ∈ s.records.filter (fun r => r.BookID == ID) :=
          List.mem_filter.2 ⟨hx, by simpa using hxb⟩
        exact closeLoop_closes env _ 0 s.records records1 hloop x hmem hopen x hy rfl hopen
      simp only [bne_iff_ne, ne_eq, hbk, hbid]
      exact hne
  | BorrowBook env userID bookID =>
    rcases BorrowBook_cases env s userID bookID with ⟨_, h⟩ | ⟨book, hfind, _, _, _, _, h⟩
    · simpa [Call.exec, h] using hs
    · simp only [Call.exec, h]
      have hb := book_find_some hfind
      intro r hr hopen
      dsimp only at hr ⊢
      refine exists_book_map_replace _ book.ID _ _ rfl ?_
      rcases List.mem_append.1 hr with hr | hr
      · exact hs r hr hopen
      · simp only [List.mem_singleton] at hr
        subst hr
        exact ⟨book, hb.1, hb.2⟩
  | ReturnBook env recordID currentUserID =>
    rcases ReturnBook_cases env s recordID currentUserID with
      ⟨_, h⟩ | ⟨record, book, _, _, _, _, _, _, h⟩
    · simpa [Call.exec, h] using hs
    · simp only [Call.exec, h]
      intro r hr hopen
      dsimp only at hr ⊢
      refine exists_book_map_replace _ book.ID _ _ rfl ?_
      exact hs r (open_of_map_replace (by simp) hr hopen) hopen

/-- C10: from a store in which every open record references an existing book,
every finite sequence of AddBook, UpdateBook, DeleteBook, BorrowBook and
ReturnBook calls, whatever their arguments and whichever store accesses fail,
leads to a store in which every open record references an existing book. -/
theorem C10_referential_invariant (s : Store) (calls : List Call)
    (hs : ∀ r ∈ s.records, r.ReturnedAt = none → ∃ b ∈ s.books, b.ID = r.BookID) :
    ∀ r ∈ (run s calls).records, r.ReturnedAt = none →
      ∃ b ∈ (run s calls).books, b.ID = r.BookID := by
  induction calls generalizing s with
  | nil => simpa [run] using hs
  | cons c cs ih =>
    have := ih (c.exec s).2 (exec_referential s c hs)
    simpa [run] using this

/-- C10 witness: book 1 is deleted while on loan, then borrowed again (refused)
and book 2 is returned: the records of book 1 are closed and dangling, the open
ones reference a book. -/
theorem C10_referential_invariant_witness :
    (∀ r ∈ twoOnLoan.records, r.ReturnedAt = none → ∃ b ∈ twoOnLoan.books, b.ID = r.BookID) ∧
    (∀ r ∈ (run twoOnLoan [.DeleteBook (Env.calm t1) 1, .BorrowBook (Env.calm t1) 8 2,
        .BorrowBook (Env.calm t1) 8 1, .ReturnBook (Env.calm t1) 4 7]).records,
      r.ReturnedAt = none →
      ∃ b ∈ (run twoOnLoan [.DeleteBook (Env.calm t1) 1, .BorrowBook (Env.calm t1) 8 2,
        .BorrowBook (Env.calm t1) 8 1, .ReturnBook (Env.calm t1) 4 7]).books,
        b.ID = r.BookID) :=
  ⟨by decide, C10_referential_invariant twoOnLoan _ (by decide)⟩

/-- With unique record keys, when the loop of `DeleteBook` over the records of
book `ID` ends without error, whichever store accesses would have failed, it
leaves the table that one closing pass describes. -/
theorem closeLoop_success_closeAll (env : Env) (ID : Int) :
    ∀ (rest pre : List BorrowRecord) (i : Nat) (t' : List BorrowRecord),
      ((pre ++ rest).map (fun x => x.ID)).Nodup →
      AdminService.closeLoop env (rest.filter (fun r => r.BookID == ID)) i (pre ++ rest)
        = (none, t') →
      t' = pre ++ closeAll env ID i rest := by
  intro rest
  induction rest with
  | nil =>
    intro pre i t' _ h
    simp [AdminService.closeLoop, closeAll] at h ⊢
    exact h.symm
  | cons r rs ih =>
    intro pre i t' hnd h
    by_cases hb : r.BookID = ID
    · have hbe : (r.BookID == ID) = true := by simpa using hb
      rw [List.filter_cons] at h
      simp only [hbe, if_true] at h
      unfold AdminService.closeLoop at h
      unfold closeAll
      rw [if_pos hb]
      by_cases hopen : r.ReturnedAt = none
      · rw [if_pos hopen] at h
        rw [if_pos hopen]
        unfold borrowRecordRepoImpl.Update at h
        by_cases hfault : env.fault (2 + i) = true
        · simp [hfault] at h
        · simp only [hfault, Bool.false_eq_true, if_false] at h
          rw [map_replace_of_nodup pre rs r _ hnd] at h
          have hnd' : (List.map (fun x : BorrowRecord => x.ID)
              ((pre ++ [{ r with ReturnedAt := some (env.now i) }]) ++ rs)).Nodup := by
            simpa using hnd
          have := ih (pre ++ [{ r with ReturnedAt := some (env.now i) }]) (i + 1) t' hnd'
            (by simpa using h)
          simpa using this
      · rw [if_neg hopen] at h
        rw [if_neg hopen]
        have hnd' : (((pre ++ [r]) ++ rs).map (fun x => x.ID)).Nodup := by simpa using hnd
        have := ih (pre ++ [r]) (i + 1) t' hnd' (by simpa using h)
        simpa using this
    · have hbe : (r.BookID == ID) = false := by simpa using hb
      rw [List.filter_cons] at h
      simp only [hbe, Bool.false_eq_true, if_false] at h
      unfold closeAll
      rw [if_neg hb]
      have hnd' : (((pre ++ [r]) ++ rs).map (fun x => x.ID)).Nodup := by simpa using hnd
      have := ih (pre ++ [r]) i t' hnd' (by simpa using h)
      simpa using this

/-- With unique record keys, the row found under a key is the only row with
that key. -/
theorem record_eq_of_find {records : List BorrowRecord} {k : Int} {record r : BorrowRecord}
    (hkeys : (records.map (fun r => r.ID)).Nodup)
    (hfind : borrowRecordRepoImpl.find records k = some record)
    (hr : r ∈ records) (hid : r.ID = record.ID) : r = record :=
  List.inj_on_of_nodup_map hkeys hr (record_find_some hfind).1 hid

/-- With unique record keys, one call leaves every record in place with its ID,
UserID, BookID, BorrowedAt and DueDate, and with its ReturnedAt when that was
set. -/
theorem exec_records_kept (s : Store) (c : Call)
    (hkeys : (s.records.map (fun r => r.ID)).Nodup) (j : Nat) (r : BorrowRecord)
    (hj : s.records[j]? = some r) :
    ∃ r', (c.exec s).2.records[j]? = some r' ∧ r'.ID = r.ID ∧ r'.UserID = r.UserID ∧
      r'.BookID = r.BookID ∧ r'.BorrowedAt = r.BorrowedAt ∧ r'.DueDate = r.DueDate ∧
      (r.ReturnedAt ≠ none → r'.ReturnedAt = r.ReturnedAt) := by
  have hsame : (c.exec s).2.records = s.records → ∃ r', (c.exec s).2.records[j]? = some r' ∧
      r'.ID = r.ID ∧ r'.UserID = r.UserID ∧ r'.BookID = r.BookID ∧
      r'.BorrowedAt = r.BorrowedAt ∧ r'.DueDate = r.DueDate ∧
      (r.ReturnedAt ≠ none → r'.ReturnedAt = r.ReturnedAt) := by
    intro h
    exact ⟨r, by rw [h]; exact hj, rfl, rfl, rfl, rfl, rfl, fun _ => rfl⟩
  cases c with
  | AddBook env title author stock =>
    apply hsame
    rcases AddBook_cases env s title author stock with ⟨_, h⟩ | ⟨_, h⟩ <;> simp [Call.exec, h]
  | UpdateBook env title author ID stock =>
    apply hsame
    rcases UpdateBook_cases env s title author ID stock with ⟨_, h⟩ | ⟨book, _, _, h⟩ <;>
      simp [Call.exec, h]
  | DeleteBook env ID =>
    rcases DeleteBook_cases env s ID with ⟨_, h⟩ | ⟨book, records1, _, _, hloop, h⟩
    · apply hsame; simp [Call.exec, h]
    · have ht := closeLoop_success_closeAll env ID s.records [] 0 records1
        (by simpa using hkeys) (by simpa using hloop)
      simp only [List.nil_append] at ht
      simp only [Call.exec, h, ht]
      rw [closeAll_getElem? env ID s.records 0 j r hj]
      by_cases hc : r.BookID = ID ∧ r.ReturnedAt = none
      · rw [if_pos hc]
        exact ⟨_, rfl, rfl, rfl, rfl, rfl, rfl, fun hne => absurd hc.2 hne⟩
      · rw [if_neg hc]
        exact ⟨_, rfl, rfl, rfl, rfl, rfl, rfl, fun _ => rfl⟩
  | BorrowBook env userID bookID =>
    rcases BorrowBook_cases env s userID bookID with ⟨_, h⟩ | ⟨book, _, _, _, _, _, h⟩
    · apply hsame; simp [Call.exec, h]
    · simp only [Call.exec, h]
      have hlt : j < s.records.length := (List.getElem?_eq_some_iff.1 hj).choose
      rw [List.getElem?_append_left hlt]
      exact ⟨r, hj, rfl, rfl, rfl, rfl, rfl, fun _ => rfl⟩
  | ReturnBook env recordID currentUserID =>
    rcases ReturnBook_cases env s recordID currentUserID with
      ⟨_, h⟩ | ⟨record, book, hfind, _, hopen, _, _, _, h⟩
    · apply hsame; simp [Call.exec, h]
    · simp only [Call.exec, h, List.getElem?_map, hj, Option.map_some']
      by_cases hid : r.ID = record.ID
      · have hr : r ∈ s.records := List.getElem?_mem hj
        obtain rfl : r = record := record_eq_of_find hkeys hfind hr hid
        rw [if_pos rfl]
        exact ⟨_, rfl, rfl, rfl, rfl, rfl, rfl, fun hne => absurd hopen hne⟩
      · rw [if_neg hid]
        exact ⟨_, rfl, rfl, rfl, rfl, rfl, rfl, fun _ => rfl⟩

/-- One call changes the number of records by one when it is a successful
`BorrowBook` and not at all otherwise. -/
theorem exec_records_length (s : Store) (c : Call) :
    (c.exec s).2.records.length =
      s.records.length + (if c.isBorrow = true ∧ (c.exec s).1 = none then 1 else 0) := by
  cases c with
  | AddBook env title author stock =>
    rcases AddBook_cases env s title author stock with ⟨_, h⟩ | ⟨_, h⟩ <;>
      simp [Call.exec, Call.isBorrow, h]
  | UpdateBook env title author ID stock =>
    rcases UpdateBook_cases env s title author ID stock with ⟨_, h⟩ | ⟨book, _, _, h⟩ <;>
      simp [Call.exec, Call.isBorrow, h]
  | DeleteBook env ID =>
    rcases DeleteBook_cases env s ID with ⟨_, h⟩ | ⟨book, records1, _, _, hloop, h⟩
    · simp [Call.exec, Call.isBorrow, h]
    · obtain ⟨f, hf, _⟩ := closeLoop_map env (s.records.filter (fun r => r.BookID == ID)) 0
        s.records
      rw [hloop] at hf
      simp only at hf
      simp [Call.exec, Call.isBorrow, h, hf]
  | BorrowBook env userID bookID =>
    rcases BorrowBook_cases env s userID bookID with ⟨herr, h⟩ | ⟨book, _, _, _, _, _, h⟩
    · simp only [Call.exec] at herr ⊢
      simp [Call.isBorrow, h, herr]
    · simp [Call.exec, Call.isBorrow, h]
  | ReturnBook env recordID currentUserID =>
    rcases ReturnBook_cases env s recordID currentUserID with
      ⟨_, h⟩ | ⟨record, book, _, _, _, _, _, _, h⟩ <;>
      simp [Call.exec, Call.isBorrow, h]

/-- C11: record keys being unique, after any one call of BorrowBook, ReturnBook,
DeleteBook, AddBook or UpdateBook, with any arguments and whichever store
accesses fail, every record that existed before is still there, at the same
place, with the same ID, UserID, BookID, BorrowedAt and DueDate, and with the
same ReturnedAt if that was set; the number of records has grown by one if the
call is a BorrowBook that succeeded and is the same otherwise. -/
theorem C11_record_history (s : Store) (c : Call)
    (hkeys : (s.records.map (fun r => r.ID)).Nodup) :
    (∀ (j : Nat) (r : BorrowRecord), s.records[j]? = some r →
      ∃ r', (c.exec s).2.records[j]? = some r' ∧ r'.ID = r.ID ∧ r'.UserID = r.UserID ∧
        r'.BookID = r.BookID ∧ r'.BorrowedAt = r.BorrowedAt ∧ r'.DueDate = r.DueDate ∧
        (r.ReturnedAt ≠ none → r'.ReturnedAt = r.ReturnedAt)) ∧
    (c.exec s).2.records.length =
      s.records.length + (if c.isBorrow = true ∧ (c.exec s).1 = none then 1 else 0) :=
  ⟨fun j r hj => exec_records_kept s c hkeys j r hj, exec_records_length s c⟩

/-- C11 witness: book 1 is deleted while on loan: the record closed earlier
keeps its timestamp and no record is added or removed. -/
theorem C11_record_history_witness :
    (twoOnLoan.records.map (fun r => r.ID)).Nodup ∧
    (∃ r', (AdminService.DeleteBook (Env.calm t1) twoOnLoan 1).2.records[1]? = some r' ∧
      r'.ID = 2 ∧ r'.UserID = 9 ∧ r'.BookID = 1 ∧ r'.BorrowedAt = t0 ∧
      r'.DueDate = t0.AddDate_0_1_0 ∧
      (some t0 ≠ none → r'.ReturnedAt = some t0)) ∧
    (AdminService.DeleteBook (Env.calm t1) twoOnLoan 1).2.records.length = 4 + 0 :=
  have h := C11_record_history twoOnLoan (.DeleteBook (Env.calm t1) 1) (by decide)
  ⟨by decide, h.1 1 { openRecord 2 9 1 with ReturnedAt := some t0 } rfl, h.2⟩

/-- C12 fails on the code: the clock is read once for BorrowedAt and a second
time for DueDate.  User 7 borrows the only copy while the clock advances by 200
nanoseconds between the two readings: the record is created with a DueDate that
is not its BorrowedAt plus one month. -/
theorem C12_due_date_from_second_reading :
    (BorrowService.BorrowBook Env.ticking oneCopy 7 1).1 = none ∧
    (BorrowService.BorrowBook Env.ticking oneCopy 7 1).2.records =
      [{ ID := 1, UserID := 7, BookID := 1,
         BorrowedAt := { year := 2024, month := 1, day := 15, nsec := 37800000499900 },
         DueDate := { year := 2024, month := 2, day := 15, nsec := 37800000500100 },
         ReturnedAt := none }] ∧
    (∀ r ∈ (BorrowService.BorrowBook Env.ticking oneCopy 7 1).2.records,
      r.DueDate ≠ r.BorrowedAt.AddDate_0_1_0) := by
  decide

/-- C13: for a positive userID, when the read does not fail, GetUserBorrowRecords
returns with a nil error the records of the table whose UserID is userID, open
and closed alike, in table order, and no other record; when the user has no
record the result is the empty list with a nil error.  The operation only reads
the table. -/
theorem C13_user_records (env : Env) (hf : NoFault env) (s : Store) (userID : Int)
    (hu : 0 < userID) :
    BorrowService.GetUserBorrowRecords env s userID =
      (some (s.records.filter (fun r => r.UserID == userID)), none) ∧
    (∀ r, r ∈ s.records.filter (fun r => r.UserID == userID) ↔
      (r ∈ s.records ∧ r.UserID = userID)) ∧
    ((∀ r ∈ s.records, r.UserID ≠ userID) →
      BorrowService.GetUserBorrowRecords env s userID = (some [], none)) := by
  have hin : ¬ userID ≤ 0 := by omega
  have heq : BorrowService.GetUserBorrowRecords env s userID =
      (some (s.records.filter (fun r => r.UserID == userID)), none) := by
    unfold BorrowService.GetUserBorrowRecords borrowRecordRepoImpl.GetByUserID
    simp [hin, hf 0]
  refine ⟨heq, ?_, ?_⟩
  · intro r
    simp [List.mem_filter]
  · intro hnone
    rw [heq]
    have : s.records.filter (fun r => r.UserID == userID) = [] := by
      rw [List.filter_eq_nil_iff]
      intro r hr
      simpa using hnone r hr
    rw [this]

/-- C13 witness: user 7 has an open record on each book, user 5 has none. -/
theorem C13_user_records_witness :
    NoFault (Env.calm t0) ∧
    BorrowService.GetUserBorrowRecords (Env.calm t0) twoOnLoan 7 =
      (some [openRecord 1 7 1, openRecord 4 7 2], none) ∧
    BorrowService.GetUserBorrowRecords (Env.calm t0) twoOnLoan 5 = (some [], none) :=
  ⟨noFault_calm t0,
    (C13_user_records (Env.calm t0) (noFault_calm t0) twoOnLoan 7 (by decide)).1,
    (C13_user_records (Env.calm t0) (noFault_calm t0) twoOnLoan 5 (by decide)).2.2
      (by decide)⟩

/-- What `AddBook` computes when no store access fails. -/
theorem AddBook_eval (env : Env) (hf : NoFault env) (s : Store) (title author : String)
    (stock : Int) :
    AdminService.AddBook env s title author stock =
      if title = "" ∨ author = "" ∨ stock < 0 then (some .ErrInvalidInput, s)
      else match s.books.find? (fun b => env.coll.strEq b.Title title) with
        | some _ => (some .ErrBookExists, s)
        | none =>
          (none,
            { books := s.books ++
                [{ ID := bookRepositoryImpl.nextID s.books, Title := title, Author := author,
                   Stock := stock }],
              records := s.records }) := by
  unfold AdminService.AddBook
  by_cases hin : title = "" ∨ author = "" ∨ stock < 0
  · simp [hin]
  · rw [if_neg hin, if_neg hin]
    unfold bookRepositoryImpl.GetByTitle bookRepositoryImpl.Create
    cases hb : s.books.find? (fun b => env.coll.strEq b.Title title) <;> simp [hf 0, hf 1, hb]

/-- What `UpdateBook` computes when no store access fails. -/
theorem UpdateBook_eval (env : Env) (hf : NoFault env) (s : Store) (title author : String)
    (ID stock : Int) :
    AdminService.UpdateBook env s title author ID stock =
      if title = "" ∨ author = "" ∨ ID < 0 ∨ stock < 0 then (some .ErrInvalidInput, s)
      else match bookRepositoryImpl.find s.books ID with
        | none => (some .ErrBookNotFound, s)
        | some book =>
          (none,
            { books := s.books.map (fun b => if b.ID = book.ID then
                { book with Title := title, Author := author, Stock := stock } else b),
              records := s.records }) := by
  unfold AdminService.UpdateBook
  by_cases hin : title = "" ∨ author = "" ∨ ID < 0 ∨ stock < 0
  · simp [hin]
  · rw [if_neg hin, if_neg hin]
    unfold bookRepositoryImpl.GetByID bookRepositoryImpl.Update
    cases hb : bookRepositoryImpl.find s.books ID <;> simp [hf 0, hf 1]

/-- The key the store assigns to a new book is above every key in use. -/
theorem book_nextID_fresh (books : List Book) :
    ∀ b ∈ books, b.ID < bookRepositoryImpl.nextID books := by
  intro b hb
  unfold bookRepositoryImpl.nextID
  have := (le_foldl_max (books.map (fun b => b.ID)) 0).2 b.ID (List.mem_map_of_mem _ hb)
  omega

theorem find_title_eq_none {coll : Collation} {books : List Book} {title : String} :
    books.find? (fun b => coll.strEq b.Title title) = none ↔
      ¬ ∃ b ∈ books, coll.strEq b.Title title = true := by
  rw [List.find?_eq_none]
  simp

/-- C14, as stated, fails: the database compares the title under the collation of
the column, and under a case-insensitive collation AddBook("x", "W", 2) beside
the book "X" returns ErrBookExists and adds nothing, although the arguments are
valid and no book has exactly the title "x". -/
theorem C14_title_equal_under_collation_refused :
    NoFault (Env.calm t0) ∧
    ¬ ("x" = "" ∨ "W" = "" ∨ (2 : Int) < 0) ∧
    ¬ (∃ b ∈ oneCopy.books, b.Title = "x") ∧
    AdminService.AddBook (Env.calm t0) oneCopy "x" "W" 2 = (some .ErrBookExists, oneCopy) := by
  refine ⟨fun _ => rfl, by decide, by decide, by decide⟩

/-- C14 (amended): with no store access failing, AddBook returns ErrInvalidInput
exactly when the title is empty or the author is empty or the stock is negative;
otherwise ErrBookExists exactly when the title of some book equals the given
title under the collation of the database; otherwise it succeeds and the books
are the old books followed by exactly one book with the given title, author and
stock under a key no old book has, the records being unchanged.  Titles that
were pairwise different under the collation stay so; when the collation equates
the given title with itself, titles that were pairwise distinct stay pairwise
distinct; and a call that returns an error leaves the store as it was. -/
theorem C14_add_book (env : Env) (hf : NoFault env) (s : Store) (title author : String)
    (stock : Int) :
    ((AdminService.AddBook env s title author stock).1 = some .ErrInvalidInput ↔
      (title = "" ∨ author = "" ∨ stock < 0)) ∧
    (¬ (title = "" ∨ author = "" ∨ stock < 0) →
      ((AdminService.AddBook env s title author stock).1 = some .ErrBookExists ↔
        ∃ b ∈ s.books, env.coll.strEq b.Title title = true)) ∧
    (¬ (title = "" ∨ author = "" ∨ stock < 0) →
      (¬ ∃ b ∈ s.books, env.coll.strEq b.Title title = true) →
      AdminService.AddBook env s title author stock =
        (none,
          { books := s.books ++
              [{ ID := bookRepositoryImpl.nextID s.books, Title := title, Author := author,
                 Stock := stock }],
            records := s.records }) ∧
      (∀ b ∈ s.books, b.ID ≠ bookRepositoryImpl.nextID s.books)) ∧
    (s.books.Pairwise (fun a b => env.coll.strEq a.Title b.Title = false) →
      (AdminService.AddBook env s title author stock).2.books.Pairwise
        (fun a b => env.coll.strEq a.Title b.Title = false)) ∧
    (env.coll.strEq title title = true → (s.books.map (fun b => b.Title)).Nodup →
      ((AdminService.AddBook env s title author stock).2.books.map (fun b => b.Title)).Nodup) ∧
    ((AdminService.AddBook env s title author stock).1 ≠ none →
      (AdminService.AddBook env s title author stock).2 = s) := by
  rw [AddBook_eval env hf]
  by_cases hin : title = "" ∨ author = "" ∨ stock < 0
  · simp only [hin, if_true, true_iff, not_true_eq_false, false_implies, true_and]
    exact ⟨fun h => h, fun _ h => h, fun _ => trivial⟩
  · simp only [hin, if_false, not_false_eq_true, true_implies, iff_false]
    cases hb : s.books.find? (fun b => env.coll.strEq b.Title title) with
    | some book =>
      have hex : ∃ b ∈ s.books, env.coll.strEq b.Title title = true := by
        by_contra hne
        rw [find_title_eq_none.2 hne] at hb
        exact Option.noConfusion hb
      refine ⟨by simp, by simp [hex], fun hne => absurd hex hne, fun h => h, fun _ h => h,
        fun _ => rfl⟩
    | none =>
      have hne : ¬ ∃ b ∈ s.books, env.coll.strEq b.Title title = true :=
        find_title_eq_none.1 hb
      refine ⟨by simp, by simp [hne], fun _ => ⟨rfl, ?_⟩, ?_, ?_, by simp⟩
      · intro b hbm
        exact ne_of_lt (book_nextID_fresh s.books b hbm)
      · intro hpw
        show List.Pairwise _ (s.books ++ [_])
        rw [List.pairwise_append]
        refine ⟨hpw, List.pairwise_singleton _ _, ?_⟩
        intro a ha b hbm
        simp only [List.mem_singleton] at hbm
        subst hbm
        cases hab : env.coll.strEq a.Title title with
        | false => rfl
        | true => exact absurd ⟨a, ha, hab⟩ hne
      · intro hrefl hnd
        simp only [List.map_append, List.map_cons, List.map_nil]
        rw [List.nodup_append]
        refine ⟨hnd, List.nodup_singleton _, ?_⟩
        intro t ht ht'
        simp only [List.mem_singleton] at ht'
        subst ht'
        obtain ⟨b, hbm, hbt⟩ := List.mem_map.1 ht
        exact hne ⟨b, hbm, by rw [hbt]; exact hrefl⟩

/-- C14 witness: under the case-insensitive collation a second book with the
title "X" is refused, a book with a new title is appended under key 2, and the
titles stay pairwise distinct. -/
theorem C14_add_book_witness :
    NoFault (Env.calm t0) ∧
    (AdminService.AddBook (Env.calm t0) oneCopy "X" "W" 2).1 = some .ErrBookExists ∧
    AdminService.AddBook (Env.calm t0) oneCopy "V" "W" 2 =
      (none,
        { books := [{ ID := 1, Title := "X", Author := "Y", Stock := 1 },
                    { ID := 2, Title := "V", Author := "W", Stock := 2 }],
          records := [] }) ∧
    ((AdminService.AddBook (Env.calm t0) oneCopy "V" "W" 2).2.books.map
      (fun b => b.Title)).Nodup :=
  ⟨noFault_calm t0,
    ((C14_add_book (Env.calm t0) (noFault_calm t0) oneCopy "X" "W" 2).2.1 (by decide)).2
      (by decide),
    ((C14_add_book (Env.calm t0) (noFault_calm t0) oneCopy "V" "W" 2).2.2.1 (by decide)
      (by decide)).1,
    (C14_add_book (Env.calm t0) (noFault_calm t0) oneCopy "V" "W" 2).2.2.2.2.1 (by decide)
      (by decide)⟩

/-- C15: for a non-empty title and author, ID >= 0 and stock >= 0 naming an
existing book, with no store access failing, UpdateBook succeeds; the rows with
that key become the book with the same ID and the given title, author and stock,
whatever they held before, every other book row is as before, and the records
are unchanged. -/
theorem C15_update_overwrites (env : Env) (hf : NoFault env) (s : Store)
    (title author : String) (ID stock : Int) (book : Book)
    (ht : title ≠ "") (ha : author ≠ "") (hid : 0 ≤ ID) (hst : 0 ≤ stock)
    (hfind : bookRepositoryImpl.find s.books ID = some book) :
    (AdminService.UpdateBook env s title author ID stock).1 = none ∧
    (AdminService.UpdateBook env s title author ID stock).2.books =
      s.books.map (fun b => if b.ID = ID then
        { ID := ID, Title := title, Author := author, Stock := stock } else b) ∧
    bookRepositoryImpl.find (AdminService.UpdateBook env s title author ID stock).2.books ID =
      some { ID := ID, Title := title, Author := author, Stock := stock } ∧
    (AdminService.UpdateBook env s title author ID stock).2.records = s.records := by
  obtain rfl : book.ID = ID := (book_find_some hfind).2
  have hin : ¬ (title = "" ∨ author = "" ∨ book.ID < 0 ∨ stock < 0) := by
    rintro (h | h | h | h)
    · exact ht h
    · exact ha h
    · omega
    · omega
  have heq := UpdateBook_eval env hf s title author book.ID stock
  simp only [hin, if_false, hfind] at heq
  rw [heq]
  exact ⟨rfl, rfl, book_find_map_replace hfind rfl, rfl⟩

/-- C15 witness: book 1, all of whose copies are out with two users, is given a
new title and author and the stock 1. -/
theorem C15_update_overwrites_witness :
    NoFault (Env.calm t0) ∧
    AdminService.UpdateBook (Env.calm t0) twoOnLoan "N" "M" 1 1 =
      (none,
        { books := [{ ID := 1, Title := "N", Author := "M", Stock := 1 },
                    { ID := 2, Title := "Z", Author := "Y", Stock := 4 }],
          records := twoOnLoan.records }) ∧
    bookRepositoryImpl.find (AdminService.UpdateBook (Env.calm t0) twoOnLoan "N" "M" 1 1).2.books 1
      = some { ID := 1, Title := "N", Author := "M", Stock := 1 } :=
  ⟨noFault_calm t0, by decide,
    (C15_update_overwrites (Env.calm t0) (noFault_calm t0) twoOnLoan "N" "M" 1 1
      { ID := 1, Title := "X", Author := "Y", Stock := 0 }
      (by decide) (by decide) (by decide) (by decide) (by decide)).2.2.1⟩

/-- The loop of `DeleteBook` returns no error or the wrapped error of a failed
update. -/
theorem closeLoop_error (env : Env) : ∀ (recs : List BorrowRecord) (i : Nat)
    (table : List BorrowRecord),
    (AdminService.closeLoop env recs i table).1 = none ∨
    (AdminService.closeLoop env recs i table).1 =
      some (.wrapped "failed to update borrow record") := by
  intro recs
  induction recs with
  | nil => intro i table; left; simp [AdminService.closeLoop]
  | cons r rest ih =>
    intro i table
    unfold AdminService.closeLoop
    by_cases hopen : r.ReturnedAt = none
    · rw [if_pos hopen]
      unfold borrowRecordRepoImpl.Update
      by_cases hfault : env.fault (2 + i) = true
      · right; simp [hfault]
      · simp only [hfault, Bool.false_eq_true, if_false]
        exact ih (i + 1) _
    · rw [if_neg hopen]
      exact ih (i + 1) table

/-- `DeleteBook` returns ErrInvalidInput only for a negative ID. -/
theorem DeleteBook_invalid_iff (env : Env) (s : Store) (ID : Int) :
    (AdminService.DeleteBook env s ID).1 = some .ErrInvalidInput ↔ ID < 0 := by
  unfold AdminService.DeleteBook
  by_cases hin : ID < 0
  · simp [hin]
  · rw [if_neg hin]
    simp only [hin, iff_false]
    unfold Transaction AdminService.deleteTx bookRepositoryImpl.GetByID
      borrowRecordRepoImpl.GetByBookID bookRepositoryImpl.Delete
    by_cases h0 : env.fault 0 = true
    · simp [h0]
    cases hb : bookRepositoryImpl.find s.books ID with
    | none => simp [h0]
    | some book =>
      by_cases h1 : env.fault 1 = true
      · simp [h0, h1]
      have herr := closeLoop_error env (s.records.filter (fun r => r.BookID == ID)) 0 s.records
      cases hcl : AdminService.closeLoop env (s.records.filter (fun r => r.BookID == ID)) 0
          s.records with
      | mk e records1 =>
        rw [hcl] at herr
        cases e with
        | some err =>
          rcases herr with herr | herr
          · simp at herr
          · simp only [Option.some.injEq] at herr
            simp [h0, h1, hcl, herr]
        | none =>
          by_cases h2 : env.fault (2 + (s.records.filter (fun r => r.BookID == ID)).length) = true
          · simp [h0, h1, h2, hcl]
          · simp [h0, h1, h2, hcl]

/-- `UpdateBook` returns ErrInvalidInput exactly when validation fails. -/
theorem UpdateBook_invalid_iff (env : Env) (s : Store) (title author : String)
    (ID stock : Int) :
    (AdminService.UpdateBook env s title author ID stock).1 = some .ErrInvalidInput ↔
      (title = "" ∨ author = "" ∨ ID < 0 ∨ stock < 0) := by
  unfold AdminService.UpdateBook
  by_cases hin : title = "" ∨ author = "" ∨ ID < 0 ∨ stock < 0
  · simp [hin]
  · rw [if_neg hin]
    simp only [hin, iff_false]
    unfold bookRepositoryImpl.GetByID bookRepositoryImpl.Update
    by_cases h0 : env.fault 0 = true
    · simp [h0]
    cases hb : bookRepositoryImpl.find s.books ID with
    | none => simp [h0]
    | some book =>
      by_cases h1 : env.fault 1 = true
      · simp [h0, h1]
      · simp [h0, h1]

/-- C16: UpdateBook returns ErrInvalidInput exactly when the title is empty or
the author is empty or ID < 0 or stock < 0, and DeleteBook exactly when ID < 0,
whichever store accesses fail; and when the read of the book does not fail, an
ID >= 0, 0 included, that passes validation and names no existing book makes
both return ErrBookNotFound and leave the store as it was. -/
theorem C16_admin_id_boundary (env : Env) (s : Store) :
    (∀ (title author : String) (ID stock : Int),
      (AdminService.UpdateBook env s title author ID stock).1 = some .ErrInvalidInput ↔
        (title = "" ∨ author = "" ∨ ID < 0 ∨ stock < 0)) ∧
    (∀ ID : Int, (AdminService.DeleteBook env s ID).1 = some .ErrInvalidInput ↔ ID < 0) ∧
    (∀ (title author : String) (ID stock : Int), env.fault 0 = false →
      title ≠ "" → author ≠ "" → 0 ≤ ID → 0 ≤ stock →
      bookRepositoryImpl.find s.books ID = none →
      AdminService.UpdateBook env s title author ID stock = (some .ErrBookNotFound, s)) ∧
    (∀ ID : Int, env.fault 0 = false → 0 ≤ ID →
      bookRepositoryImpl.find s.books ID = none →
      AdminService.DeleteBook env s ID = (some .ErrBookNotFound, s)) := by
  refine ⟨fun title author ID stock => UpdateBook_invalid_iff env s title author ID stock,
    fun ID => DeleteBook_invalid_iff env s ID, ?_, ?_⟩
  · intro title author ID stock h0 ht ha hid hst hfind
    have hin : ¬ (title = "" ∨ author = "" ∨ ID < 0 ∨ stock < 0) := by
      rintro (h | h | h | h)
      · exact ht h
      · exact ha h
      · omega
      · omega
    unfold AdminService.UpdateBook
    rw [if_neg hin]
    unfold bookRepositoryImpl.GetByID
    simp [h0, hfind]
  · intro ID h0 hid hfind
    have hin : ¬ ID < 0 := by omega
    unfold AdminService.DeleteBook
    rw [if_neg hin]
    unfold Transaction AdminService.deleteTx bookRepositoryImpl.GetByID
    simp [h0, hfind]

/-- C16 witness: ID 0 passes validation and names no book of the catalogue. -/
theorem C16_admin_id_boundary_witness :
    AdminService.UpdateBook (Env.calm t0) oneCopy "T" "A" 0 5 = (some .ErrBookNotFound, oneCopy) ∧
    AdminService.DeleteBook (Env.calm t0) oneCopy 0 = (some .ErrBookNotFound, oneCopy) ∧
    (AdminService.DeleteBook (Env.calm t0) oneCopy (-1)).1 = some .ErrInvalidInput :=
  have h := C16_admin_id_boundary (Env.calm t0) oneCopy
  ⟨h.2.2.1 "T" "A" 0 5 rfl (by decide) (by decide) (by decide) (by decide) (by decide),
    h.2.2.2 0 rfl (by decide) (by decide),
    (h.2.1 (-1)).2 (by decide)⟩

theorem user_find_some {coll : Collation} {users : List User} {username : String} {u : User}
    (h : userRepositoryImpl.find coll users username = some u) :
    u ∈ users ∧ coll.strEq u.Name username = true := by
  unfold userRepositoryImpl.find at h
  refine ⟨List.mem_of_find?_eq_some h, ?_⟩
  have := List.find?_some h
  simpa using this

theorem user_find_eq_none {coll : Collation} {users : List User} {username : String} :
    userRepositoryImpl.find coll users username = none ↔
      ¬ ∃ u ∈ users, coll.strEq u.Name username = true := by
  unfold userRepositoryImpl.find
  rw [List.find?_eq_none]
  simp

/-- Every outcome of `Register`: an error with the users table untouched, or
success with one user appended, named as asked, holding the hash and the role
"user". -/
theorem Register_cases (env : Env) (bcrypt : Bcrypt) (salt : Nat) (users : List User)
    (username password : String) :
    ((AuthService.Register env bcrypt salt users username password).1 ≠ none ∧
      (AuthService.Register env bcrypt salt users username password).2 = users) ∨
    ∃ h, userRepositoryImpl.find env.coll users username = none ∧
      bcrypt.GenerateFromPassword salt password = some h ∧
      AuthService.Register env bcrypt salt users username password =
        (none, users ++ [{ ID := userRepositoryImpl.nextID users, Name := username,
                           Password := h, Role := "user" }]) := by
  unfold AuthService.Register userRepositoryImpl.GetByUsername userRepositoryImpl.Create
  by_cases h0 : env.fault 0 = true
  · left; simp [h0]
  cases hu : userRepositoryImpl.find env.coll users username with
  | some u => left; simp [h0]
  | none =>
    cases hg : bcrypt.GenerateFromPassword salt password with
    | none => left; simp [h0]
    | some h =>
      by_cases h1 : env.fault 1 = true
      · left; simp [h0, h1]
      · right
        exact ⟨h, rfl, rfl, by simp [h0, h1]⟩

/-- What `Register` computes when no store access fails. -/
theorem Register_eval (env : Env) (hf : NoFault env) (bcrypt : Bcrypt) (salt : Nat)
    (users : List User) (username password : String) :
    AuthService.Register env bcrypt salt users username password =
      match userRepositoryImpl.find env.coll users username with
      | some _ => (some .ErrUserExists, users)
      | none =>
        match bcrypt.GenerateFromPassword salt password with
        | none => (some (.wrapped "failed to hash password"), users)
        | some h =>
          (none, users ++ [{ ID := userRepositoryImpl.nextID users, Name := username,
                             Password := h, Role := "user" }]) := by
  unfold AuthService.Register userRepositoryImpl.GetByUsername userRepositoryImpl.Create
  cases hu : userRepositoryImpl.find env.coll users username with
  | some u => simp [hf 0]
  | none =>
    cases hg : bcrypt.GenerateFromPassword salt password <;> simp [hf 0, hf 1]

/-- What `Login` computes when the read does not fail. -/
theorem Login_eval (env : Env) (hf : NoFault env) (bcrypt : Bcrypt) (users : List User)
    (username password : String) :
    AuthService.Login env bcrypt users username password =
      match userRepositoryImpl.find env.coll users username with
      | none => (none, some .ErrUserNotFound)
      | some user =>
        if bcrypt.CompareHashAndPassword user.Password password then (some user, none)
        else (none, some .ErrInvalidPassword) := by
  unfold AuthService.Login userRepositoryImpl.GetByUsername
  cases hu : userRepositoryImpl.find env.coll users username <;> simp [hf 0]

/-- C17, as stated, fails: the database compares the name under the collation of
the column, and under a case-insensitive collation Register("ALICE", "pw2")
beside the user "alice" returns ErrUserExists and adds nothing, although no user
has the name "ALICE". -/
theorem C17_name_equal_under_collation_refused :
    NoFault (Env.calm t0) ∧
    ¬ (∃ u ∈ aliceOnly, u.Name = "ALICE") ∧
    toyBcrypt.GenerateFromPassword 6 "pw2" = some "$toy$2wp" ∧
    AuthService.Register (Env.calm t0) toyBcrypt 6 aliceOnly "ALICE" "pw2" =
      (some .ErrUserExists, aliceOnly) := by
  refine ⟨fun _ => rfl, by decide, by decide, by decide⟩

/-- C17 (amended): with no store access failing, Register returns ErrUserExists
and leaves the users table unchanged exactly when the name of some user equals
the username under the collation of the database; otherwise, when the hashing
succeeds, it appends exactly one user whose Name is the username, whose Role is
"user" and whose Password is the output of the hashing.  User names that were
pairwise different under the collation stay so, and when the collation equates
the username with itself, user names that were pairwise distinct stay pairwise
distinct. -/
theorem C17_register (env : Env) (hf : NoFault env) (bcrypt : Bcrypt) (salt : Nat)
    (users : List User) (username password : String) :
    (((AuthService.Register env bcrypt salt users username password).1 = some .ErrUserExists ∧
        (AuthService.Register env bcrypt salt users username password).2 = users) ↔
      ∃ u ∈ users, env.coll.strEq u.Name username = true) ∧
    (∀ h, (¬ ∃ u ∈ users, env.coll.strEq u.Name username = true) →
      bcrypt.GenerateFromPassword salt password = some h →
      AuthService.Register env bcrypt salt users username password =
        (none, users ++ [{ ID := userRepositoryImpl.nextID users, Name := username,
                           Password := h, Role := "user" }])) ∧
    (users.Pairwise (fun a b => env.coll.strEq a.Name b.Name = false) →
      (AuthService.Register env bcrypt salt users username password).2.Pairwise
        (fun a b => env.coll.strEq a.Name b.Name = false)) ∧
    (env.coll.strEq username username = true → (users.map (fun u => u.Name)).Nodup →
      ((AuthService.Register env bcrypt salt users username password).2.map
        (fun u => u.Name)).Nodup) := by
  rw [Register_eval env hf]
  cases hu : userRepositoryImpl.find env.coll users username with
  | some u =>
    have hex : ∃ u ∈ users, env.coll.strEq u.Name username = true :=
      ⟨u, (user_find_some hu).1, (user_find_some hu).2⟩
    refine ⟨by simp [hex], fun h hne => absurd hex hne, fun h => h, fun _ h => h⟩
  | none =>
    have hne : ¬ ∃ u ∈ users, env.coll.strEq u.Name username = true :=
      user_find_eq_none.1 hu
    refine ⟨?_, ?_, ?_, ?_⟩
    · cases hg : bcrypt.GenerateFromPassword salt password <;> simp [hne]
    · intro h _ hg
      simp [hg]
    · intro hpw
      cases hg : bcrypt.GenerateFromPassword salt password with
      | none => exact hpw
      | some h =>
        show List.Pairwise _ (users ++ [_])
        rw [List.pairwise_append]
        refine ⟨hpw, List.pairwise_singleton _ _, ?_⟩
        intro a ha b hbm
        simp only [List.mem_singleton] at hbm
        subst hbm
        cases hab : env.coll.strEq a.Name username with
        | false => rfl
        | true => exact absurd ⟨a, ha, hab⟩ hne
    · intro hrefl hnd
      cases hg : bcrypt.GenerateFromPassword salt password with
      | none => simpa using hnd
      | some h =>
        simp only [List.map_append, List.map_cons, List.map_nil]
        rw [List.nodup_append]
        refine ⟨hnd, List.nodup_singleton _, ?_⟩
        intro n hn hn'
        simp only [List.mem_singleton] at hn'
        subst hn'
        obtain ⟨u, hum, hun⟩ := List.mem_map.1 hn
        exact hne ⟨u, hum, by rw [hun]; exact hrefl⟩

/-- C17 witness: Register("alice", "pw1") then Register("alice", "pw2"): the first
call stores the hash of "pw1", the second returns ErrUserExists and the stored
hash is unchanged; the names of the table stay pairwise distinct. -/
theorem C17_register_witness :
    NoFault (Env.calm t0) ∧
    AuthService.Register (Env.calm t0) toyBcrypt 5 [] "alice" "pw1" =
      (none, aliceOnly) ∧
    AuthService.Register (Env.calm t0) toyBcrypt 6 aliceOnly "alice" "pw2" =
      (some .ErrUserExists, aliceOnly) ∧
    ((AuthService.Register (Env.calm t0) toyBcrypt 5 [] "alice" "pw1").2.map
      (fun u => u.Name)).Nodup :=
  ⟨noFault_calm t0,
    (C17_register (Env.calm t0) (noFault_calm t0) toyBcrypt 5 [] "alice" "pw1").2.1
      "$toy$1wp" (by decide) (by decide),
    Prod.ext
      ((C17_register (Env.calm t0) (noFault_calm t0) toyBcrypt 6 aliceOnly
        "alice" "pw2").1.2 (by decide)).1
      ((C17_register (Env.calm t0) (noFault_calm t0) toyBcrypt 6 aliceOnly
        "alice" "pw2").1.2 (by decide)).2,
    (C17_register (Env.calm t0) (noFault_calm t0) toyBcrypt 5 [] "alice" "pw1").2.2.2
      (by decide) (by decide)⟩

/-- C18, as stated, fails: the database compares the name under the collation of
the column, and under a case-insensitive collation Login("ALICE", "pw1") returns
the stored user "alice" with a nil error, although no user has the name
"ALICE". -/
theorem C18_login_under_other_case :
    NoFault (Env.calm t0) ∧
    ¬ (∃ u ∈ aliceOnly, u.Name = "ALICE") ∧
    AuthService.Login (Env.calm t0) toyBcrypt aliceOnly "ALICE" "pw1" =
      (some { ID := 1, Name := "alice", Password := "$toy$1wp", Role := "user" }, none) := by
  refine ⟨fun _ => rfl, by decide, by decide⟩

/-- C18 (amended): when the read does not fail, Login returns ErrUserNotFound
exactly when the name of no user equals the username under the collation of the
database; otherwise ErrInvalidPassword exactly when the password does not verify
against the hash stored for the first such user; otherwise that stored user with
a nil error; the operation only reads the users table.  If the hashing verifies
its own output and the collation equates the username with itself, then after a
successful Register(u, p) on the same database the call Login(u, p) returns a
user named u with role "user", and Login(u, q) returns ErrInvalidPassword for
every q that does not verify against the stored hash. -/
theorem C18_login (env : Env) (hf : NoFault env) (bcrypt : Bcrypt) (users : List User)
    (username password : String) :
    ((AuthService.Login env bcrypt users username password).2 = some .ErrUserNotFound ↔
      ¬ ∃ u ∈ users, env.coll.strEq u.Name username = true) ∧
    (∀ u, userRepositoryImpl.find env.coll users username = some u →
      u ∈ users ∧ env.coll.strEq u.Name username = true ∧
      ((AuthService.Login env bcrypt users username password).2 = some .ErrInvalidPassword ↔
        bcrypt.CompareHashAndPassword u.Password password = false)) ∧
    (∀ u, userRepositoryImpl.find env.coll users username = some u →
      bcrypt.CompareHashAndPassword u.Password password = true →
      AuthService.Login env bcrypt users username password = (some u, none)) ∧
    (∀ (env1 : Env) (salt : Nat), env1.coll = env.coll →
      env.coll.strEq username username = true →
      (∀ salt p h, bcrypt.GenerateFromPassword salt p = some h →
        bcrypt.CompareHashAndPassword h p = true) →
      (AuthService.Register env1 bcrypt salt users username password).1 = none →
      ∃ u, u.Name = username ∧ u.Role = "user" ∧
        AuthService.Login env bcrypt
          (AuthService.Register env1 bcrypt salt users username password).2
          username password = (some u, none) ∧
        ∀ q, bcrypt.CompareHashAndPassword u.Password q = false →
          AuthService.Login env bcrypt
            (AuthService.Register env1 bcrypt salt users username password).2
            username q = (none, some .ErrInvalidPassword)) := by
  refine ⟨?_, ?_, ?_, ?_⟩
  · rw [Login_eval env hf]
    cases hu : userRepositoryImpl.find env.coll users username with
    | none => simpa using user_find_eq_none.1 hu
    | some u =>
      have hex : ∃ u ∈ users, env.coll.strEq u.Name username = true :=
        ⟨u, (user_find_some hu).1, (user_find_some hu).2⟩
      by_cases hc : bcrypt.CompareHashAndPassword u.Password password = true <;> simp [hc, hex]
  · intro u hu
    refine ⟨(user_find_some hu).1, (user_find_some hu).2, ?_⟩
    rw [Login_eval env hf, hu]
    by_cases hc : bcrypt.CompareHashAndPassword u.Password password = true <;> simp [hc]
  · intro u hu hc
    rw [Login_eval env hf, hu]
    simp [hc]
  · intro env1 salt hcoll hrefl hver hreg
    rcases Register_cases env1 bcrypt salt users username password with
      ⟨herr, _⟩ | ⟨h, hnone, hgen, heq⟩
    · exact absurd hreg herr
    · have hfind : userRepositoryImpl.find env.coll
          (users ++ [{ ID := userRepositoryImpl.nextID users, Name := username,
                       Password := h, Role := "user" }]) username =
          some { ID := userRepositoryImpl.nextID users, Name := username,
                 Password := h, Role := "user" } := by
        rw [hcoll] at hnone
        unfold userRepositoryImpl.find at hnone ⊢
        rw [List.find?_append, hnone]
        simp [hrefl]
      refine ⟨{ ID := userRepositoryImpl.nextID users, Name := username,
                Password := h, Role := "user" }, rfl, rfl, ?_, ?_⟩
      · rw [heq, Login_eval env hf, hfind]
        simp [hver salt password h hgen]
      · intro q hq
        rw [heq, Login_eval env hf, hfind]
        simp only at hq
        simp [hq]

theorem toyBcrypt_verifies : ∀ (salt : Nat) (p h : String),
    toyBcrypt.GenerateFromPassword salt p = some h →
    toyBcrypt.CompareHashAndPassword h p = true := by
  intro salt p h hg
  simp only [toyBcrypt] at hg ⊢
  by_cases hl : p.length > 72
  · simp [hl] at hg
  · simp only [hl, if_false, Option.some.injEq] at hg
    simp [← hg]

/-- C18 witness: the specification's scenario with alice registered:
Login("alice", "wrong") is refused with ErrInvalidPassword, Login("ghost", "x")
with ErrUserNotFound, Login("alice", "pw1") returns alice; and right after
Register("alice", "pw1") on the empty table, Login("alice", "pw1") returns a user
named alice with role "user". -/
theorem C18_login_witness :
    NoFault (Env.calm t0) ∧
    (AuthService.Login (Env.calm t0) toyBcrypt aliceOnly "alice" "wrong").2 =
      some .ErrInvalidPassword ∧
    (AuthService.Login (Env.calm t0) toyBcrypt aliceOnly "ghost" "x").2 =
      some .ErrUserNotFound ∧
    AuthService.Login (Env.calm t0) toyBcrypt aliceOnly "alice" "pw1" =
      (some { ID := 1, Name := "alice", Password := "$toy$1wp", Role := "user" }, none) ∧
    (∃ u, u.Name = "alice" ∧ u.Role = "user" ∧
      AuthService.Login (Env.calm t0) toyBcrypt
        (AuthService.Register (Env.calm t0) toyBcrypt 5 [] "alice" "pw1").2
        "alice" "pw1" = (some u, none) ∧
      ∀ q, toyBcrypt.CompareHashAndPassword u.Password q = false →
        AuthService.Login (Env.calm t0) toyBcrypt
          (AuthService.Register (Env.calm t0) toyBcrypt 5 [] "alice" "pw1").2
          "alice" q = (none, some .ErrInvalidPassword)) :=
  ⟨noFault_calm t0,
    ((C18_login (Env.calm t0) (noFault_calm t0) toyBcrypt aliceOnly "alice" "wrong").2.1
      { ID := 1, Name := "alice", Password := "$toy$1wp", Role := "user" }
      (by decide)).2.2.2 (by decide),
    (C18_login (Env.calm t0) (noFault_calm t0) toyBcrypt aliceOnly "ghost" "x").1.2
      (by decide),
    (C18_login (Env.calm t0) (noFault_calm t0) toyBcrypt aliceOnly "alice" "pw1").2.2.1
      { ID := 1, Name := "alice", Password := "$toy$1wp", Role := "user" } (by decide)
      (by decide),
    (C18_login (Env.calm t0) (noFault_calm t0) toyBcrypt [] "alice" "pw1").2.2.2
      (Env.calm t0) 5 rfl (by decide) toyBcrypt_verifies (by decide)⟩

theorem likeMatch_percent (coll : Collation) (p s : List Char) :
    likeMatch coll ('%' :: p) s = s.tails.any (fun t => likeMatch coll p t) := by
  rw [likeMatch.eq_def]
  simp

theorem likeMatch_plain (coll : Collation) (c : Char) (p s : List Char)
    (hc : c ≠ '%' ∧ c ≠ '_' ∧ c ≠ likeEscape) :
    likeMatch coll (c :: p) s =
      match s with
      | [] => false
      | d :: t => coll.chrEq d c && likeMatch coll p t := by
  rw [likeMatch.eq_def]
  simp only [hc.1, hc.2.1, hc.2.2, if_false]

/-- A pattern made of plain characters followed by `%` matches the strings that
begin with a run of characters equal, one by one under the collation, to those
of the pattern. -/
theorem likeMatch_plain_then_percent (coll : Collation) : ∀ (kw : List Char),
    (∀ c ∈ kw, c ≠ '%' ∧ c ≠ '_' ∧ c ≠ likeEscape) →
    ∀ t : List Char, likeMatch coll (kw ++ ['%']) t = true ↔
      ∃ mid post, mid ++ post = t ∧
        List.Forall₂ (fun c k => coll.chrEq c k = true) mid kw := by
  intro kw
  induction kw with
  | nil =>
    intro _ t
    simp only [List.nil_append, likeMatch_percent, List.any_eq_true]
    constructor
    · intro _; exact ⟨[], t, rfl, List.Forall₂.nil⟩
    · intro _
      refine ⟨[], (List.mem_tails [] t).2 List.nil_suffix, ?_⟩
      simp [likeMatch]
  | cons c k ih =>
    intro hplain t
    have hc := hplain c (List.mem_cons_self _ _)
    have hk : ∀ x ∈ k, x ≠ '%' ∧ x ≠ '_' ∧ x ≠ likeEscape :=
      fun x hx => hplain x (List.mem_cons_of_mem _ hx)
    rw [List.cons_append, likeMatch_plain coll c _ t hc]
    cases t with
    | nil =>
      simp only [Bool.false_eq_true, false_iff]
      rintro ⟨mid, post, hmp, hall⟩
      cases hall with
      | cons _ _ => simp at hmp
    | cons d t =>
      simp only [Bool.and_eq_true, ih hk t]
      constructor
      · rintro ⟨hd, mid, post, rfl, hall⟩
        exact ⟨d :: mid, post, rfl, List.Forall₂.cons hd hall⟩
      · rintro ⟨mid, post, hmp, hall⟩
        cases hall with
        | cons hd hrest =>
          simp only [List.cons_append, List.cons.injEq] at hmp
          obtain ⟨rfl, rfl⟩ := hmp
          exact ⟨hd, _, post, rfl, hrest⟩

/-- For a keyword of plain characters, `column LIKE "%" + keyword + "%"` holds
exactly when the column contains a run of consecutive characters equal, one by
one under the collation, to the characters of the keyword. -/
theorem sqlLike_contains (coll : Collation) (column keyword : String)
    (hplain : ∀ c ∈ keyword.data, c ≠ '%' ∧ c ≠ '_' ∧ c ≠ likeEscape) :
    sqlLike coll column ("%" ++ keyword ++ "%") = true ↔
      ∃ pre mid post, pre ++ mid ++ post = column.data ∧
        List.Forall₂ (fun c k => coll.chrEq c k = true) mid keyword.data := by
  have hpat : ("%" ++ keyword ++ "%").data = '%' :: (keyword.data ++ ['%']) := by
    simp [String.data_append]
  unfold sqlLike
  rw [hpat, likeMatch_percent, List.any_eq_true]
  constructor
  · rintro ⟨t, ht, hm⟩
    obtain ⟨pre, hpre⟩ := (List.mem_tails t column.data).1 ht
    obtain ⟨mid, post, hpost, hall⟩ :=
      (likeMatch_plain_then_percent coll keyword.data hplain t).1 hm
    exact ⟨pre, mid, post, by rw [List.append_assoc, hpost, hpre], hall⟩
  · rintro ⟨pre, mid, post, h, hall⟩
    refine ⟨mid ++ post, (List.mem_tails _ _).2 ⟨pre, by rw [← List.append_assoc, h]⟩, ?_⟩
    exact (likeMatch_plain_then_percent coll keyword.data hplain _).2 ⟨mid, post, rfl, hall⟩

/-- C19, as stated, fails: the characters `_` and `%` of a keyword are `LIKE`
wildcards.  The keyword "_" returns every book of the catalogue, also the book
"abc" by "xyz", in which the character `_` does not occur; the title keyword "%"
returns every book, although only one title contains the character `%`. -/
theorem C19_wildcards_in_keyword :
    (BookService.SearchBooksByKeyword (Env.calm t0) shelf "_").1 = shelf.books ∧
    ({ ID := 1, Title := "abc", Author := "xyz", Stock := 1 } : Book) ∈ shelf.books ∧
    ¬ (∃ pre post, pre ++ "_".data ++ post = "abc".data) ∧
    ¬ (∃ pre post, pre ++ "_".data ++ post = "xyz".data) ∧
    (BookService.SearchBooksByTitleKeyword (Env.calm t0) shelf "%").1 = shelf.books ∧
    ¬ (∃ pre post, pre ++ "%".data ++ post = "abc".data) := by
  refine ⟨by decide, by decide, ?_, ?_, by decide, ?_⟩
  · show ¬ ("_".data <:+: "abc".data)
    decide
  · show ¬ ("_".data <:+: "xyz".data)
    decide
  · show ¬ ("%".data <:+: "abc".data)
    decide

/-- C19 (amended): for a keyword in which none of the characters `%`, `_` and
backslash occurs, when the query does not fail, SearchBooksByKeyword returns with
a nil error, in table order, exactly the books whose title or whose author
contains a run of consecutive characters equal, one by one under the collation
of the database, to the characters of the keyword, and SearchBooksByTitleKeyword
exactly the books whose title does; an empty result comes with a nil error as
well. -/
theorem C19_search_plain_keyword (env : Env) (hf : NoFault env) (s : Store)
    (keyword : String)
    (hplain : ∀ c ∈ keyword.data, c ≠ '%' ∧ c ≠ '_' ∧ c ≠ likeEscape) :
    (BookService.SearchBooksByKeyword env s keyword).2 = none ∧
    (BookService.SearchBooksByKeyword env s keyword).1.Sublist s.books ∧
    (∀ b, b ∈ (BookService.SearchBooksByKeyword env s keyword).1 ↔
      (b ∈ s.books ∧
        ((∃ pre mid post, pre ++ mid ++ post = b.Title.data ∧
            List.Forall₂ (fun c k => env.coll.chrEq c k = true) mid keyword.data) ∨
          (∃ pre mid post, pre ++ mid ++ post = b.Author.data ∧
            List.Forall₂ (fun c k => env.coll.chrEq c k = true) mid keyword.data)))) ∧
    (BookService.SearchBooksByTitleKeyword env s keyword).2 = none ∧
    (BookService.SearchBooksByTitleKeyword env s keyword).1.Sublist s.books ∧
    (∀ b, b ∈ (BookService.SearchBooksByTitleKeyword env s keyword).1 ↔
      (b ∈ s.books ∧ ∃ pre mid post, pre ++ mid ++ post = b.Title.data ∧
        List.Forall₂ (fun c k => env.coll.chrEq c k = true) mid keyword.data)) := by
  have h1 : BookService.SearchBooksByKeyword env s keyword =
      (s.books.filter (fun b => sqlLike env.coll b.Title ("%" ++ keyword ++ "%") ||
        sqlLike env.coll b.Author ("%" ++ keyword ++ "%")), none) := by
    unfold BookService.SearchBooksByKeyword bookRepositoryImpl.SearchByKeyword
    simp [hf 0]
  have h2 : BookService.SearchBooksByTitleKeyword env s keyword =
      (s.books.filter (fun b => sqlLike env.coll b.Title ("%" ++ keyword ++ "%")), none) := by
    unfold BookService.SearchBooksByTitleKeyword bookRepositoryImpl.SearchByTitleKeyword
    simp [hf 0]
  rw [h1, h2]
  refine ⟨rfl, List.filter_sublist _, ?_, rfl, List.filter_sublist _, ?_⟩
  · intro b
    simp only [List.mem_filter, Bool.or_eq_true, sqlLike_contains _ _ keyword hplain]
  · intro b
    simp only [List.mem_filter, sqlLike_contains _ _ keyword hplain]

/-- C19 witness: under the case-insensitive collation the keyword "B" finds the
one book whose title contains the letter in either case, although the character
"B" itself occurs in no title and no author; the keyword "q" finds the one book
whose author contains it, and the title keyword "zz" finds nothing, without
error. -/
theorem C19_search_plain_keyword_witness :
    NoFault (Env.calm t0) ∧
    (∀ c ∈ "B".data, c ≠ '%' ∧ c ≠ '_' ∧ c ≠ likeEscape) ∧
    BookService.SearchBooksByKeyword (Env.calm t0) shelf "B" =
      ([{ ID := 1, Title := "abc", Author := "xyz", Stock := 1 }], none) ∧
    (∀ b ∈ shelf.books, 'B' ∉ b.Title.data ∧ 'B' ∉ b.Author.data) ∧
    (({ ID := 1, Title := "abc", Author := "xyz", Stock := 1 } : Book) ∈
        (BookService.SearchBooksByKeyword (Env.calm t0) shelf "B").1 ↔
      (({ ID := 1, Title := "abc", Author := "xyz", Stock := 1 } : Book) ∈ shelf.books ∧
        ((∃ pre mid post, pre ++ mid ++ post = "abc".data ∧
            List.Forall₂ (fun c k => (Env.calm t0).coll.chrEq c k = true) mid "B".data) ∨
          (∃ pre mid post, pre ++ mid ++ post = "xyz".data ∧
            List.Forall₂ (fun c k => (Env.calm t0).coll.chrEq c k = true) mid "B".data)))) ∧
    BookService.SearchBooksByKeyword (Env.calm t0) shelf "q" =
      ([{ ID := 2, Title := "a_c", Author := "pq", Stock := 2 }], none) ∧
    BookService.SearchBooksByTitleKeyword (Env.calm t0) shelf "zz" = ([], none) :=
  have h := C19_search_plain_keyword (Env.calm t0) (noFault_calm t0) shelf "B" (by decide)
  ⟨noFault_calm t0, by decide, by decide, by decide,
    h.2.2.1 { ID := 1, Title := "abc", Author := "xyz", Stock := 1 }, by decide, by decide⟩

/-- What the middleware of the admin group does with a request, by the session
lookup of the request. -/
theorem adminChain_eval (get : SessionGet) :
    adminChain get =
      if get.err then .abort 500
      else match get.session.authenticated with
        | some (.bool true) =>
          (match get.session.userID with
            | some (.int userID) =>
              (match get.session.username with
                | some (.string username) =>
                  (match get.session.role with
                    | some (.string role) =>
                      if role ≠ "admin" then .abort 403
                      else .next { ID := userID, Name := username, Password := "", Role := role }
                    | _ => .panic)
                | _ => .panic)
            | _ => .panic)
        | _ => .abort 401 := by
  obtain ⟨session, err⟩ := get
  obtain ⟨authenticated, userID, username, role⟩ := session
  unfold adminChain AuthMiddleware AdminMiddleware
  cases err
  swap
  · rfl
  rcases authenticated with _ | (_ | _) | _ | _ | _
  case some.bool.true =>
    rcases userID with _ | _ | n | _ | _
    case some.int =>
      rcases username with _ | _ | _ | name | _
      case some.string =>
        rcases role with _ | _ | _ | r | _
        case some.string =>
          by_cases hr : r = "admin" <;> simp [hr]
        all_goals rfl
      all_goals rfl
    all_goals rfl
  all_goals rfl

/-- C20, as stated, fails: a request whose session cookie cannot be decoded
comes with a session that does not carry authenticated = true, and it is
answered 500 by AuthMiddleware, not 401. -/
theorem C20_undecodable_session_answered_500 :
    newSession.authenticated ≠ some (.bool true) ∧
    AuthMiddleware { session := newSession, err := true } = .abort 500 ∧
    adminRoute { session := newSession, err := true }
      (AdminHandler.AddBook (Env.calm t0) (some { Title := "T", Author := "A", Stock := 3 }))
      oneCopy = (500, oneCopy) := by
  decide

/-- C20 (amended): on an admin route the handler is reached exactly when the
session lookup returns no error and the session carries authenticated = true, an
integer userID, a string username and the role "admin", and then the request is
answered by the handler.  A session returned without error and without
authenticated = true is answered 401; an authenticated session holding the
userID and username Login stores and a role string other than "admin" is answered
403; a session lookup that returns an error is answered 500.  In these three
cases the handler is not run, whatever it is, and the store is unchanged. -/
theorem C20_admin_authorization (get : SessionGet) :
    ((∃ user, adminChain get = .next user) ↔
      (get.err = false ∧ get.session.authenticated = some (.bool true) ∧
        (∃ n, get.session.userID = some (.int n)) ∧
        (∃ name, get.session.username = some (.string name)) ∧
        get.session.role = some (.string "admin"))) ∧
    (∀ (handler : Store → Nat × Store) (s : Store),
      (∃ user, adminChain get = .next user) → adminRoute get handler s = handler s) ∧
    (get.err = false → get.session.authenticated ≠ some (.bool true) →
      ∀ (handler : Store → Nat × Store) (s : Store), adminRoute get handler s = (401, s)) ∧
    (∀ (n : Int) (name role : String), get.err = false →
      get.session.authenticated = some (.bool true) →
      get.session.userID = some (.int n) → get.session.username = some (.string name) →
      get.session.role = some (.string role) → role ≠ "admin" →
      ∀ (handler : Store → Nat × Store) (s : Store), adminRoute get handler s = (403, s)) ∧
    (get.err = true →
      ∀ (handler : Store → Nat × Store) (s : Store), adminRoute get handler s = (500, s)) := by
  obtain ⟨session, err⟩ := get
  obtain ⟨authenticated, userID, username, role⟩ := session
  refine ⟨?_, ?_, ?_, ?_, ?_⟩
  · rw [adminChain_eval]
    cases err
    swap
    · simp
    rcases authenticated with _ | (_ | _) | _ | _ | _
    case some.bool.true =>
      rcases userID with _ | _ | n | _ | _
      case some.int =>
        rcases username with _ | _ | _ | name | _
        case some.string =>
          rcases role with _ | _ | _ | r | _
          case some.string =>
            by_cases hr : r = "admin" <;> simp [hr]
          all_goals simp
        all_goals simp
      all_goals simp
    all_goals simp
  · rintro handler s ⟨user, h⟩
    simp [adminRoute, h]
  · intro herr hauth handler s
    simp only at herr hauth
    unfold adminRoute
    rw [adminChain_eval]
    subst herr
    rcases authenticated with _ | (_ | _) | _ | _ | _ <;> simp at hauth ⊢
  · intro n name r herr hauth hid hname hrole hne handler s
    simp only at herr hauth hid hname hrole
    unfold adminRoute
    rw [adminChain_eval]
    subst herr hauth hid hname hrole
    simp [hne]
  · intro herr handler s
    simp only at herr
    unfold adminRoute
    rw [adminChain_eval]
    subst herr
    simp

/-- C20 witness: with the sessions Login writes, an administrator reaches the
handler, which adds the book; an ordinary user is answered 403 and a request
without session 401, the store unchanged. -/
theorem C20_admin_authorization_witness :
    adminRoute { session := adminSession, err := false }
      (AdminHandler.AddBook (Env.calm t0) (some { Title := "T", Author := "A", Stock := 3 }))
      oneCopy =
      (200, { books := oneCopy.books ++ [{ ID := 2, Title := "T", Author := "A", Stock := 3 }],
              records := [] }) ∧
    adminRoute { session := userSession, err := false }
      (AdminHandler.AddBook (Env.calm t0) (some { Title := "T", Author := "A", Stock := 3 }))
      oneCopy = (403, oneCopy) ∧
    adminRoute { session := newSession, err := false }
      (AdminHandler.AddBook (Env.calm t0) (some { Title := "T", Author := "A", Stock := 3 }))
      oneCopy = (401, oneCopy) :=
  ⟨((C20_admin_authorization { session := adminSession, err := false }).2.1 _ oneCopy
      ⟨{ ID := 1, Name := "root", Password := "", Role := "admin" }, by decide⟩).trans
      (by decide),
    (C20_admin_authorization { session := userSession, err := false }).2.2.2.1 3 "alice" "user"
      rfl rfl rfl rfl rfl (by decide) _ oneCopy,
    (C20_admin_authorization { session := newSession, err := false }).2.2.1 rfl (by decide)
      _ oneCopy⟩

theorem book_find_map_replace_ne (books : List Book) (k b : Int) (v : Book)
    (hv : v.ID = k) (hne : k ≠ b) :
    bookRepositoryImpl.find (books.map (fun x => if x.ID = k then v else x)) b =
      bookRepositoryImpl.find books b := by
  have hkb : (k == b) = false := by simpa using hne
  unfold bookRepositoryImpl.find
  induction books with
  | nil => rfl
  | cons x xs ih =>
    by_cases hx : x.ID = k
    · have h1 : (v.ID == b) = false := by rw [hv]; exact hkb
      have h2 : (x.ID == b) = false := by rw [hx]; exact hkb
      rw [List.map_cons, if_pos hx]
      simp only [List.find?_cons, h1, h2]
      exact ih
    · rw [List.map_cons, if_neg hx]
      simp only [List.find?_cons]
      cases hxb : (x.ID == b)
      · exact ih
      · rfl

/-- With unique record keys, closing the open record found under a key lowers
the number of open records of its book by one and of no other book, and keeps
the keys. -/
theorem openOnBook_close {records : List BorrowRecord} {k : Int} {record : BorrowRecord}
    (t : Time) (hkeys : (records.map (fun r => r.ID)).Nodup)
    (hfind : borrowRecordRepoImpl.find records k = some record)
    (hopen : record.ReturnedAt = none) (b : Int) :
    openOnBook (records.map (fun r => if r.ID = record.ID then
        { record with ReturnedAt := some t } else r)) b
        + (if record.BookID = b then 1 else 0) = openOnBook records b ∧
    ((records.map (fun r => if r.ID = record.ID then
        { record with ReturnedAt := some t } else r)).map (fun r => r.ID)).Nodup := by
  obtain ⟨pre, post, hsplit⟩ := List.append_of_mem (record_find_some hfind).1
  subst hsplit
  rw [map_replace_of_nodup pre post record _ hkeys]
  constructor
  · unfold openOnBook
    simp only [List.countP_append, List.countP_cons, hopen, Option.isNone_none, Bool.and_true,
      Option.isNone_some, Bool.and_false, Bool.false_eq_true, if_false, beq_iff_eq]
    omega
  · simpa using hkeys

/-- One `BorrowBook` or `ReturnBook` keeps the sum of the stock of an existing
book and the number of its open records, as long as the call is not a return of
a copy of that book that wraps the stock around; the stock stays an `int` and
the record keys stay unique. -/
theorem exec_conserves (s : Store) (c : Call) (b : Int) (book : Book)
    (hc : c.isBorrowOrReturn = true)
    (hkeys : (s.records.map (fun r => r.ID)).Nodup)
    (hb : bookRepositoryImpl.find s.books b = some book)
    (hlo : minInt ≤ book.Stock) (hhi : book.Stock ≤ maxInt)
    (hfree : c.overflowsOn s b = false) :
    ∃ book', bookRepositoryImpl.find (c.exec s).2.books b = some book' ∧
      minInt ≤ book'.Stock ∧ book'.Stock ≤ maxInt ∧
      book'.Stock + (openOnBook (c.exec s).2.records b : Nat) =
        book.Stock + (openOnBook s.records b : Nat) ∧
      ((c.exec s).2.records.map (fun r => r.ID)).Nodup := by
  have hsame : (c.exec s).2 = s →
      ∃ book', bookRepositoryImpl.find (c.exec s).2.books b = some book' ∧
        minInt ≤ book'.Stock ∧ book'.Stock ≤ maxInt ∧
        book'.Stock + (openOnBook (c.exec s).2.records b : Nat) =
          book.Stock + (openOnBook s.records b : Nat) ∧
        ((c.exec s).2.records.map (fun r => r.ID)).Nodup := by
    intro h
    rw [h]
    exact ⟨book, hb, hlo, hhi, rfl, hkeys⟩
  cases c with
  | AddBook env title author stock => simp [Call.isBorrowOrReturn] at hc
  | UpdateBook env title author ID stock => simp [Call.isBorrowOrReturn] at hc
  | DeleteBook env ID => simp [Call.isBorrowOrReturn] at hc
  | BorrowBook env userID bookID =>
    rcases BorrowBook_cases env s userID bookID with ⟨_, h⟩ | ⟨book0, hfind, hpos, _, _, _, h⟩
    · exact hsame (by simpa [Call.exec] using h)
    · simp only [Call.exec, h]
      have hid0 : book0.ID = bookID := (book_find_some hfind).2
      have hnd : (List.map (fun r : BorrowRecord => r.ID) (s.records ++
          [{ ID := borrowRecordRepoImpl.nextID s.records, UserID := userID, BookID := bookID,
             BorrowedAt := env.now 0, DueDate := (env.now 1).AddDate_0_1_0,
             ReturnedAt := none }])).Nodup := by
        simp only [List.map_append, List.map_cons, List.map_nil]
        rw [List.nodup_append]
        refine ⟨hkeys, List.nodup_singleton _, ?_⟩
        intro i hi hi'
        simp only [List.mem_singleton] at hi'
        subst hi'
        obtain ⟨r, hr, hri⟩ := List.mem_map.1 hi
        exact absurd hri (ne_of_lt (record_nextID_fresh s.records r hr))
      by_cases hbk : bookID = b
      · subst hbk
        rw [hfind] at hb
        obtain rfl : book0 = book := Option.some.inj hb
        have hw : wrapInt (book0.Stock - 1) = book0.Stock - 1 :=
          wrapInt_of_isInt _ (by unfold minInt; omega) (by omega)
        refine ⟨{ book0 with Stock := wrapInt (book0.Stock - 1) }, ?_, ?_, ?_, ?_, hnd⟩
        · rw [hid0]
          exact book_find_map_replace hfind rfl
        · simp only [hw]; unfold minInt; omega
        · simp only [hw]; omega
        · simp only [hw]
          unfold openOnBook
          simp only [List.countP_append, List.countP_cons, List.countP_nil, beq_self_eq_true,
            Option.isNone_none, Bool.and_self, if_true]
          push_cast
          omega
      · refine ⟨book, ?_, hlo, hhi, ?_, hnd⟩
        · rw [book_find_map_replace_ne s.books book0.ID b
            { book0 with Stock := wrapInt (book0.Stock - 1) } rfl (by rw [hid0]; exact hbk)]
          exact hb
        · have hne : (bookID == b) = false := by simpa using hbk
          unfold openOnBook
          simp only [List.countP_append, List.countP_cons, List.countP_nil, hne,
            Bool.false_and, Bool.false_eq_true, if_false, Nat.add_zero]
  | ReturnBook env recordID currentUserID =>
    rcases ReturnBook_cases env s recordID currentUserID with
      ⟨_, h⟩ | ⟨record, book0, hrec, _, hopen, hfind, _, _, h⟩
    · exact hsame (by simpa [Call.exec] using h)
    · have hh := h
      simp only [Call.exec, h]
      have hid0 : book0.ID = record.BookID := (book_find_some hfind).2
      obtain ⟨hcount, hnd⟩ := openOnBook_close (env.now 0) hkeys hrec hopen b
      by_cases hbk : record.BookID = b
      · rw [hbk] at hfind hid0
        rw [hfind] at hb
        obtain rfl : book0 = book := Option.some.inj hb
        have hbe : (record.BookID == b) = true := by simpa using hbk
        have hlt : book0.Stock < maxInt := by
          have hfree' := hfree
          simp only [Call.overflowsOn, hrec, hbe, Bool.true_and, Call.overflows, hbk, hfind, hh,
            Option.isNone_none, Bool.and_true, beq_self_eq_true, decide_eq_false_iff_not,
            not_le] at hfree'
          exact hfree'
        have hw : wrapInt (book0.Stock + 1) = book0.Stock + 1 :=
          wrapInt_of_isInt _ (by omega) (by omega)
        refine ⟨{ book0 with Stock := wrapInt (book0.Stock + 1) }, ?_, ?_, ?_, ?_, hnd⟩
        · rw [hid0]
          exact book_find_map_replace hfind rfl
        · simp only [hw]; omega
        · simp only [hw]; omega
        · simp only [hw]
          rw [if_pos hbk] at hcount
          omega
      · refine ⟨book, ?_, hlo, hhi, ?_, hnd⟩
        · rw [book_find_map_replace_ne s.books book0.ID b
            { book0 with Stock := wrapInt (book0.Stock + 1) } rfl (by rw [hid0]; exact hbk)]
          exact hb
        · rw [if_neg hbk] at hcount
          omega

theorem run_conserves (b : Int) (calls : List Call) : ∀ (s : Store) (book : Book),
    (∀ c ∈ calls, c.isBorrowOrReturn = true) →
    (s.records.map (fun r => r.ID)).Nodup →
    bookRepositoryImpl.find s.books b = some book →
    minInt ≤ book.Stock → book.Stock ≤ maxInt →
    OverflowFreeOn s b calls = true →
    ∃ book', bookRepositoryImpl.find (run s calls).books b = some book' ∧
      book'.Stock + (openOnBook (run s calls).records b : Nat) =
        book.Stock + (openOnBook s.records b : Nat) := by
  induction calls with
  | nil =>
    intro s book _ _ hb _ _ _
    exact ⟨book, by simpa [run] using hb, by simp [run]⟩
  | cons c cs ih =>
    intro s book hcalls hkeys hb hlo hhi hfree
    simp only [OverflowFreeOn, Bool.and_eq_true, Bool.not_eq_true'] at hfree
    obtain ⟨book1, hb1, hlo1, hhi1, hsum1, hkeys1⟩ :=
      exec_conserves s c b book (hcalls c (List.mem_cons_self _ _)) hkeys hb hlo hhi hfree.1
    obtain ⟨book2, hb2, hsum2⟩ := ih (c.exec s).2 book1
      (fun c' hc' => hcalls c' (List.mem_cons_of_mem _ hc')) hkeys1 hb1 hlo1 hhi1 hfree.2
    refine ⟨book2, by simpa [run] using hb2, ?_⟩
    have : run s (c :: cs) = run (c.exec s).2 cs := by simp [run]
    rw [this, hsum2, hsum1]

/-- C22, as stated, fails: user 7 returns a copy of book 1 while its stock is
2^63 - 1: before the call the stock plus the number of open records of the book
is 2^63, after the call the stock is -2^63 and no record of the book is open. -/
theorem C22_sum_changes_at_maxInt :
    (bookRepositoryImpl.find lentAtMax.books 1).map
        (fun book : Book => book.Stock + ((openOnBook lentAtMax.records 1 : Nat) : Int)) =
      some (9223372036854775808 : Int) ∧
    (BorrowService.ReturnBook (Env.calm t0) lentAtMax 1 7).1 = none ∧
    (bookRepositoryImpl.find (BorrowService.ReturnBook (Env.calm t0) lentAtMax 1 7).2.books 1).map
        (fun book : Book => book.Stock +
          ((openOnBook (BorrowService.ReturnBook (Env.calm t0) lentAtMax 1 7).2.records 1 : Nat)
            : Int)) =
      some (-9223372036854775808 : Int) := by
  decide

/-- C22 (amended): for every existing book b whose stock is an `int`, record
keys being unique, any finite sequence of BorrowBook and ReturnBook calls, with
any arguments, succeeding or failing, whichever store accesses fail, in which no
successful ReturnBook of a copy of b is made while the stock of b is 2^63 - 1,
leaves the book in place with the same sum of its stock and the number of open
records whose BookID is b; a single call is the sequence of length one. -/
theorem C22_copy_conservation (s : Store) (b : Int) (book : Book) (calls : List Call)
    (hcalls : ∀ c ∈ calls, c.isBorrowOrReturn = true)
    (hkeys : (s.records.map (fun r => r.ID)).Nodup)
    (hb : bookRepositoryImpl.find s.books b = some book)
    (hlo : minInt ≤ book.Stock) (hhi : book.Stock ≤ maxInt)
    (hfree : OverflowFreeOn s b calls = true) :
    ∃ book', bookRepositoryImpl.find (run s calls).books b = some book' ∧
      book'.Stock + (openOnBook (run s calls).records b : Nat) =
        book.Stock + (openOnBook s.records b : Nat) :=
  run_conserves b calls s book hcalls hkeys hb hlo hhi hfree

/-- C22 witness: two copies of book 2 are borrowed next to the two open records
of book 1, a borrow of book 1 is refused, one copy of book 2 and one of book 1
are returned, a second return of the same record is refused. -/
theorem C22_copy_conservation_witness :
    (twoOnLoan.records.map (fun r => r.ID)).Nodup ∧
    OverflowFreeOn twoOnLoan 2
      [.BorrowBook (Env.calm t1) 8 2, .BorrowBook (Env.calm t1) 9 2,
        .BorrowBook (Env.calm t1) 9 1, .ReturnBook (Env.calm t1) 4 7,
        .ReturnBook (Env.calm t1) 1 7, .ReturnBook (Env.calm t1) 1 7] = true ∧
    (∃ book', bookRepositoryImpl.find (run twoOnLoan
        [.BorrowBook (Env.calm t1) 8 2, .BorrowBook (Env.calm t1) 9 2,
          .BorrowBook (Env.calm t1) 9 1, .ReturnBook (Env.calm t1) 4 7,
          .ReturnBook (Env.calm t1) 1 7, .ReturnBook (Env.calm t1) 1 7]).books 2 = some book' ∧
      book'.Stock + (openOnBook (run twoOnLoan
        [.BorrowBook (Env.calm t1) 8 2, .BorrowBook (Env.calm t1) 9 2,
          .BorrowBook (Env.calm t1) 9 1, .ReturnBook (Env.calm t1) 4 7,
          .ReturnBook (Env.calm t1) 1 7, .ReturnBook (Env.calm t1) 1 7]).records 2 : Nat) =
        4 + (openOnBook twoOnLoan.records 2 : Nat)) :=
  ⟨by decide, by decide,
    C22_copy_conservation twoOnLoan 2 { ID := 2, Title := "Z", Author := "Y", Stock := 4 }
      [.BorrowBook (Env.calm t1) 8 2, .BorrowBook (Env.calm t1) 9 2,
        .BorrowBook (Env.calm t1) 9 1, .ReturnBook (Env.calm t1) 4 7,
        .ReturnBook (Env.calm t1) 1 7, .ReturnBook (Env.calm t1) 1 7]
      (by decide) (by decide) (by decide) (by decide) (by decide) (by decide)⟩

/-- A `BorrowBook` whose reads show the book row and the open records of the user
as the store holds them when it writes does what the call does on that store. -/
theorem BorrowBookAt_reads_current (env : Env) (userID bookID : Int) (snapshot s : Store)
    (hbook : bookRepositoryImpl.find snapshot.books bookID = bookRepositoryImpl.find s.books bookID)
    (hcount : borrowRecordRepoImpl.activeCount snapshot.records userID =
      borrowRecordRepoImpl.activeCount s.records userID) :
    BorrowService.BorrowBookAt env userID bookID snapshot s =
      BorrowService.BorrowBook env s userID bookID := by
  unfold BorrowService.BorrowBookAt BorrowService.BorrowBook Transaction
    BorrowService.borrowTxAt BorrowService.borrowTx bookRepositoryImpl.GetByID
    borrowRecordRepoImpl.CountActiveBorrowsByUserID
  rw [hbook, hcount]

/-- A `ReturnBook` whose reads show the record row and the row of its book as the
store holds them when it writes does what the call does on that store. -/
theorem ReturnBookAt_reads_current (env : Env) (recordID currentUserID : Int)
    (snapshot s : Store)
    (hrecord : borrowRecordRepoImpl.find snapshot.records recordID =
      borrowRecordRepoImpl.find s.records recordID)
    (hbook : ∀ record, borrowRecordRepoImpl.find s.records recordID = some record →
      bookRepositoryImpl.find snapshot.books record.BookID =
        bookRepositoryImpl.find s.books record.BookID) :
    BorrowService.ReturnBookAt env recordID currentUserID snapshot s =
      BorrowService.ReturnBook env s recordID currentUserID := by
  unfold BorrowService.ReturnBookAt BorrowService.ReturnBook Transaction
    BorrowService.returnTxAt BorrowService.returnTx borrowRecordRepoImpl.GetByID
    bookRepositoryImpl.GetByID
  rw [hrecord]
  cases hr : borrowRecordRepoImpl.find s.records recordID with
  | none => by_cases h0 : env.fault 0 = true <;> simp [h0]
  | some record =>
    by_cases h0 : env.fault 0 = true
    · simp [h0]
    · simp only [h0, Bool.false_eq_true, if_false, hbook record hr]

/-- A `DeleteBook` whose reads show the book row and the records of the book as
the store holds them when it writes does what the call does on that store. -/
theorem DeleteBookAt_reads_current (env : Env) (ID : Int) (snapshot s : Store)
    (hbook : bookRepositoryImpl.find snapshot.books ID = bookRepositoryImpl.find s.books ID)
    (hrecords : snapshot.records.filter (fun r => r.BookID == ID) =
      s.records.filter (fun r => r.BookID == ID)) :
    AdminService.DeleteBookAt env ID snapshot s = AdminService.DeleteBook env s ID := by
  unfold AdminService.DeleteBookAt AdminService.DeleteBook Transaction
    AdminService.deleteTxAt AdminService.deleteTx bookRepositoryImpl.GetByID
    borrowRecordRepoImpl.GetByBookID
  rw [hbook, hrecords]

theorem BorrowBook_without_stock (env : Env) (s : Store) (userID bookID : Int) (book : Book)
    (hfind : bookRepositoryImpl.find s.books bookID = some book) (hstock : book.Stock ≤ 0)
    (hu : 0 < userID) (hb : 0 < bookID) (h0 : env.fault 0 = false) :
    BorrowService.BorrowBook env s userID bookID = (some .ErrStockNotEnough, s) := by
  unfold BorrowService.BorrowBook
  rw [if_neg (by omega)]
  unfold Transaction BorrowService.borrowTx bookRepositoryImpl.GetByID
  simp [h0, hfind, hstock]

theorem ReturnBook_of_closed (env : Env) (s : Store) (recordID currentUserID : Int)
    (record : BorrowRecord)
    (hfind : borrowRecordRepoImpl.find s.records recordID = some record)
    (hown : record.UserID = currentUserID) (hclosed : record.ReturnedAt ≠ none)
    (hr : 0 < recordID) (hu : 0 < currentUserID) (h0 : env.fault 0 = false) :
    BorrowService.ReturnBook env s recordID currentUserID = (some .ErrAlreadyReturned, s) := by
  unfold BorrowService.ReturnBook
  rw [if_neg (by omega)]
  unfold Transaction BorrowService.returnTx borrowRecordRepoImpl.GetByID
  simp [h0, hfind, hown, hclosed]

/-- C21, as stated, fails.  Two BorrowBook calls on the one copy of book 1 that
both read before either writes both find stock 1 and no open record of their
user, both write stock 0 and both insert a record: both return nil and the store
holds stock 0 with two open records on the book, while in either sequential
order the second call returns ErrStockNotEnough and one record is open.  Two
ReturnBook calls on record 1 that both read before either writes both find it
open and both close it, both returning nil, while in sequence the second call
returns ErrAlreadyReturned. -/
theorem C21_last_copy_lent_twice :
    bothReadThenWrite (BorrowService.BorrowBookAt (Env.calm t0) 7 1)
        (BorrowService.BorrowBookAt (Env.calm t0) 8 1) oneCopy =
      (none, none,
        { books := [{ ID := 1, Title := "X", Author := "Y", Stock := 0 }],
          records := [openRecord 1 7 1, openRecord 2 8 1] }) ∧
    BorrowService.BorrowBook (Env.calm t0) oneCopy 7 1 =
      (none, { books := [{ ID := 1, Title := "X", Author := "Y", Stock := 0 }],
               records := [openRecord 1 7 1] }) ∧
    BorrowService.BorrowBook (Env.calm t0)
        { books := [{ ID := 1, Title := "X", Author := "Y", Stock := 0 }],
          records := [openRecord 1 7 1] } 8 1 =
      (some .ErrStockNotEnough,
        { books := [{ ID := 1, Title := "X", Author := "Y", Stock := 0 }],
          records := [openRecord 1 7 1] }) ∧
    BorrowService.BorrowBook (Env.calm t0) oneCopy 8 1 =
      (none, { books := [{ ID := 1, Title := "X", Author := "Y", Stock := 0 }],
               records := [openRecord 1 8 1] }) ∧
    BorrowService.BorrowBook (Env.calm t0)
        { books := [{ ID := 1, Title := "X", Author := "Y", Stock := 0 }],
          records := [openRecord 1 8 1] } 7 1 =
      (some .ErrStockNotEnough,
        { books := [{ ID := 1, Title := "X", Author := "Y", Stock := 0 }],
          records := [openRecord 1 8 1] }) ∧
    bothReadThenWrite (BorrowService.ReturnBookAt (Env.calm t1) 1 7)
        (BorrowService.ReturnBookAt (Env.calm t1) 1 7) lentOut =
      (none, none,
        { books := [{ ID := 1, Title := "X", Author := "Y", Stock := 1 }],
          records := [closedRecord 1 7 1 t1] }) ∧
    BorrowService.ReturnBook (Env.calm t1) lentOut 1 7 =
      (none, { books := [{ ID := 1, Title := "X", Author := "Y", Stock := 1 }],
               records := [closedRecord 1 7 1 t1] }) ∧
    BorrowService.ReturnBook (Env.calm t1)
        { books := [{ ID := 1, Title := "X", Author := "Y", Stock := 1 }],
          records := [closedRecord 1 7 1 t1] } 1 7 =
      (some .ErrAlreadyReturned,
        { books := [{ ID := 1, Title := "X", Author := "Y", Stock := 1 }],
          records := [closedRecord 1 7 1 t1] }) := by
  refine ⟨by decide, by decide, by decide, by decide, by decide, by decide, by decide,
    by decide⟩

/-- C21 (amended): a borrow, return or delete transaction whose reads show the
rows it reads (the book row and the open records of the user; the record row and
the row of its book; the book row and the records of the book) as the store
holds them when the transaction writes has exactly the effect of the call made
on that store, so that two BorrowBook calls on different books by different
users that both read before either writes are equivalent to the two calls made
one after the other.  Made one after the other, two BorrowBook calls cannot both
take the last copy of a book (the second returns an error, ErrStockNotEnough
when its read succeeds, and changes nothing), and two ReturnBook calls cannot
both close the same record (the second returns an error, ErrAlreadyReturned
when made by the same user and its read succeeds, and changes nothing). -/
theorem C21_serial_when_reads_current (env : Env) (s : Store) :
    (∀ snapshot userID bookID,
      bookRepositoryImpl.find snapshot.books bookID = bookRepositoryImpl.find s.books bookID →
      borrowRecordRepoImpl.activeCount snapshot.records userID =
        borrowRecordRepoImpl.activeCount s.records userID →
      BorrowService.BorrowBookAt env userID bookID snapshot s =
        BorrowService.BorrowBook env s userID bookID) ∧
    (∀ snapshot recordID currentUserID,
      borrowRecordRepoImpl.find snapshot.records recordID =
        borrowRecordRepoImpl.find s.records recordID →
      (∀ record, borrowRecordRepoImpl.find s.records recordID = some record →
        bookRepositoryImpl.find snapshot.books record.BookID =
          bookRepositoryImpl.find s.books record.BookID) →
      BorrowService.ReturnBookAt env recordID currentUserID snapshot s =
        BorrowService.ReturnBook env s recordID currentUserID) ∧
    (∀ snapshot ID,
      bookRepositoryImpl.find snapshot.books ID = bookRepositoryImpl.find s.books ID →
      snapshot.records.filter (fun r => r.BookID == ID) =
        s.records.filter (fun r => r.BookID == ID) →
      AdminService.DeleteBookAt env ID snapshot s = AdminService.DeleteBook env s ID) ∧
    (∀ env2 userID userID2 bookID bookID2, userID ≠ userID2 → bookID ≠ bookID2 →
      bothReadThenWrite (BorrowService.BorrowBookAt env userID bookID)
          (BorrowService.BorrowBookAt env2 userID2 bookID2) s =
        ((BorrowService.BorrowBook env s userID bookID).1,
          (BorrowService.BorrowBook env2 (BorrowService.BorrowBook env s userID bookID).2
            userID2 bookID2).1,
          (BorrowService.BorrowBook env2 (BorrowService.BorrowBook env s userID bookID).2
            userID2 bookID2).2)) ∧
    (∀ env2 userID userID2 bookID book,
      bookRepositoryImpl.find s.books bookID = some book → book.Stock = 1 →
      (BorrowService.BorrowBook env s userID bookID).1 = none →
      (BorrowService.BorrowBook env2 (BorrowService.BorrowBook env s userID bookID).2
        userID2 bookID).1 ≠ none ∧
      (BorrowService.BorrowBook env2 (BorrowService.BorrowBook env s userID bookID).2
        userID2 bookID).2 = (BorrowService.BorrowBook env s userID bookID).2 ∧
      (0 < userID2 → env2.fault 0 = false →
        (BorrowService.BorrowBook env2 (BorrowService.BorrowBook env s userID bookID).2
          userID2 bookID).1 = some .ErrStockNotEnough)) ∧
    (∀ env2 recordID currentUserID userID2,
      (BorrowService.ReturnBook env s recordID currentUserID).1 = none →
      (BorrowService.ReturnBook env2 (BorrowService.ReturnBook env s recordID currentUserID).2
        recordID userID2).1 ≠ none ∧
      (BorrowService.ReturnBook env2 (BorrowService.ReturnBook env s recordID currentUserID).2
        recordID userID2).2 = (BorrowService.ReturnBook env s recordID currentUserID).2 ∧
      (env2.fault 0 = false →
        (BorrowService.ReturnBook env2
          (BorrowService.ReturnBook env s recordID currentUserID).2
          recordID currentUserID).1 = some .ErrAlreadyReturned)) := by
  refine ⟨fun snapshot userID bookID => BorrowBookAt_reads_current env userID bookID snapshot s,
    fun snapshot recordID currentUserID =>
      ReturnBookAt_reads_current env recordID currentUserID snapshot s,
    fun snapshot ID => DeleteBookAt_reads_current env ID snapshot s, ?_, ?_, ?_⟩
  · intro env2 userID userID2 bookID bookID2 hu hb
    have hfirst : BorrowService.BorrowBookAt env userID bookID s s =
        BorrowService.BorrowBook env s userID bookID :=
      BorrowBookAt_reads_current env userID bookID s s rfl rfl
    have hsecond : BorrowService.BorrowBookAt env2 userID2 bookID2 s
          (BorrowService.BorrowBook env s userID bookID).2 =
        BorrowService.BorrowBook env2 (BorrowService.BorrowBook env s userID bookID).2
          userID2 bookID2 := by
      apply BorrowBookAt_reads_current
      · rcases BorrowBook_cases env s userID bookID with ⟨_, h⟩ | ⟨book, hfind, _, _, _, _, h⟩
        · rw [h]
        · rw [h]
          exact (book_find_map_replace_ne s.books book.ID bookID2
            { book with Stock := wrapInt (book.Stock - 1) } rfl
            (by rw [(book_find_some hfind).2]; exact hb)).symm
      · rcases BorrowBook_cases env s userID bookID with ⟨_, h⟩ | ⟨book, _, _, _, _, _, h⟩
        · rw [h]
        · rw [h]
          have hne : (userID == userID2) = false := by simpa using hu
          simp [borrowRecordRepoImpl.activeCount, List.countP_append, hne]
    unfold bothReadThenWrite
    rw [hfirst, hsecond]
  · intro env2 userID userID2 bookID book hfind hstock hok
    rcases BorrowBook_cases env s userID bookID with ⟨herr, _⟩ | ⟨book1, hfind1, _, _, _, hb, h⟩
    · exact absurd hok herr
    · obtain rfl : book1 = book := Option.some.inj (hfind1.symm.trans hfind)
      obtain rfl : book1.ID = bookID := (book_find_some hfind).2
      have hfind2 : bookRepositoryImpl.find (BorrowService.BorrowBook env s userID book1.ID).2.books
          book1.ID = some { book1 with Stock := wrapInt (book1.Stock - 1) } := by
        rw [h]
        exact book_find_map_replace hfind rfl
      have hzero : ({ book1 with Stock := wrapInt (book1.Stock - 1) } : Book).Stock ≤ 0 := by
        show wrapInt (book1.Stock - 1) ≤ 0
        rw [hstock]
        decide
      rcases BorrowBook_cases env2 (BorrowService.BorrowBook env s userID book1.ID).2 userID2
          book1.ID with ⟨herr2, hsame⟩ | ⟨book2, hf2, hpos, _⟩
      · refine ⟨herr2, hsame, fun hu2 h0 => ?_⟩
        rw [BorrowBook_without_stock env2 _ userID2 book1.ID _ hfind2 hzero hu2 hb h0]
      · rw [hfind2] at hf2
        obtain rfl := Option.some.inj hf2
        exact absurd hpos (not_lt.2 hzero)
  · intro env2 recordID currentUserID userID2 hok
    rcases ReturnBook_cases env s recordID currentUserID with
      ⟨herr, _⟩ | ⟨record, book, hfind, hown, _, _, hr, hu, h⟩
    · exact absurd hok herr
    · obtain rfl : record.ID = recordID := (record_find_some hfind).2
      have hfind2 : borrowRecordRepoImpl.find
          (BorrowService.ReturnBook env s record.ID currentUserID).2.records record.ID =
          some { record with ReturnedAt := some (env.now 0) } := by
        rw [h]
        exact record_find_map_replace hfind rfl
      rcases ReturnBook_cases env2 (BorrowService.ReturnBook env s record.ID currentUserID).2
          record.ID userID2 with ⟨herr2, hsame⟩ | ⟨record2, _, hf2, _, hopen, _⟩
      · refine ⟨herr2, hsame, fun h0 => ?_⟩
        rw [ReturnBook_of_closed env2 _ record.ID currentUserID _ hfind2 hown (by simp) hr hu h0]
      · rw [hfind2] at hf2
        obtain rfl := Option.some.inj hf2
        simp at hopen

/-- C21 witness: BorrowBook(7, 1) and BorrowBook(8, 2) that both read the
catalogue before either writes leave what the two calls leave one after the
other, both succeeding; after BorrowBook(7, 1) on the one copy, BorrowBook(8, 1)
returns ErrStockNotEnough; after ReturnBook(1, 7), a second ReturnBook(1, 7)
returns ErrAlreadyReturned. -/
theorem C21_serial_when_reads_current_witness :
    bothReadThenWrite (BorrowService.BorrowBookAt (Env.calm t0) 7 1)
        (BorrowService.BorrowBookAt (Env.calm t0) 8 2) shelf =
      ((BorrowService.BorrowBook (Env.calm t0) shelf 7 1).1,
        (BorrowService.BorrowBook (Env.calm t0)
          (BorrowService.BorrowBook (Env.calm t0) shelf 7 1).2 8 2).1,
        (BorrowService.BorrowBook (Env.calm t0)
          (BorrowService.BorrowBook (Env.calm t0) shelf 7 1).2 8 2).2) ∧
    BorrowService.BorrowBook (Env.calm t0)
        (BorrowService.BorrowBook (Env.calm t0) shelf 7 1).2 8 2 =
      (none,
        { books := [{ ID := 1, Title := "abc", Author := "xyz", Stock := 0 },
                    { ID := 2, Title := "a_c", Author := "pq", Stock := 1 },
                    { ID := 3, Title := "100%", Author := "rs", Stock := 0 }],
          records := [openRecord 1 7 1, openRecord 2 8 2] }) ∧
    (BorrowService.BorrowBook (Env.calm t0)
      (BorrowService.BorrowBook (Env.calm t0) oneCopy 7 1).2 8 1).1 =
      some .ErrStockNotEnough ∧
    (BorrowService.ReturnBook (Env.calm t1)
      (BorrowService.ReturnBook (Env.calm t0) lentOut 1 7).2 1 7).1 =
      some .ErrAlreadyReturned :=
  ⟨(C21_serial_when_reads_current (Env.calm t0) shelf).2.2.2.1 (Env.calm t0) 7 8 1 2
      (by decide) (by decide),
    by decide,
    ((C21_serial_when_reads_current (Env.calm t0) oneCopy).2.2.2.2.1 (Env.calm t0) 7 8 1
      { ID := 1, Title := "X", Author := "Y", Stock := 1 } (by decide) rfl (by decide)).2.2
      (by decide) rfl,
    ((C21_serial_when_reads_current (Env.calm t0) lentOut).2.2.2.2.2 (Env.calm t1) 1 7 7
      (by decide)).2.2 rfl⟩
end LibrarySystem
